import Mathlib

/-!
# Bel chaincode (`bid/chaincode/asset_1.go`, `bid/chaincode/bid_app_1.go`)

A shallow embedding of the dispatch-order / asset / voucher / invoice chaincode (the
shipment variant), of the auction chaincode (the auction variant) and of the ledger
interface they run against, followed by theorems about them.

Conventions of the embedding.

* Go `int` is the signed 64-bit integer of the platforms the chaincode runs on:
  values are `Int`, and every arithmetic result is reduced by `wrapInt`.
* A byte payload is always the JSON text of an object whose values are strings; it is
  modelled by the list of its members (`Payload`).
* A Go run-time panic (indexing an empty slice) is the outcome `Outcome.fault`.
* Every operation returns its outcome together with the working state of the
  invocation, that is the ledger with every write issued so far applied; `commit`
  is the host keeping or discarding that state.
* `time.Now()` is read from the environment of the invocation, one reading per call.
-/

set_option autoImplicit false

namespace Bel

/-! ## Go primitives -/

/-- Reduction of an integer into the range of a signed 64-bit Go `int`. -/
def wrapInt (x : Int) : Int :=
  (x + 9223372036854775808) % 18446744073709551616 - 9223372036854775808

/-- Value of a list of decimal digits, most significant first. -/
def digitsValue (ds : List Char) : Nat :=
  ds.foldl (fun a c => 10 * a + (c.toNat - 48)) 0

/-- Go `strconv.Atoi`: an optional sign, then a non-empty run of ASCII digits, the value
lying in the range of `int`; `none` stands for the returned error. -/
def Atoi (s : String) : Option Int :=
  let cs := s.toList
  let neg : Bool := match cs with
    | '-' :: _ => true
    | _ => false
  let ds : List Char := match cs with
    | '+' :: r => r
    | '-' :: r => r
    | _ => cs
  if ds.isEmpty || !(ds.all Char.isDigit) then none
  else
    let n : Int := (digitsValue ds : Nat)
    let v : Int := if neg then -n else n
    if v < -9223372036854775808 ∨ 9223372036854775807 < v then none else some v

/-- Go `strconv.Itoa`. -/
def Itoa (i : Int) : String :=
  if i < 0 then "-" ++ Nat.repr (-i).toNat else Nat.repr i.toNat

/-- Worker of `Split`: `acc` holds the current piece, reversed. -/
def splitAux : List Char → List Char → List String
  | [], acc => [String.mk acc.reverse]
  | c :: r, acc =>
    if c = ',' then String.mk acc.reverse :: splitAux r [] else splitAux r (c :: acc)

/-- Go `strings.Split(s, ",")`. -/
def Split (s : String) : List String :=
  splitAux s.toList []

/-! ## Lifecycle constants -/

def STATE_OBD_REQUEST_CREATED : Int := 0
def STATE_READY_FOR_DISPATCH : Int := 1
def STATE_ARRIVAL_OF_TRANSPORTER : Int := 2
def STATE_READY_FOR_SHIPMENT : Int := 3
def STATE_IN_TRANSIT : Int := 4
def STATE_SHIPMENT_DELIVERED : Int := 5
def STATE_AMENDED : Int := 6
def STATE_DROPPED : Int := 7
def STATE_VOUCHER_CREATED : Int := 8
def STATE_VOUCHER_VALIDATED : Int := 9
def STATE_INVOICE_VALIDATED : Int := 10
def STATE_INVOICE_GENERATED : Int := 11

/-! ## Records -/

/-- Go struct `DispatchOrderObject`. -/
structure DispatchOrderObject where
  DispatchOrderID : String
  Stage : String
  Customer : String
  Transporter : String
  Seller : String
  AssetIDs : String
  AsnNumber : String
  Source : String
  ShipmentType : String
  ContractType : String
  DeliveryTerm : String
  DispatchDate : String
  TransporterRef : String
  LoadingType : String
  VehicleType : String
  Weight : String
  Consignment : String
  Quantity : String
  PartNumber : String
  PartName : String
  OrderRefNum : String
  CreatedOn : String
  DocumentID1 : String
  DocumentID2 : String
  DocumentID3 : String
  DocumentID4 : String
  DropDescription : String
  Deliverydescription : String
  InTransitDisptachOfficerSigned : String
  InTransitTransporterSigned : String
  TransactionDescription : String
  TimeStamp : String
deriving DecidableEq, Repr

/-- Go struct `AssetObject`. -/
structure AssetObject where
  AssetID : String
  PartNumber : String
  PartDescription : String
  Owner : String
  Stage : String
  BatchNumer : String
  ManufactureDate : String
  Itchs : String
  ExciseChaperNumber : String
  OrderID : String
deriving DecidableEq, Repr

/-- Go struct `DocumentObject`. -/
structure DocumentObject where
  DocumentID : String
  DocumentName : String
  DocumentType : String
  DocumentString : String
  CreatedON : String
deriving DecidableEq, Repr

/-- Go struct `TransactionHistoryObject`. -/
structure TransactionHistoryObject where
  OrderID : String
  Stage : String
  Timestamp : String
  User : String
  TransactionDescription : String
deriving DecidableEq, Repr

/-- Go struct `VoucherObject`. -/
structure VoucherObject where
  VoucherID : String
  DispatchOrderID : String
  Stage : String
  Customer : String
  Transporter : String
  Seller : String
  AssetIDs : String
  AsnNumber : String
  Source : String
  ShipmentType : String
  ContractType : String
  DeliveryTerm : String
  DispatchDate : String
  TransporterRef : String
  LoadingType : String
  VehicleType : String
  Weight : String
  Consignment : String
  Quantity : String
  PartNumber : String
  PartName : String
  OrderRefNum : String
  CreatedOn : String
  DocumentID1 : String
  DocumentID2 : String
  DocumentID3 : String
  DocumentID4 : String
  DropDescription : String
  Deliverydescription : String
  InTransitDisptachOfficerSigned : String
  InTransitTransporterSigned : String
  TransactionDescription : String
  TimeStamp : String
  Amount : String
deriving DecidableEq, Repr

/-- Go struct `InvoiceObject`. -/
structure InvoiceObject where
  InvoiceID : String
  VoucherList : String
  Stage : String
  Amount : String
deriving DecidableEq, Repr

deriving instance DecidableEq for Except

/-! ## Pricing engine -/

/-- Go `CalculateVoucherAmount`: the weight is parsed first, then the nested
comparisons on loading type, vehicle type and customer; a combination that matches no
branch falls through to `return 0, nil`. -/
def CalculateVoucherAmount (voucherObject : VoucherObject) : Except String Int :=
  match Atoi voucherObject.Weight with
  | none => .error "CalculateVoucherAmount: Unable to convert weight to int"
  | some weight =>
    if voucherObject.LoadingType = "LTL" then
      if voucherObject.Customer = "Maruthi Pune" then .ok (wrapInt (2500 * weight))
      else if voucherObject.Customer = "Ashok Leyland Hosur" then .ok (wrapInt (125 * weight))
      else if voucherObject.Customer = "Ford Chennai" then .ok (wrapInt (1100 * weight))
      else .ok 0
    else if voucherObject.LoadingType = "FTL" ∧ voucherObject.VehicleType = "16 Tonner" then
      if voucherObject.Customer = "Maruthi Pune" then .ok (2500 * 16)
      else if voucherObject.Customer = "Ashok Leyland Hosur" then .ok (125 * 16)
      else if voucherObject.Customer = "Ford Chennai" then .ok (1100 * 16)
      else .ok 0
    else if voucherObject.LoadingType = "FTL" ∧ voucherObject.VehicleType = "21 Tonner" then
      if voucherObject.Customer = "Maruthi Pune" then .ok (2500 * 21)
      else if voucherObject.Customer = "Ashok Leyland Hosur" then .ok (125 * 21)
      else if voucherObject.Customer = "Ford Chennai" then .ok (1100 * 21)
      else .ok 0
    else .ok 0

/-- Unit rate of the pricing table, as the specification lists it per customer. -/
def rate (customer : String) : Option Int :=
  if customer = "Maruthi Pune" then some 2500
  else if customer = "Ashok Leyland Hosur" then some 125
  else if customer = "Ford Chennai" then some 1100
  else none

/-- Membership of a combination in the pricing table, as the specification describes
the table: a listed customer with a partial load, or with a full load on a 16 or 21
tonner. -/
def inPricingTable (loadingType vehicleType customer : String) : Bool :=
  (rate customer).isSome &&
    (loadingType == "LTL" ||
      (loadingType == "FTL" && (vehicleType == "16 Tonner" || vehicleType == "21 Tonner")))

/-- A voucher whose fields are all empty; the examples below override single fields. -/
def blankVoucher : VoucherObject :=
  ⟨"", "", "", "", "", "", "", "", "", "", "", "", "", "", "", "", "",
   "", "", "", "", "", "", "", "", "", "", "", "", "", "", "", "", ""⟩

/-! ## Ledger interface

The host ledger is not part of the repository; it is modelled from the contract the
specification gives for the keyed record store: a flat key space read and written by
`GetState`/`PutState`, and named tables of rows with a composite key and one payload
column. -/

/-- JSON text of an object with string values, as the list of its members. The order
of the members in the text is not modelled (Go writes a struct in field order and a
map with its keys sorted); a payload is only ever read through its members by name. -/
abbrev Payload := List (String × String)

/-- First value bound to `k` in an association list. -/
def assocGet {β : Type} (k : String) : List (String × β) → Option β
  | [] => none
  | (k1, v) :: rest => if k1 = k then some v else assocGet k rest

/-- Rebinding of `k`: the first binding of `k` is overwritten, or a new one is added
at the end. -/
def assocSet {β : Type} (k : String) (v : β) : List (String × β) → List (String × β)
  | [] => [(k, v)]
  | (k1, v1) :: rest => if k1 = k then (k1, v) :: rest else (k1, v1) :: assocSet k v rest

/-- Table row: the key columns followed by the single payload column. -/
structure Row where
  keys : List String
  payload : Payload
deriving DecidableEq, Repr

/-- Working state of the ledger: the flat key space and the tables by name, each with
its rows in store order. -/
structure Ledger where
  state : List (String × Payload)
  tables : List (String × List Row)
deriving DecidableEq, Repr

/-- Modelled from the spec: `stub.GetState`, the read of one key of the flat ledger;
`none` is the nil value returned for a key that was never written. -/
def GetState (l : Ledger) (key : String) : Option Payload :=
  assocGet key l.state

/-- Modelled from the spec: `stub.PutState`, the write of one key of the flat ledger. -/
def PutState (l : Ledger) (key : String) (value : Payload) : Ledger :=
  { l with state := assocSet key value l.state }

/-- Modelled from the spec: `stub.InsertRow` (`insert`); it is an error on a table
that was not created, it returns `false` and writes nothing when a row with that exact
key tuple exists, and otherwise it adds the row and returns `true`. -/
def InsertRow (l : Ledger) (tableName : String) (row : Row) : Option (Bool × Ledger) :=
  match assocGet tableName l.tables with
  | none => none
  | some rows =>
    if rows.any (fun r => r.keys = row.keys) then some (false, l)
    else some (true, { l with tables := assocSet tableName (rows ++ [row]) l.tables })

/-- Modelled from the spec: `stub.ReplaceRow` (`replace`); it is an error on a table
that was not created, it returns `false` and writes nothing when no row has that key
tuple, and otherwise it overwrites the payload of that row and returns `true`. -/
def ReplaceRow (l : Ledger) (tableName : String) (row : Row) : Option (Bool × Ledger) :=
  match assocGet tableName l.tables with
  | none => none
  | some rows =>
    if rows.any (fun r => r.keys = row.keys) then
      let rows1 := rows.map (fun r => if r.keys = row.keys then row else r)
      some (true, { l with tables := assocSet tableName rows1 l.tables })
    else some (false, l)

/-- Modelled from the spec: `stub.GetRows` (`queryByPrefix`); the rows whose leading
key components are the given ones, in store order. -/
def GetRows (l : Ledger) (tableName : String) (key : List String) : Option (List Row) :=
  match assocGet tableName l.tables with
  | none => none
  | some rows => some (rows.filter (fun r => key.isPrefixOf r.keys))

/-- Calendar reading of the clock, to the second. -/
structure Instant where
  year : Nat
  month : Nat
  day : Nat
  hour : Nat
  minute : Nat
  second : Nat
deriving DecidableEq, Repr

/-- Decimal digit of a number below ten. -/
def digitChar (n : Nat) : Char :=
  Char.ofNat (48 + n % 10)

/-- Two-digit, zero-padded rendering. -/
def pad2 (n : Nat) : String :=
  String.mk [digitChar (n / 10), digitChar n]

/-- Four-digit, zero-padded rendering. -/
def pad4 (n : Nat) : String :=
  String.mk [digitChar (n / 1000), digitChar (n / 100), digitChar (n / 10), digitChar n]

/-- Go `t.Format("20060102150405")`. -/
def formatCompact (t : Instant) : String :=
  pad4 t.year ++ pad2 t.month ++ pad2 t.day ++ pad2 t.hour ++ pad2 t.minute ++ pad2 t.second

/-- Go `t.Format("2006-01-02 15:04:05")`. -/
def formatLong (t : Instant) : String :=
  pad4 t.year ++ "-" ++ pad2 t.month ++ "-" ++ pad2 t.day ++ " " ++
    pad2 t.hour ++ ":" ++ pad2 t.minute ++ ":" ++ pad2 t.second

/-- What one invocation receives from its host besides the ledger: `now k` is the
reading returned by the `k`-th call of `time.Now()` (counted from 0) and
`callerMetadata` the result of `stub.GetCallerMetadata()`, `none` when it fails. -/
structure Env where
  now : Nat → Instant
  callerMetadata : Option String

/-- Byte slice returned by an operation next to its error. -/
inductive Reply where
  | nil
  | text (s : String)
  | json (p : Payload)
deriving DecidableEq, Repr

/-- Result of an invocation: a return without error, a return with an error, or a
run-time panic. -/
inductive Outcome where
  | ok (r : Reply)
  | error (r : Reply) (msg : String)
  | fault
deriving DecidableEq, Repr

/-- Result of a helper that returns a value and an error. -/
inductive Res (α : Type) where
  | ok (a : α)
  | error (msg : String)
  | fault
deriving DecidableEq, Repr

/-- The `i`-th argument of a list whose length has been checked. -/
def argAt (args : List String) (i : Nat) : String :=
  args.getD i ""

/-- Go map index `dat[k]`: the empty string when the key is absent. -/
def mapIndex (dat : Payload) (k : String) : String :=
  (assocGet k dat).getD ""

/-! ## Entity codec -/

/-- Go `doToJSON`: `json.Marshal` of a dispatch order, one member per field under its JSON tag. -/
def doToJSON (c : DispatchOrderObject) : Payload :=
  [("dispatchOrderId", c.DispatchOrderID), ("stage", c.Stage), ("customer", c.Customer),
   ("transporter", c.Transporter), ("seller", c.Seller), ("assetIDs", c.AssetIDs),
   ("asnNumber", c.AsnNumber), ("source", c.Source), ("shipmentType", c.ShipmentType),
   ("contractType", c.ContractType), ("deliveryTerm", c.DeliveryTerm),
   ("dispatchDate", c.DispatchDate), ("transporterRef", c.TransporterRef),
   ("loadingType", c.LoadingType), ("vehicleType", c.VehicleType), ("weight", c.Weight),
   ("consignment", c.Consignment), ("quantity", c.Quantity), ("partNumber", c.PartNumber),
   ("partName", c.PartName), ("orderRefNum", c.OrderRefNum), ("createdOn", c.CreatedOn),
   ("documentID1", c.DocumentID1), ("documentID2", c.DocumentID2),
   ("documentID3", c.DocumentID3), ("documentID4", c.DocumentID4),
   ("dropDescription", c.DropDescription), ("deliverydescription", c.Deliverydescription),
   ("inTransitDisptachOfficerSigned", c.InTransitDisptachOfficerSigned),
   ("inTransitTransporterSigned", c.InTransitTransporterSigned),
   ("transactionDescription", c.TransactionDescription), ("timeStamp", c.TimeStamp)]

/-- Go `voToJSON`: `json.Marshal` of a voucher. -/
def voToJSON (c : VoucherObject) : Payload :=
  [("voucherOrderID", c.VoucherID), ("dispatchOrderId", c.DispatchOrderID), ("stage", c.Stage),
   ("customer", c.Customer), ("transporter", c.Transporter), ("seller", c.Seller),
   ("assetIDs", c.AssetIDs), ("asnNumber", c.AsnNumber), ("source", c.Source),
   ("shipmentType", c.ShipmentType), ("contractType", c.ContractType),
   ("deliveryTerm", c.DeliveryTerm), ("dispatchDate", c.DispatchDate),
   ("transporterRef", c.TransporterRef), ("loadingType", c.LoadingType),
   ("vehicleType", c.VehicleType), ("weight", c.Weight), ("consignment", c.Consignment),
   ("quantity", c.Quantity), ("partNumber", c.PartNumber), ("partName", c.PartName),
   ("orderRefNum", c.OrderRefNum), ("createdOn", c.CreatedOn), ("documentID1", c.DocumentID1),
   ("documentID2", c.DocumentID2), ("documentID3", c.DocumentID3),
   ("documentID4", c.DocumentID4), ("dropDescription", c.DropDescription),
   ("deliverydescription", c.Deliverydescription),
   ("inTransitDisptachOfficerSigned", c.InTransitDisptachOfficerSigned),
   ("inTransitTransporterSigned", c.InTransitTransporterSigned),
   ("transactionDescription", c.TransactionDescription), ("timeStamp", c.TimeStamp),
   ("amount", c.Amount)]

/-- Go `ARtoJSON`: `json.Marshal` of an asset. -/
def ARtoJSON (c : AssetObject) : Payload :=
  [("assetId", c.AssetID), ("partNumber", c.PartNumber),
   ("partDescription", c.PartDescription), ("owner", c.Owner), ("stage", c.Stage),
   ("batchNumer", c.BatchNumer), ("manufactureDate", c.ManufactureDate), ("itchs", c.Itchs),
   ("exciseChaperNumber", c.ExciseChaperNumber), ("orderId", c.OrderID)]

/-- Go `InvoicetoJSON`: `json.Marshal` of an invoice. -/
def InvoicetoJSON (c : InvoiceObject) : Payload :=
  [("InvoiceID", c.InvoiceID), ("VoucherList", c.VoucherList), ("stage", c.Stage),
   ("amount", c.Amount)]

/-- Go `TRtoJSON`: `json.Marshal` of a transaction-history record. -/
def TRtoJSON (c : TransactionHistoryObject) : Payload :=
  [("orderId", c.OrderID), ("stage", c.Stage), ("timestamp", c.Timestamp), ("user", c.User),
   ("transactionDescription", c.TransactionDescription)]

/-- Go `DOCtoJSON`: `json.Marshal` of a document. -/
def DOCtoJSON (c : DocumentObject) : Payload :=
  [("documentId", c.DocumentID), ("documentName", c.DocumentName),
   ("documentType", c.DocumentType), ("documentString", c.DocumentString),
   ("createdOn", c.CreatedON)]

/-- Go `JSONtoAR`: `json.Unmarshal` into an asset; a member that is absent leaves the empty string. -/
def JSONtoAR (data : Payload) : AssetObject :=
  ⟨mapIndex data "assetId", mapIndex data "partNumber", mapIndex data "partDescription",
   mapIndex data "owner", mapIndex data "stage", mapIndex data "batchNumer",
   mapIndex data "manufactureDate", mapIndex data "itchs", mapIndex data "exciseChaperNumber",
   mapIndex data "orderId"⟩

/-- Go `JSONtoInvoice`: `json.Unmarshal` into an invoice. -/
def JSONtoInvoice (data : Payload) : InvoiceObject :=
  ⟨mapIndex data "InvoiceID", mapIndex data "VoucherList", mapIndex data "stage",
   mapIndex data "amount"⟩

/-- Go `JSONtoVO`: `json.Unmarshal` into a voucher. -/
def JSONtoVO (data : Payload) : VoucherObject :=
  ⟨mapIndex data "voucherOrderID", mapIndex data "dispatchOrderId", mapIndex data "stage",
   mapIndex data "customer", mapIndex data "transporter", mapIndex data "seller",
   mapIndex data "assetIDs", mapIndex data "asnNumber", mapIndex data "source",
   mapIndex data "shipmentType", mapIndex data "contractType", mapIndex data "deliveryTerm",
   mapIndex data "dispatchDate", mapIndex data "transporterRef", mapIndex data "loadingType",
   mapIndex data "vehicleType", mapIndex data "weight", mapIndex data "consignment",
   mapIndex data "quantity", mapIndex data "partNumber", mapIndex data "partName",
   mapIndex data "orderRefNum", mapIndex data "createdOn", mapIndex data "documentID1",
   mapIndex data "documentID2", mapIndex data "documentID3", mapIndex data "documentID4",
   mapIndex data "dropDescription", mapIndex data "deliverydescription",
   mapIndex data "inTransitDisptachOfficerSigned", mapIndex data "inTransitTransporterSigned",
   mapIndex data "transactionDescription", mapIndex data "timeStamp", mapIndex data "amount"⟩

/-! ## Helpers of the shipment chaincode -/

/-- Go `GetNumberOfKeys`: the key arity of a table, 0 for a name that is not in the map. -/
def GetNumberOfKeys (tname : String) : Nat :=
  if tname = "AssetTable" then 3
  else if tname = "TransactionHistory" then 3
  else if tname = "DocumentTable" then 3
  else if tname = "VoucherTable" then 3
  else if tname = "InvoiceTable" then 4
  else 0

/-- Go `JSONtoArgs`: `json.Unmarshal` into a `map[string]string`; the nil value of a
key that was never written does not parse. -/
def JSONtoArgs (avalbytes : Option Payload) : Option Payload :=
  avalbytes

/-- Go `createDispatchOrderObject`; `now` is the reading of its `time.Now()`. The
stage is the constant `STATE_OBD_REQUEST_CREATED`, whatever `args[1]` holds. -/
def createDispatchOrderObject (now : Instant) (args : List String) :
    Except String DispatchOrderObject :=
  if args.length ≠ 31 then
    .error "CreateDispatchOrderObject(): Incorrect number of arguments. Expecting 31 "
  else .ok
    ⟨argAt args 0, Itoa STATE_OBD_REQUEST_CREATED, argAt args 2, argAt args 3, argAt args 4,
     argAt args 5, argAt args 6, argAt args 7, argAt args 8, argAt args 9, argAt args 10,
     argAt args 11, argAt args 12, argAt args 13, argAt args 14, argAt args 15, argAt args 16,
     argAt args 17, argAt args 18, argAt args 19, argAt args 20, argAt args 21, argAt args 22,
     argAt args 23, argAt args 24, argAt args 25, argAt args 26, argAt args 27, argAt args 28,
     argAt args 29, argAt args 30, formatCompact now⟩

/-- Go `CreateAssetObject`. -/
def CreateAssetObject (args : List String) : Except String AssetObject :=
  if args.length ≠ 10 then
    .error "CreateAssetObject(): Incorrect number of arguments. Expecting 10 "
  else .ok
    ⟨argAt args 0, argAt args 1, argAt args 2, argAt args 3, argAt args 4, argAt args 5,
     argAt args 6, argAt args 7, argAt args 8, argAt args 9⟩

/-- Go `CreateVoucherObject`; `now` is the reading of its `time.Now()`. -/
def CreateVoucherObject (now : Instant) (args : List String) : Except String VoucherObject :=
  if args.length ≠ 31 then
    .error "CreateVoucherObject(): Incorrect number of arguments. Expecting 31 "
  else
    let myVoucher : VoucherObject :=
      ⟨argAt args 0, argAt args 0, argAt args 1, argAt args 2, argAt args 3, argAt args 4,
       argAt args 5, argAt args 6, argAt args 7, argAt args 8, argAt args 9, argAt args 10,
       argAt args 11, argAt args 12, argAt args 13, argAt args 14, argAt args 15,
       argAt args 16, argAt args 17, argAt args 18, argAt args 19, argAt args 20,
       argAt args 21, argAt args 22, argAt args 23, argAt args 24, argAt args 25,
       argAt args 26, argAt args 27, argAt args 28, argAt args 29, argAt args 30,
       formatCompact now, "amount"⟩
    match CalculateVoucherAmount myVoucher with
    | .error err => .error err
    | .ok voucherAmount => .ok { myVoucher with Amount := Itoa voucherAmount }

/-- Go `CreateUpdatedVoucherObject`; `now` is the reading of its `time.Now()`. -/
def CreateUpdatedVoucherObject (now : Instant) (args : List String) :
    Except String VoucherObject :=
  if args.length ≠ 34 then
    .error "CreateVoucherObject(): Incorrect number of arguments. Expecting 34 "
  else .ok
    ⟨argAt args 0, argAt args 1, argAt args 2, argAt args 3, argAt args 4, argAt args 5,
     argAt args 6, argAt args 7, argAt args 8, argAt args 9, argAt args 10, argAt args 11,
     argAt args 12, argAt args 13, argAt args 14, argAt args 15, argAt args 16, argAt args 17,
     argAt args 18, argAt args 19, argAt args 20, argAt args 21, argAt args 22, argAt args 23,
     argAt args 24, argAt args 25, argAt args 26, argAt args 27, argAt args 28, argAt args 29,
     argAt args 30, argAt args 31, formatCompact now, argAt args 33⟩

/-- Go `CreateInvoiceObject`. -/
def CreateInvoiceObject (args : List String) : Except String InvoiceObject :=
  if args.length ≠ 4 then
    .error "CreateInvoiceObject(): Incorrect number of arguments. Expecting 4 "
  else .ok ⟨argAt args 0, argAt args 1, argAt args 2, argAt args 3⟩

/-- Go `CreateDocumentObject`; `now` is the reading of its `time.Now()`. -/
def CreateDocumentObject (now : Instant) (args : List String) : Except String DocumentObject :=
  if args.length ≠ 4 then
    .error "CreateDocumentObject(): Incorrect number of arguments. Expecting 4 "
  else .ok ⟨argAt args 0, argAt args 1, argAt args 2, argAt args 3, formatCompact now⟩

/-- Go `UpdateLedger`: the row is built from the first `GetNumberOfKeys tableName`
entries of `keys` (reading `keys[i]` past the end is a panic) and inserted. -/
def UpdateLedger (l : Ledger) (tableName : String) (keys : List String) (args : Payload) :
    Res Ledger :=
  let nKeys := GetNumberOfKeys tableName
  if keys.length < nKeys then .fault
  else
    match InsertRow l tableName ⟨keys.take nKeys, args⟩ with
    | none => .error ("UpdateLedger: InsertRow into " ++ tableName ++ " Table operation failed. ")
    | some (false, _) =>
      .error ("UpdateLedger: InsertRow into " ++ tableName ++ " Table failed. Row with given key " ++
        argAt keys 0 ++ " already exists")
    | some (true, l1) => .ok l1

/-- Go `ReplaceRowInLedger`: as `UpdateLedger`, with `stub.ReplaceRow`. -/
def ReplaceRowInLedger (l : Ledger) (tableName : String) (keys : List String) (args : Payload) :
    Res Ledger :=
  let nKeys := GetNumberOfKeys tableName
  if keys.length < nKeys then .fault
  else
    match ReplaceRow l tableName ⟨keys.take nKeys, args⟩ with
    | none => .error ("UpdateLedger: InsertRow into " ++ tableName ++ " Table operation failed. ")
    | some (false, _) =>
      .error ("UpdateLedger: InsertRow into " ++ tableName ++ " Table failed. Row with given key " ++
        argAt keys 0 ++ " already exists")
    | some (true, l1) => .ok l1

/-- Go `GetList`: the rows of a table under a key prefix of at least one component. -/
def GetList (l : Ledger) (tableName : String) (args : List String) : Res (List Row) :=
  if args.length < 1 then .error "GetList failed. Must include at least key values"
  else
    match GetRows l tableName args with
    | none => .error "GetList operation failed. "
    | some rows => .ok rows

/-- Go `getunValidatedInvoice`: the first row of `InvoiceTable` under the prefix
`("invoice", InvoiceID, "9")`; `rows[0]` on an empty result is a panic. -/
def getunValidatedInvoice (l : Ledger) (InvoiceID : String) : Res InvoiceObject :=
  match GetList l "InvoiceTable" ["invoice", InvoiceID, "9"] with
  | .error msg => .error ("getInvoice() operation failed. Error marshaling JSON: " ++ msg)
  | .fault => .fault
  | .ok rows =>
    match rows with
    | [] => .fault
    | row :: _ => .ok (JSONtoInvoice row.payload)

/-- Go `getAssetFromTable`: the first row of `AssetTable` under the given prefix;
`rows[0]` on an empty result is a panic. -/
def getAssetFromTable (l : Ledger) (args : List String) : Res AssetObject :=
  match GetList l "AssetTable" args with
  | .error msg => .error ("GetAssets() operation failed. Error marshaling JSON: " ++ msg)
  | .fault => .fault
  | .ok rows =>
    match rows with
    | [] => .fault
    | row :: _ => .ok (JSONtoAR row.payload)

/-- Go `getVoucherFromTable`: the first row of `VoucherTable` under the given prefix;
`rows[0]` on an empty result is a panic. -/
def getVoucherFromTable (l : Ledger) (args : List String) : Res VoucherObject :=
  match GetList l "VoucherTable" args with
  | .error msg =>
    .error ("getInvoiceFromTable() operation failed. Error marshaling JSON: " ++ msg)
  | .fault => .fault
  | .ok rows =>
    match rows with
    | [] => .fault
    | row :: _ => .ok (JSONtoVO row.payload)

/-! ## Invoke operations -/

/-- Go `createDispatchOrder`. The error of the final `UpdateLedger` is assigned and
never read: the function returns `nil, nil` whether the history row was inserted or
not. -/
def createDispatchOrder (env : Env) (l : Ledger) (args : List String) : Outcome × Ledger :=
  match createDispatchOrderObject (env.now 0) args with
  | .error _ => (.error .nil "createDispatchOrder(): Cannot create dipatch object", l)
  | .ok dispatchObject =>
    match GetState l dispatchObject.DispatchOrderID with
    | some _ =>
      (.error .nil ("Failed - contract already exists " ++ dispatchObject.DispatchOrderID), l)
    | none =>
      let buff := doToJSON dispatchObject
      let l1 := PutState l (argAt args 0) buff
      let transactionTime := formatLong (env.now 1)
      match env.callerMetadata with
      | none => (.error .nil "GetCallerMetadata failed", l1)
      | some user =>
        let transactionHistoryObject : TransactionHistoryObject :=
          ⟨dispatchObject.DispatchOrderID, dispatchObject.Stage, transactionTime, user,
           dispatchObject.TransactionDescription⟩
        let buffer := TRtoJSON transactionHistoryObject
        let keys := ["transaction", dispatchObject.DispatchOrderID, formatLong (env.now 2)]
        match UpdateLedger l1 "TransactionHistory" keys buffer with
        | .ok l2 => (.ok .nil, l2)
        | .error _ => (.ok .nil, l1)
        | .fault => (.fault, l1)

/-- Go `updateDispatchOrder`. The stage of the rewritten order is `args[1]` as given. -/
def updateDispatchOrder (env : Env) (l : Ledger) (args : List String) : Outcome × Ledger :=
  if args.length ≠ 31 then (.error .nil "Incorrect number of arguments. Expecting 3 args", l)
  else
    let dispatchorderID := argAt args 0
    match JSONtoArgs (GetState l dispatchorderID) with
    | none => (.error .nil ("unable to convert jsonToArgs for" ++ dispatchorderID), l)
    | some dat =>
      let updatedDispatchOrder : DispatchOrderObject :=
      ⟨mapIndex dat "dispatchOrderId", argAt args 1, argAt args 2, argAt args 3, argAt args 4,
       argAt args 5, argAt args 6, argAt args 7, argAt args 8, argAt args 9, argAt args 10,
       argAt args 11, argAt args 12, argAt args 13, argAt args 14, argAt args 15,
       argAt args 16, argAt args 17, argAt args 18, argAt args 19, argAt args 20,
       argAt args 21, argAt args 22, argAt args 23, argAt args 24, argAt args 25,
       argAt args 26, argAt args 27, argAt args 28, argAt args 29, argAt args 30,
       formatCompact (env.now 0)⟩
      let buff := doToJSON updatedDispatchOrder
      let l1 := PutState l (mapIndex dat "dispatchOrderId") buff
      let transactionTime := formatLong (env.now 1)
      match env.callerMetadata with
      | none => (.error .nil "GetCallerMetadata failed", l1)
      | some user =>
        let transactionHistoryObject : TransactionHistoryObject :=
          ⟨updatedDispatchOrder.DispatchOrderID, updatedDispatchOrder.Stage, transactionTime,
           user, updatedDispatchOrder.TransactionDescription⟩
        let buffer := TRtoJSON transactionHistoryObject
        let keys :=
          ["transaction", updatedDispatchOrder.DispatchOrderID, formatLong (env.now 2)]
        match UpdateLedger l1 "TransactionHistory" keys buffer with
        | .ok l2 => (.ok .nil, l2)
        | .error _ => (.ok .nil, l1)
        | .fault => (.fault, l1)

/-- Go `invokeAsset`, the handler of `createAsset`. -/
def invokeAsset (_env : Env) (l : Ledger) (args : List String) : Outcome × Ledger :=
  match CreateAssetObject args with
  | .error err => (.error .nil err, l)
  | .ok assetObject =>
    let buff := ARtoJSON assetObject
    let keys := ["asset", assetObject.AssetID, assetObject.Owner]
    match UpdateLedger l "AssetTable" keys buff with
    | .ok l1 => (.ok .nil, l1)
    | .error err => (.error (.json buff) err, l)
    | .fault => (.fault, l)

/-- Tail of `createVoucher` and of `updateVoucher` after the voucher row is written:
the order must exist, it is overwritten, and the history row is inserted with the
error of that insert dropped. `kTime` and `kKey` are the indices of the two clock
readings. -/
def voucherTail (env : Env) (l : Ledger) (voucherObject : VoucherObject)
    (dispatchOrderBuffer : Payload) (kTime kKey : Nat) : Outcome × Ledger :=
  match GetState l voucherObject.DispatchOrderID with
  | none =>
    (.error .nil ("Failed - contract is null for " ++ voucherObject.DispatchOrderID), l)
  | some _ =>
    let l1 := PutState l voucherObject.DispatchOrderID dispatchOrderBuffer
    let transactionTime := formatLong (env.now kTime)
    match env.callerMetadata with
    | none => (.error .nil "GetCallerMetadata failed", l1)
    | some user =>
      let transactionHistoryObject : TransactionHistoryObject :=
        ⟨voucherObject.DispatchOrderID, voucherObject.Stage, transactionTime, user,
         voucherObject.TransactionDescription⟩
      let buffer := TRtoJSON transactionHistoryObject
      let trasactionkeys :=
        ["transaction", voucherObject.DispatchOrderID, formatLong (env.now kKey)]
      match UpdateLedger l1 "TransactionHistory" trasactionkeys buffer with
      | .ok l2 => (.ok .nil, l2)
      | .error _ => (.ok .nil, l1)
      | .fault => (.fault, l1)

/-- Go `createVoucher`: the voucher row is inserted first, the existence of the order
is checked after it. -/
def createVoucher (env : Env) (l : Ledger) (args : List String) : Outcome × Ledger :=
  match CreateVoucherObject (env.now 0) args with
  | .error err => (.error .nil err, l)
  | .ok voucherObject0 =>
    match createDispatchOrderObject (env.now 1) args with
    | .error err => (.error .nil err, l)
    | .ok dispatchObject0 =>
      let dispatchObject := { dispatchObject0 with Stage := Itoa STATE_VOUCHER_CREATED }
      let dispatchOrderBuffer := doToJSON dispatchObject
      let voucherObject := { voucherObject0 with Stage := Itoa STATE_VOUCHER_CREATED }
      let buff := voToJSON voucherObject
      let keys := ["voucher", voucherObject.VoucherID, "invoice"]
      match UpdateLedger l "VoucherTable" keys buff with
      | .error err => (.error (.json buff) err, l)
      | .fault => (.fault, l)
      | .ok l1 => voucherTail env l1 voucherObject dispatchOrderBuffer 2 3

/-- Go `updateVoucher`: the order object is built from `args[1:32]`. -/
def updateVoucher (env : Env) (l : Ledger) (args : List String) : Outcome × Ledger :=
  match CreateUpdatedVoucherObject (env.now 0) args with
  | .error err => (.error .nil err, l)
  | .ok voucherObject0 =>
    match createDispatchOrderObject (env.now 1) ((args.drop 1).take 31) with
    | .error err => (.error .nil err, l)
    | .ok dispatchObject0 =>
      let dispatchObject := { dispatchObject0 with Stage := Itoa STATE_VOUCHER_VALIDATED }
      let dispatchOrderBuffer := doToJSON dispatchObject
      let voucherObject := { voucherObject0 with Stage := Itoa STATE_VOUCHER_VALIDATED }
      let buff := voToJSON voucherObject
      let keys := ["voucher", voucherObject.VoucherID, "invoice"]
      match ReplaceRowInLedger l "VoucherTable" keys buff with
      | .error err => (.error (.json buff) err, l)
      | .fault => (.fault, l)
      | .ok l1 => voucherTail env l1 voucherObject dispatchOrderBuffer 2 3

/-- Loop of `mapAsset` over the asset IDs still to process; `none` is the normal end of
the loop, `some o` a return or panic from inside it. -/
def mapAssetLoop (orderID : String) (dat : Payload) (dispatchOrderAsString : Payload) :
    List String → Ledger → Option Outcome × Ledger
  | [], l => (none, l)
  | id :: rest, l =>
    match getAssetFromTable l ["asset", id] with
    | .error err =>
      (some (.error .nil ("GetAssets() operation failed. Error marshaling JSON: " ++ err)), l)
    | .fault => (some .fault, l)
    | .ok assetObjectFromLedger0 =>
      let assetObjectFromLedger :=
        { assetObjectFromLedger0 with OrderID := orderID, Stage := "Mapped" }
      let buff := ARtoJSON assetObjectFromLedger
      let keys := ["asset", assetObjectFromLedger.AssetID, assetObjectFromLedger.Owner]
      match ReplaceRowInLedger l "AssetTable" keys buff with
      | .error err => (some (.error (.json buff) err), l)
      | .fault => (some .fault, l)
      | .ok l1 =>
        let l2 := PutState l1 (mapIndex dat "dispatchOrderId") dispatchOrderAsString
        mapAssetLoop orderID dat dispatchOrderAsString rest l2

/-- Go `mapAsset`. No argument count is checked: `args[0]` and `args[1]` are read as
they are needed, and reading past the end is a panic. The list is stored in the
order map under the key `assetIds`. -/
def mapAsset (_env : Env) (l : Ledger) (args : List String) : Outcome × Ledger :=
  match args with
  | [] => (.fault, l)
  | orderID :: more =>
    match JSONtoArgs (GetState l orderID) with
    | none => (.error .nil ("unable to convert jsonToArgs for" ++ orderID), l)
    | some dat0 =>
      match more with
      | [] => (.fault, l)
      | assetIds :: _ =>
        let dat := assocSet "assetIds" assetIds dat0
        let dispatchOrderAsString := dat
        match mapAssetLoop orderID dat dispatchOrderAsString (Split assetIds) l with
        | (some o, l1) => (o, l1)
        | (none, l1) => (.ok (.text "Assets Mapped"), l1)

/-- Body shared by the loops of `createInvoice` and `validateInvoice` up to the
arithmetic: the voucher is loaded under the prefix `("voucher", id)`, the order is read
under the key `id`, and its `stage` member is set to `stage`. The result is the loaded
voucher and the rewritten order map. -/
def loadVoucherAndOrder (l : Ledger) (id : String) (stage : String) :
    Except Outcome (VoucherObject × Payload) :=
  match getVoucherFromTable l ["voucher", id] with
  | .error err =>
    .error (.error .nil ("createInvoice() operation failed. Error marshaling JSON: " ++ err))
  | .fault => .error .fault
  | .ok voucherObjectFromLedger =>
    match JSONtoArgs (GetState l id) with
    | none => .error (.error .nil ("unable to convert jsonToArgs for" ++ id))
    | some dat0 => .ok (voucherObjectFromLedger, assocSet "stage" stage dat0)

/-- Writes shared by the loops of `createInvoice` and `validateInvoice`: the stamped
voucher is inserted into `VoucherTable` (the four keys given are cut to the three of
the table) and the order map is written under its own `dispatchOrderId`. -/
def stampVoucherAndOrder (l : Ledger) (invoiceID : String) (voucherObjectFromLedger : VoucherObject)
    (dat : Payload) : Except Outcome Ledger :=
  let buff := voToJSON voucherObjectFromLedger
  let keys :=
    ["voucher", voucherObjectFromLedger.DispatchOrderID, voucherObjectFromLedger.Stage, invoiceID]
  match UpdateLedger l "VoucherTable" keys buff with
  | .error err => .error (.error (.json buff) err)
  | .fault => .error .fault
  | .ok l1 => .ok (PutState l1 (mapIndex dat "dispatchOrderId") dat)

/-- Loop of `createInvoice`; `invoiceAmount` is the running sum. The result is either
the return from inside the loop or the sum at its end. -/
def createInvoiceLoop (invoiceID : String) :
    List String → Int → Ledger → Except Outcome Int × Ledger
  | [], invoiceAmount, l => (.ok invoiceAmount, l)
  | id :: rest, invoiceAmount, l =>
    match loadVoucherAndOrder l id (Itoa STATE_INVOICE_GENERATED) with
    | .error o => (.error o, l)
    | .ok (voucherObjectFromLedger0, dat) =>
      match Atoi voucherObjectFromLedger0.Amount with
      | none => (.error (.error .nil ("unable to convert jsonToArgs for" ++ id)), l)
      | some invoiceAmountAsInt =>
        let invoiceAmount1 := wrapInt (invoiceAmount + invoiceAmountAsInt)
        let voucherObjectFromLedger :=
          { voucherObjectFromLedger0 with Stage := Itoa STATE_INVOICE_GENERATED }
        match stampVoucherAndOrder l invoiceID voucherObjectFromLedger dat with
        | .error o => (.error o, l)
        | .ok l2 => createInvoiceLoop invoiceID rest invoiceAmount1 l2

/-- Go `createInvoice`. No argument count is checked: `args[0]` and `args[1]` are read
at the start, and reading past the end is a panic. -/
def createInvoice (env : Env) (l : Ledger) (args : List String) : Outcome × Ledger :=
  match args with
  | invoiceID :: voucherIds :: _ =>
    match createInvoiceLoop invoiceID (Split voucherIds) 0 l with
    | (.error o, l1) => (o, l1)
    | (.ok invoiceAmount, l1) =>
      let invoice :=
        [invoiceID, voucherIds, Itoa STATE_INVOICE_GENERATED, Itoa invoiceAmount]
      match CreateInvoiceObject invoice with
      | .error err => (.error .nil err, l1)
      | .ok invoiceObject =>
        let buffInvoice := InvoicetoJSON invoiceObject
        let transactionTime := formatLong (env.now 0)
        let keys := ["invoice", invoiceID, Itoa STATE_INVOICE_GENERATED, transactionTime]
        match UpdateLedger l1 "InvoiceTable" keys buffInvoice with
        | .error err => (.error (.json buffInvoice) err, l1)
        | .fault => (.fault, l1)
        | .ok l2 => (.ok (.text "Invoice Created"), l2)
  | _ => (.fault, l)

/-- Loop of `validateInvoice`; `none` is the normal end of the loop. -/
def validateInvoiceLoop (invoiceID : String) : List String → Ledger → Option Outcome × Ledger
  | [], l => (none, l)
  | id :: rest, l =>
    match loadVoucherAndOrder l id (Itoa STATE_INVOICE_VALIDATED) with
    | .error o => (some o, l)
    | .ok (voucherObjectFromLedger0, dat) =>
      let voucherObjectFromLedger :=
        { voucherObjectFromLedger0 with Stage := Itoa STATE_INVOICE_VALIDATED }
      match stampVoucherAndOrder l invoiceID voucherObjectFromLedger dat with
      | .error o => (some o, l)
      | .ok l2 => validateInvoiceLoop invoiceID rest l2

/-- Go `validateInvoice`. -/
def validateInvoice (env : Env) (l : Ledger) (args : List String) : Outcome × Ledger :=
  if args.length ≠ 1 then
    (.error (.text "Invoice validation failed")
      "validateInvoice(): Incorrect number of arguments. Expecting 1 ", l)
  else
    let invoiceID := argAt args 0
    match getunValidatedInvoice l invoiceID with
    | .error err =>
      (.error .nil
        ("validateInvoice() operation failed. Unable to fetch invoice from ledger: " ++ err), l)
    | .fault => (.fault, l)
    | .ok invoiceObjectFromLedger0 =>
      let invoiceObjectFromLedger :=
        { invoiceObjectFromLedger0 with Stage := Itoa STATE_INVOICE_VALIDATED }
      let newInvoiceObjectbuff := InvoicetoJSON invoiceObjectFromLedger
      let transactionTime := formatLong (env.now 0)
      let keys := ["invoice", invoiceID, Itoa STATE_INVOICE_VALIDATED, transactionTime]
      match UpdateLedger l "InvoiceTable" keys newInvoiceObjectbuff with
      | .error err => (.error (.json newInvoiceObjectbuff) err, l)
      | .fault => (.fault, l)
      | .ok l1 =>
        let voucherIds := invoiceObjectFromLedger.VoucherList
        match validateInvoiceLoop invoiceID (Split voucherIds) l1 with
        | (some o, l2) => (o, l2)
        | (none, l2) => (.ok (.text "Invoice Validated"), l2)

/-- Go `invokeDocument`, the handler of `createDocument`. -/
def invokeDocument (env : Env) (l : Ledger) (args : List String) : Outcome × Ledger :=
  match CreateDocumentObject (env.now 0) args with
  | .error err => (.error .nil err, l)
  | .ok documentObject =>
    let buff := DOCtoJSON documentObject
    let keys := ["document", documentObject.DocumentID, formatCompact (env.now 1)]
    match UpdateLedger l "DocumentTable" keys buff with
    | .ok l1 => (.ok .nil, l1)
    | .error err => (.error (.json buff) err, l)
    | .fault => (.fault, l)

/-- Go `Invoke`: dispatch on the function name. -/
def Invoke (env : Env) (l : Ledger) (function : String) (args : List String) :
    Outcome × Ledger :=
  if function = "createDispatchOrder" then createDispatchOrder env l args
  else if function = "updateDispatchOrder" then updateDispatchOrder env l args
  else if function = "createAsset" then invokeAsset env l args
  else if function = "mapAsset" then mapAsset env l args
  else if function = "createDocument" then invokeDocument env l args
  else if function = "createVoucher" then createVoucher env l args
  else if function = "updateVoucher" then updateVoucher env l args
  else if function = "createInvoice" then createInvoice env l args
  else if function = "validateInvoice" then validateInvoice env l args
  else (.error .nil ("Received unknown function invocation: " ++ function), l)

/-- Go `tables`: the tables `Init` creates. -/
def tables : List String :=
  ["AssetTable", "TransactionHistory", "DocumentTable", "VoucherTable", "InvoiceTable"]

/-- Go `Init`: every table of `tables` is deleted and created again, empty. -/
def Init (l : Ledger) : Outcome × Ledger :=
  (.ok (.text "Init(): Initialization Complete"),
    { l with tables := tables.foldl (fun ts val => assocSet val [] ts) l.tables })

/-- Ledger of a fresh deployment: nothing in the flat key space, the five tables
created and empty. -/
def emptyLedger : Ledger :=
  (Init ⟨[], []⟩).2

/-- Modelled from the spec: the host keeps the writes of an invocation that returned
without error and discards those of one that failed. -/
def commit (l : Ledger) (r : Outcome × Ledger) : Ledger :=
  match r.1 with
  | .ok _ => r.2
  | _ => l

/-- Ledger states reachable from a fresh deployment by committed invocations whose
function name and arguments satisfy `allowed`, each in an arbitrary environment. -/
inductive ReachableBy (allowed : String → List String → Prop) : Ledger → Prop where
  | init : ReachableBy allowed emptyLedger
  | step {l : Ledger} (env : Env) (function : String) (args : List String) :
      ReachableBy allowed l → allowed function args →
      ReachableBy allowed (commit l (Invoke env l function args))

/-- Ledger states reachable from a fresh deployment by any committed invocations. -/
def Reachable (l : Ledger) : Prop :=
  ReachableBy (fun _ _ => True) l

/-! ## Notions used in the statements -/

/-- Rows of a table, none for a table that was not created. -/
def tableRows (l : Ledger) (tableName : String) : List Row :=
  (assocGet tableName l.tables).getD []

/-- Decimal texts of the twelve lifecycle constants. -/
def stageTexts : List String :=
  [Itoa STATE_OBD_REQUEST_CREATED, Itoa STATE_READY_FOR_DISPATCH,
   Itoa STATE_ARRIVAL_OF_TRANSPORTER, Itoa STATE_READY_FOR_SHIPMENT, Itoa STATE_IN_TRANSIT,
   Itoa STATE_SHIPMENT_DELIVERED, Itoa STATE_AMENDED, Itoa STATE_DROPPED,
   Itoa STATE_VOUCHER_CREATED, Itoa STATE_VOUCHER_VALIDATED, Itoa STATE_INVOICE_VALIDATED,
   Itoa STATE_INVOICE_GENERATED]

/-- Calls whose stage argument is checked: an `updateDispatchOrder` passes as `args[1]`
the decimal text of a lifecycle constant; any other call is unrestricted. -/
def stageChecked (function : String) (args : List String) : Prop :=
  function = "updateDispatchOrder" → argAt args 1 ∈ stageTexts

/-- Invariant of the ledger, for a property `P` of stage texts: the `stage` member of
every entry of the flat key space satisfies `P`, and no row of `InvoiceTable` has "9"
as its third key component. -/
def LedgerInv (P : String → Prop) (l : Ledger) : Prop :=
  (∀ kp ∈ l.state, P (mapIndex kp.2 "stage")) ∧
  (∀ r ∈ tableRows l "InvoiceTable", r.keys.getD 2 "" ≠ "9")

/-- The stage texts the operations write by themselves satisfy `P`. -/
def WrittenStages (P : String → Prop) : Prop :=
  P (Itoa STATE_OBD_REQUEST_CREATED) ∧ P (Itoa STATE_VOUCHER_CREATED) ∧
  P (Itoa STATE_VOUCHER_VALIDATED) ∧ P (Itoa STATE_INVOICE_GENERATED) ∧
  P (Itoa STATE_INVOICE_VALIDATED)

/-- The rows of `VoucherTable` in `l1` are those of `l` followed by further rows. -/
def VoucherExt (l l1 : Ledger) : Prop :=
  ∀ rows, assocGet "VoucherTable" l.tables = some rows →
    ∃ extra, assocGet "VoucherTable" l1.tables = some (rows ++ extra)

/-- An outcome that is not a return without error. -/
def Outcome.failed (o : Outcome) : Prop :=
  ∀ r, o ≠ Outcome.ok r

/-- For the voucher ID `id`: every row of `VoucherTable` under the prefix
("voucher", id) is a stamped copy, keyed ("voucher", id, "11") and holding a voucher
whose DispatchOrderID is `id`. -/
def OnlyStamped (id : String) (l : Ledger) : Prop :=
  ∀ r ∈ tableRows l "VoucherTable", ["voucher", id].isPrefixOf r.keys = true →
    r.keys = ["voucher", id, Itoa STATE_INVOICE_GENERATED] ∧
    (JSONtoVO r.payload).DispatchOrderID = id

/-- Second invariant of the ledger: every entry of the flat key space is stored under
the key its own `dispatchOrderId` member names, and every row of `AssetTable` is keyed
("asset", AssetID, Owner) by the asset it holds. -/
def KeyedInv (l : Ledger) : Prop :=
  (∀ kp ∈ l.state, mapIndex kp.2 "dispatchOrderId" = kp.1) ∧
  (∀ r ∈ tableRows l "AssetTable",
    r.keys = ["asset", (JSONtoAR r.payload).AssetID, (JSONtoAR r.payload).Owner])

/-- The asset `a` as `mapAsset` rewrites it for the order `orderID`: OrderID and Stage
are set, every other field is kept. -/
def mappedTo (orderID : String) (a : AssetObject) : AssetObject :=
  { a with OrderID := orderID, Stage := "Mapped" }

/-! ## Ledgers and arguments of the examples -/

/-- Clock reading used in the examples. -/
def sampleInstant : Instant :=
  ⟨2017, 3, 4, 10, 20, 30⟩

/-- Environment of the examples: the clock stands at `sampleInstant` for the whole
invocation and the caller is known. -/
def sampleEnv : Env :=
  ⟨fun _ => sampleInstant, some "alice"⟩

/-- The 31 arguments of an order or voucher for customer "Maruthi Pune" with a partial
load, with the given ID, stage argument and weight. -/
def sampleArgs (id stage weight : String) : List String :=
  [id, stage, "Maruthi Pune", "", "", "", "", "", "", "", "", "", "", "LTL", "", weight,
   "", "", "", "", "", "", "", "", "", "", "", "", "", "", ""]

/-- Ledger after order "A" was created on a fresh deployment. -/
def ledgerA : Ledger :=
  commit emptyLedger (Invoke sampleEnv emptyLedger "createDispatchOrder" (sampleArgs "A" "0" "10"))

/-- Ledger after order "A" was then updated with the stage argument "4". -/
def ledgerTransit : Ledger :=
  commit ledgerA (Invoke sampleEnv ledgerA "updateDispatchOrder" (sampleArgs "A" "4" "10"))

/-- Ledger after order "A" was then updated with the stage argument "shipped". -/
def ledgerShipped : Ledger :=
  commit ledgerA (Invoke sampleEnv ledgerA "updateDispatchOrder" (sampleArgs "A" "shipped" "10"))

/-- Ledger after a voucher was created for order "A". -/
def ledgerVoucher : Ledger :=
  commit ledgerA (Invoke sampleEnv ledgerA "createVoucher" (sampleArgs "A" "0" "10"))

/-- Ledger after invoice "I" was created over the voucher of order "A". -/
def ledgerInvoiced : Ledger :=
  commit ledgerVoucher (Invoke sampleEnv ledgerVoucher "createInvoice" ["I", "A"])

/-- Ledger after asset "X" of owner "bosch" was registered next to order "A". -/
def ledgerAsset : Ledger :=
  commit ledgerA (Invoke sampleEnv ledgerA "createAsset"
    ["X", "P1", "part", "bosch", "New", "B1", "2017", "i", "e", ""])

/-- Ledger with the orders "A" and "B" and a voucher for each, of weight
3689348814741910 and so of amount 9223372036854775000. -/
def ledgerBig : Ledger :=
  let l1 := commit emptyLedger
    (Invoke sampleEnv emptyLedger "createDispatchOrder" (sampleArgs "A" "0" "3689348814741910"))
  let l2 := commit l1
    (Invoke sampleEnv l1 "createDispatchOrder" (sampleArgs "B" "0" "3689348814741910"))
  let l3 := commit l2
    (Invoke sampleEnv l2 "createVoucher" (sampleArgs "A" "0" "3689348814741910"))
  commit l3 (Invoke sampleEnv l3 "createVoucher" (sampleArgs "B" "0" "3689348814741910"))

/-! ## Auction variant (`bid/chaincode/bid_app_1.go`)

The second chaincode of the repository runs against the same ledger interface, with
two more host calls (`GetRow`, `DeleteRow`) and with clock arithmetic. Its helpers
share their names with those of the shipment variant and live in the namespace
`Auction`. -/

/-- Modelled from the spec: `stub.GetRow` (`getExact`); the row with exactly that key
tuple, `none` for the empty row the host returns when the table holds no such row or
was not created. -/
def GetRow (l : Ledger) (tableName : String) (key : List String) : Option Row :=
  match assocGet tableName l.tables with
  | none => none
  | some rows => rows.find? (fun r => r.keys = key)

/-- Modelled from the spec: `stub.DeleteRow` (`delete`); it is an error on a table
that was not created; otherwise the row with that key tuple is removed, and nothing
changes when there is none. -/
def DeleteRow (l : Ledger) (tableName : String) (key : List String) : Option Ledger :=
  match assocGet tableName l.tables with
  | none => none
  | some rows =>
    let rows1 := rows.filter (fun r => r.keys ≠ key)
    some { l with tables := assocSet tableName rows1 l.tables }

/-- Number of days from 1970-01-01 to the date `y-m-d` of the Gregorian calendar. -/
def daysFromCivil (y m d : Int) : Int :=
  let y1 := if m ≤ 2 then y - 1 else y
  let era := y1 / 400
  let yoe := y1 - era * 400
  let mp := (m + 9) % 12
  let doy := (153 * mp + 2) / 5 + d - 1
  let doe := yoe * 365 + yoe / 4 - yoe / 100 + doy
  era * 146097 + doe - 719468

/-- Date (year, month, day) of the Gregorian calendar `z` days after 1970-01-01. -/
def civilFromDays (z : Int) : Int × Int × Int :=
  let z1 := z + 719468
  let era := z1 / 146097
  let doe := z1 - era * 146097
  let yoe := (doe - doe / 1460 + doe / 36524 - doe / 146096) / 365
  let doy := doe - (365 * yoe + yoe / 4 - yoe / 100)
  let mp := (5 * doy + 2) / 153
  let d := doy - (153 * mp + 2) / 5 + 1
  let m := if mp < 10 then mp + 3 else mp - 9
  let y := yoe + era * 400
  (if m ≤ 2 then y + 1 else y, m, d)

/-- Seconds from 1970-01-01 00:00:00 to a clock reading. -/
def Instant.toSeconds (t : Instant) : Int :=
  daysFromCivil t.year t.month t.day * 86400 + t.hour * 3600 + t.minute * 60 + t.second

/-- Clock reading `s` seconds after 1970-01-01 00:00:00 (years before 0 are outside
the model). -/
def Instant.ofSeconds (s : Int) : Instant :=
  let date := civilFromDays (s / 86400)
  let r := s % 86400
  ⟨date.1.toNat, date.2.1.toNat, date.2.2.toNat,
    (r / 3600).toNat, (r % 3600 / 60).toNat, (r % 60).toNat⟩

/-- Go `t.Add(d)` to the second, for a duration `d` in nanoseconds and a reading `t`
that falls on a whole second; no time zone is modelled. -/
def Instant.Add (t : Instant) (d : Int) : Instant :=
  Instant.ofSeconds (t.toSeconds + d / 1000000000)

/-- Go `time.Minute`, in nanoseconds. -/
def Minute : Int := 60000000000

namespace Auction

/-- Go `recType`: the record types an invocation may name. -/
def recType : List String :=
  ["ARTINV", "USER", "BID", "AUCREQ", "POSTTRAN", "OPENAUC", "CLAUC", "XFER", "VERIFY"]

/-- Go `aucTables`: the tables `Init` creates. -/
def aucTables : List String :=
  ["UserTable", "UserCatTable", "ItemTable", "ItemCatTable", "ItemHistoryTable",
   "AuctionTable", "AucInitTable", "AucOpenTable", "BidTable", "TransTable"]

/-- Go `ItemObject`. -/
structure ItemObject where
  ItemID : String
  RecType : String
  ItemDesc : String
  ItemDetail : String
  ItemType : String
  ItemSubject : String
deriving DecidableEq, Repr

/-- Go `UserObject`. -/
structure UserObject where
  UserID : String
  RecType : String
  Name : String
  UserType : String
  Address : String
  Phone : String
  Email : String
  Bank : String
  AccountNo : String
  RoutingNo : String
deriving DecidableEq, Repr

/-- Go `AuctionRequest`. -/
structure AuctionRequest where
  AuctionID : String
  RecType : String
  ItemID : String
  AuctionHouseID : String
  RequestDate : String
  Status : String
  OpenDate : String
  CloseDate : String
deriving DecidableEq, Repr

/-- Go `Bid`. -/
structure Bid where
  AuctionID : String
  RecType : String
  BidNo : String
  ItemID : String
  BuyerID : String
  BidPrice : String
  BidTime : String
deriving DecidableEq, Repr

/-- Go `GetNumberOfKeys`: the key arity of a table, 0 for a name that is not in the map. -/
def GetNumberOfKeys (tname : String) : Nat :=
  if tname = "UserTable" then 1
  else if tname = "ItemTable" then 1
  else if tname = "UserCatTable" then 3
  else if tname = "ItemCatTable" then 3
  else if tname = "AuctionTable" then 1
  else if tname = "AucInitTable" then 2
  else if tname = "AucOpenTable" then 2
  else if tname = "TransTable" then 2
  else if tname = "BidTable" then 2
  else if tname = "ItemHistoryTable" then 4
  else 0

/-! ### Entity codec

The structs carry no JSON tags: a member is named after its field. Decoding an object
whose values are strings into a struct of strings cannot fail; a member that is absent
leaves the empty string. -/

/-- Go `ARtoJSON`. -/
def ARtoJSON (ar : ItemObject) : Payload :=
  [("ItemID", ar.ItemID), ("RecType", ar.RecType), ("ItemDesc", ar.ItemDesc),
   ("ItemDetail", ar.ItemDetail), ("ItemType", ar.ItemType), ("ItemSubject", ar.ItemSubject)]

/-- Go `JSONtoAR`. -/
def JSONtoAR (data : Payload) : ItemObject :=
  ⟨mapIndex data "ItemID", mapIndex data "RecType", mapIndex data "ItemDesc",
   mapIndex data "ItemDetail", mapIndex data "ItemType", mapIndex data "ItemSubject"⟩

/-- Go `UsertoJSON`. -/
def UsertoJSON (user : UserObject) : Payload :=
  [("UserID", user.UserID), ("RecType", user.RecType), ("Name", user.Name),
   ("UserType", user.UserType), ("Address", user.Address), ("Phone", user.Phone),
   ("Email", user.Email), ("Bank", user.Bank), ("AccountNo", user.AccountNo),
   ("RoutingNo", user.RoutingNo)]

/-- Go `JSONtoUser`. -/
def JSONtoUser (user : Payload) : UserObject :=
  ⟨mapIndex user "UserID", mapIndex user "RecType", mapIndex user "Name",
   mapIndex user "UserType", mapIndex user "Address", mapIndex user "Phone",
   mapIndex user "Email", mapIndex user "Bank", mapIndex user "AccountNo",
   mapIndex user "RoutingNo"⟩

/-- Go `AucReqtoJSON`. -/
def AucReqtoJSON (ar : AuctionRequest) : Payload :=
  [("AuctionID", ar.AuctionID), ("RecType", ar.RecType), ("ItemID", ar.ItemID),
   ("AuctionHouseID", ar.AuctionHouseID), ("RequestDate", ar.RequestDate),
   ("Status", ar.Status), ("OpenDate", ar.OpenDate), ("CloseDate", ar.CloseDate)]

/-- Go `JSONtoAucReq`. -/
def JSONtoAucReq (areq : Payload) : AuctionRequest :=
  ⟨mapIndex areq "AuctionID", mapIndex areq "RecType", mapIndex areq "ItemID",
   mapIndex areq "AuctionHouseID", mapIndex areq "RequestDate", mapIndex areq "Status",
   mapIndex areq "OpenDate", mapIndex areq "CloseDate"⟩

/-- Go `BidtoJSON`. -/
def BidtoJSON (myHand : Bid) : Payload :=
  [("AuctionID", myHand.AuctionID), ("RecType", myHand.RecType), ("BidNo", myHand.BidNo),
   ("ItemID", myHand.ItemID), ("BuyerID", myHand.BuyerID), ("BidPrice", myHand.BidPrice),
   ("BidTime", myHand.BidTime)]

/-- Go `JSONtoBid`. -/
def JSONtoBid (areq : Payload) : Bid :=
  ⟨mapIndex areq "AuctionID", mapIndex areq "RecType", mapIndex areq "BidNo",
   mapIndex areq "ItemID", mapIndex areq "BuyerID", mapIndex areq "BidPrice",
   mapIndex areq "BidTime"⟩

/-! ### Helpers -/

/-- Go `ChkReqType`: some argument is one of the record types. -/
def ChkReqType (args : List String) : Bool :=
  args.any (fun rt => recType.any (fun val => val = rt))

/-- Go `ProcessQueryResult`: the record type of the payload is read from its `RecType`
member (the type assertion on an absent member is a panic) and selects a decoder. The
decoders cannot fail here; the cases "AUCREQ" and "OPENAUC" are empty and leave the
switch; a record type without a case is the error "Unknown". -/
def ProcessQueryResult (Avalbytes : Payload) : Res Unit :=
  match assocGet "RecType" Avalbytes with
  | none => .fault
  | some recType =>
    if recType = "ARTINV" then .ok ()
    else if recType = "USER" then .ok ()
    else if recType = "AUCREQ" then .ok ()
    else if recType = "OPENAUC" then .ok ()
    else if recType = "CLAUC" then .ok ()
    else if recType = "BID" then .ok ()
    else if recType = "DEFAULT" then .ok ()
    else if recType = "XFER" then .ok ()
    else if recType = "VERIFY" then .ok ()
    else .error "Unknown"

/-- Go `UpdateLedger`: the row is built from the first `GetNumberOfKeys tableName`
entries of `keys` (reading `keys[i]` past the end is a panic) and inserted. -/
def UpdateLedger (l : Ledger) (tableName : String) (keys : List String) (args : Payload) :
    Res Ledger :=
  let nKeys := GetNumberOfKeys tableName
  if keys.length < nKeys then .fault
  else
    match InsertRow l tableName ⟨keys.take nKeys, args⟩ with
    | none => .error ("UpdateLedger: InsertRow into " ++ tableName ++ " Table operation failed. ")
    | some (false, _) =>
      .error ("UpdateLedger: InsertRow into " ++ tableName ++ " Table failed. Row with given key " ++
        argAt keys 0 ++ " already exists")
    | some (true, l1) => .ok l1

/-- Go `DeleteFromLedger`: the row under all the given keys is removed. -/
def DeleteFromLedger (l : Ledger) (tableName : String) (keys : List String) : Res Ledger :=
  if keys.length < 1 then .error "DeleteFromLedger failed. Must include at least key values"
  else
    match DeleteRow l tableName keys with
    | none => .error "DeleteFromLedger operation failed. "
    | some l1 => .ok l1

/-- Go `ReplaceLedgerEntry`: as `UpdateLedger`, with `stub.ReplaceRow`. -/
def ReplaceLedgerEntry (l : Ledger) (tableName : String) (keys : List String) (args : Payload) :
    Res Ledger :=
  let nKeys := GetNumberOfKeys tableName
  if keys.length < nKeys then .fault
  else
    match ReplaceRow l tableName ⟨keys.take nKeys, args⟩ with
    | none =>
      .error ("ReplaceLedgerEntry: Replace Row into " ++ tableName ++ " Table operation failed. ")
    | some (false, _) =>
      .error ("ReplaceLedgerEntry: Replace Row into " ++ tableName ++
        " Table failed. Row with given key " ++ argAt keys 0 ++ " already exists")
    | some (true, l1) => .ok l1

/-- Go `QueryLedger`: the row under the first `GetNumberOfKeys tableName` entries of
`args` is fetched (the error of `GetRow` is not read, an empty row is the failure) and
its payload is passed through `ProcessQueryResult`. The messages read `args[0]`, and
the log line of the last failure reads `args[1]`: past the end these are panics. -/
def QueryLedger (l : Ledger) (tableName : String) (args : List String) : Res Payload :=
  let nCol := GetNumberOfKeys tableName
  if args.length < nCol then .fault
  else
    match GetRow l tableName (args.take nCol) with
    | none =>
      match args with
      | [] => .fault
      | a0 :: _ => .error ("\x7b\"Error\":\"Failed retrieving data " ++ a0 ++ ". \"\x7d")
    | some row =>
      let Avalbytes := row.payload
      match ProcessQueryResult Avalbytes with
      | .fault => .fault
      | .error _ =>
        match args with
        | a0 :: _ :: _ =>
          .error ("\x7b\"QueryLedger() Error\":\" Cannot create Object for key " ++ a0 ++ "\"\x7d")
        | _ => .fault
      | .ok _ => .ok Avalbytes

/-- Go `GetList`: the rows of a table under a key prefix of at least one component. -/
def GetList (l : Ledger) (tableName : String) (args : List String) : Res (List Row) :=
  if args.length < 1 then .error "GetList failed. Must include at least key values"
  else
    match GetRows l tableName args with
    | none => .error "GetList operation failed. "
    | some rows => .ok rows

/-- Loop of `GetHighestBid` over the rows still to scan. `dat` is the map the payloads
are decoded into, one after the other: the members of the current payload overwrite
it and its other entries stay. `highestBid` is the running maximum and `Avalbytes` the
payload that reached it. -/
def GetHighestBidLoop : List Row → Payload → Int → Reply → Outcome
  | [], _, _, Avalbytes => .ok Avalbytes
  | row :: rest, dat, highestBid, Avalbytes =>
    let currentBid := row.payload
    let dat1 := currentBid ++ dat
    match assocGet "BidPrice" dat1 with
    | none => .fault
    | some text =>
      match Atoi text with
      | none =>
        .error .nil "GetHighestBid() Int Conversion error on BidPrice! failed. "
      | some bidPrice =>
        if bidPrice ≥ highestBid then GetHighestBidLoop rest dat1 bidPrice (.json currentBid)
        else GetHighestBidLoop rest dat1 highestBid Avalbytes

/-- Go `GetHighestBid`: the running maximum starts at 0 and a bid replaces the one
held when its price is greater than or equal to it. -/
def GetHighestBid (l : Ledger) (args : List String) : Outcome :=
  match GetList l "BidTable" args with
  | .error err => .error .nil ("GetLastBid operation failed. " ++ err)
  | .fault => .fault
  | .ok rows => GetHighestBidLoop rows [] 0 .nil

/-- Go `ValidateMember`: the user must be found in `UserTable`. -/
def ValidateMember (l : Ledger) (owner : String) : Res Payload :=
  match QueryLedger l "UserTable" [owner, "USER"] with
  | .fault => .fault
  | .error _ => .error ("\x7b\"Error\":\"Failed to get Owner Object Data for " ++ owner ++ "\"\x7d")
  | .ok Avalbytes => .ok Avalbytes

/-- Go `ValidateItemSubmission`: the item must be found in `ItemTable`. -/
def ValidateItemSubmission (l : Ledger) (artId : String) : Res Payload :=
  match QueryLedger l "ItemTable" [artId, "ARTINV"] with
  | .fault => .fault
  | .error _ => .error ("\x7b\"Error\":\"Failed to get Owner Object Data for " ++ artId ++ "\"\x7d")
  | .ok Avalbytes => .ok Avalbytes

/-- Go `CreateUserObject`: ten arguments, the first one the text of an integer. -/
def CreateUserObject (args : List String) : Except String UserObject :=
  if args.length ≠ 10 then
    .error "CreateUserObject() : Incorrect number of arguments. Expecting 10 "
  else
    match Atoi (argAt args 0) with
    | none => .error "CreateUserObject() : User ID should be an integer"
    | some _ =>
      .ok ⟨argAt args 0, argAt args 1, argAt args 2, argAt args 3, argAt args 4, argAt args 5,
        argAt args 6, argAt args 7, argAt args 8, argAt args 9⟩

/-- Go `CreateItemObject`: six arguments. -/
def CreateItemObject (args : List String) : Except String ItemObject :=
  if args.length ≠ 6 then
    .error "CreateItemObject(): Incorrect number of arguments. Expecting 6 "
  else
    .ok ⟨argAt args 0, argAt args 1, argAt args 2, argAt args 3, argAt args 4, argAt args 5⟩

/-- Go `CreateAuctionRequest`: eight arguments, stored as they are given. -/
def CreateAuctionRequest (args : List String) : Except String AuctionRequest :=
  if args.length ≠ 8 then
    .error "CreateAuctionRegistrationObject() : Incorrect number of arguments. Expecting 11 "
  else
    .ok ⟨argAt args 0, argAt args 1, argAt args 2, argAt args 3, argAt args 4, argAt args 5,
      argAt args 6, argAt args 7⟩

/-- Go `UpdateAuctionStatus`: the record is written back over the row of its
AuctionID; the result is the payload next to the outcome of the replacement. -/
def UpdateAuctionStatus (l : Ledger) (_tableName : String) (ar : AuctionRequest) :
    Payload × Res Ledger :=
  let buff := AucReqtoJSON ar
  let keys := [ar.AuctionID, ar.ItemID]
  (buff, ReplaceLedgerEntry l "AuctionTable" keys buff)

/-! ### Invoke operations -/

/-- Go `PostUser`: the user is inserted into `UserTable` under its ID and into
`UserCatTable` under ("2016", UserType, ID). -/
def PostUser (_env : Env) (l : Ledger) (args : List String) : Outcome × Ledger :=
  match CreateUserObject args with
  | .error err => (.error .nil err, l)
  | .ok record =>
    let buff := UsertoJSON record
    match UpdateLedger l "UserTable" [argAt args 0] buff with
    | .error err => (.error .nil err, l)
    | .fault => (.fault, l)
    | .ok l1 =>
      match UpdateLedger l1 "UserCatTable" ["2016", argAt args 3, argAt args 0] buff with
      | .error err => (.error .nil err, l1)
      | .fault => (.fault, l1)
      | .ok l2 => (.ok (.json buff), l2)

/-- Go `PostItem`: the item is inserted into `ItemTable` under its ID. -/
def PostItem (_env : Env) (l : Ledger) (args : List String) : Outcome × Ledger :=
  match CreateItemObject args with
  | .error err => (.error .nil err, l)
  | .ok itemObject =>
    let buff := ARtoJSON itemObject
    match UpdateLedger l "ItemTable" [argAt args 0] buff with
    | .error err => (.error (.json buff) err, l)
    | .fault => (.fault, l)
    | .ok l1 => (.ok (.json buff), l1)

/-- Go `PostAuctionRequest`: the auction house and the item are looked up, then the
request is inserted into `AuctionTable` under its ID and into `AucInitTable` under
("2016", ID). -/
def PostAuctionRequest (_env : Env) (l : Ledger) (args : List String) : Outcome × Ledger :=
  match CreateAuctionRequest args with
  | .error err => (.error .nil err, l)
  | .ok ar =>
    match ValidateMember l ar.AuctionHouseID with
    | .fault => (.fault, l)
    | .error err => (.error .nil err, l)
    | .ok _ =>
      match ValidateItemSubmission l ar.ItemID with
      | .fault => (.fault, l)
      | .error err => (.error .nil err, l)
      | .ok _ =>
        let buff := AucReqtoJSON ar
        match UpdateLedger l "AuctionTable" [argAt args 0] buff with
        | .error err => (.error (.json buff) err, l)
        | .fault => (.fault, l)
        | .ok l1 =>
          match UpdateLedger l1 "AucInitTable" ["2016", argAt args 0] buff with
          | .error err => (.error (.json buff) err, l1)
          | .fault => (.fault, l1)
          | .ok l2 => (.ok (.json buff), l2)

/-- Go `OpenAuctionForBids`: the request is fetched under `args[0]`, refused when its
Status is "CLOSED", stamped with the clock reading and the closing time `args[2]`
minutes later (the product with `time.Minute` is a 64-bit one), written back, removed
from `AucInitTable` and inserted into `AucOpenTable`. -/
def OpenAuctionForBids (env : Env) (l : Ledger) (args : List String) : Outcome × Ledger :=
  match QueryLedger l "AuctionTable" args with
  | .fault => (.fault, l)
  | .error _ => (.error .nil "OpenAuctionForBids(): Auction Object Retrieval Failed ", l)
  | .ok Avalbytes =>
    let aucR := JSONtoAucReq Avalbytes
    if aucR.Status = "CLOSED" then
      (.error .nil "OpenAuctionForBids(): is Closed - Cannot Open for new bids Failed ", l)
    else
      match args.get? 2 with
      | none => (.fault, l)
      | some text =>
        match Atoi text with
        | none =>
          (.error .nil ("OpenAuctionForBids(): Auction Duration is an integer that " ++
            "represents minute! OpenAuctionForBids() Failed "), l)
        | some aucDuration =>
          let aucStartDate := env.now 0
          let aucEndDate := aucStartDate.Add (wrapInt (aucDuration * Minute))
          let aucR1 := { aucR with
            OpenDate := formatLong aucStartDate, CloseDate := formatLong aucEndDate,
            Status := "OPEN" }
          match UpdateAuctionStatus l "AuctionTable" aucR1 with
          | (_, .fault) => (.fault, l)
          | (_, .error _) =>
            (.error .nil "OpenAuctionForBids(): UpdateAuctionStatus() Failed ", l)
          | (buff, .ok l1) =>
            let keys := ["2016", aucR1.AuctionID]
            match DeleteFromLedger l1 "AucInitTable" keys with
            | .fault => (.fault, l1)
            | .error _ =>
              (.error .nil "OpenAuctionForBids(): DeleteFromLedger() Failed ", l1)
            | .ok l2 =>
              match UpdateLedger l2 "AucOpenTable" keys buff with
              | .fault => (.fault, l2)
              | .error err => (.error (.json buff) err, l2)
              | .ok l3 => (.ok (.json buff), l3)

/-- First part of `BuyItNow`: when there is a highest bid, the offer `args[5]` must be
the text of an integer not below its price. `none` lets the operation go on, `some o`
is its return or panic. -/
def checkHighestBid (l : Ledger) (args : List String) : Option Outcome :=
  match GetHighestBid l [argAt args 0] with
  | .fault => some .fault
  | .error _ _ => none
  | .ok (.json Avalbytes) =>
    let bid := JSONtoBid Avalbytes
    match args.get? 5 with
    | none => some .fault
    | some text =>
      match Atoi text with
      | none => some (.error .nil "BuyItNow() : Invalid BuyItNow Price")
      | some binP =>
        match Atoi bid.BidPrice with
        | none => some (.error .nil "BuyItNow() : Invalid Highest Bid Price")
        | some hbP =>
          if hbP > binP then
            some (.error .nil
              "BuyItNow() : Highest Bid Price > BuyItNow Price - BuyItNow Rejected")
          else none
  | .ok _ => none

/-- Go `BuyItNow`: after the check against the highest bid the request is fetched
under `args[0]`, its Status is set to "CLOSED" and written back, its row is removed
from `AucOpenTable`, and last the buyer `args[4]` must be a registered user. -/
def BuyItNow (_env : Env) (l : Ledger) (args : List String) : Outcome × Ledger :=
  match args with
  | [] => (.fault, l)
  | a0 :: _ =>
    match checkHighestBid l args with
    | some o => (o, l)
    | none =>
      match QueryLedger l "AuctionTable" [a0, "AUCREQ"] with
      | .fault => (.fault, l)
      | .error _ => (.error .nil "BuyItNow(): Auction Object Retrieval Failed ", l)
      | .ok Avalbytes0 =>
        let aucR := { JSONtoAucReq Avalbytes0 with Status := "CLOSED" }
        match UpdateAuctionStatus l "AuctionTable" aucR with
        | (_, .fault) => (.fault, l)
        | (_, .error _) => (.error .nil "BuyItNow(): UpdateAuctionStatus() Failed ", l)
        | (Avalbytes, .ok l1) =>
          match DeleteFromLedger l1 "AucOpenTable" ["2016", aucR.AuctionID] with
          | .fault => (.fault, l1)
          | .error _ =>
            (.error .nil "BuyItNow(): DeleteFromLedger(AucOpenTable) Failed ", l1)
          | .ok l2 =>
            match args.get? 4 with
            | none => (.fault, l2)
            | some buyer =>
              match ValidateMember l2 buyer with
              | .fault => (.fault, l2)
              | .error err => (.error .nil err, l2)
              | .ok _ => (.ok (.json Avalbytes), l2)

/-- Go `InvokeFunction`: the operation a function name resolves to, if any. -/
def InvokeFunction (fname : String) : Option (Env → Ledger → List String → Outcome × Ledger) :=
  if fname = "PostItem" then some PostItem
  else if fname = "PostUser" then some PostUser
  else if fname = "PostAuctionRequest" then some PostAuctionRequest
  else if fname = "OpenAuctionForBids" then some OpenAuctionForBids
  else if fname = "BuyItNow" then some BuyItNow
  else none

/-- Go `Invoke`: some argument must be a record type (the message of the refusal reads
`args[0]`); a function name that resolves to nothing returns nil without error. -/
def Invoke (env : Env) (l : Ledger) (function : String) (args : List String) :
    Outcome × Ledger :=
  if ChkReqType args = true then
    match InvokeFunction function with
    | some InvokeRequest => InvokeRequest env l args
    | none => (.ok .nil, l)
  else
    match args with
    | [] => (.fault, l)
    | a0 :: _ => (.error .nil ("Invoke() : Invalid recType : " ++ a0), l)

/-- Go `Init`: every table of `aucTables` is deleted and created again, empty. The
entry "version" it then writes to the flat key space holds a bare number, which no
invoke operation reads; it is left out. -/
def Init (l : Ledger) : Outcome × Ledger :=
  (.ok (.text "Init(): Initialization Complete"),
    { l with tables := aucTables.foldl (fun ts val => assocSet val [] ts) l.tables })

/-- Ledger of a fresh deployment of the auction chaincode: the ten tables created and
empty. -/
def emptyLedger : Ledger :=
  (Init ⟨[], []⟩).2

/-- Ledger states reachable from a fresh deployment of the auction chaincode by
committed invocations, each with arbitrary arguments in an arbitrary environment. -/
inductive Reachable : Ledger → Prop where
  | init : Reachable emptyLedger
  | step {l : Ledger} (env : Env) (function : String) (args : List String) :
      Reachable l → Reachable (commit l (Invoke env l function args))

/-- Ledger states that follow `l`: those reached from it by any number of further
invocations. -/
inductive Later (l : Ledger) : Ledger → Prop where
  | refl : Later l l
  | step {l1 : Ledger} (env : Env) (function : String) (args : List String) :
      Later l l1 → Later l (commit l1 (Invoke env l1 function args))

/-! ### Notions used in the statements -/

/-- Payload stored in `AuctionTable` for the auction `id`. -/
def auctionRecord (l : Ledger) (id : String) : Option Payload :=
  (GetRow l "AuctionTable" [id]).map Row.payload

/-- Status stored in `AuctionTable` for the auction `id`. -/
def auctionStatus (l : Ledger) (id : String) : Option String :=
  (auctionRecord l id).map (fun p => (JSONtoAucReq p).Status)

/-- Price of the bid a row of `BidTable` holds, when its `BidPrice` member is the text
of an integer. -/
def bidPrice (r : Row) : Option Int :=
  (assocGet "BidPrice" r.payload).bind Atoi

/-- Ledger the caller of a helper goes on with: the one the helper returns, or the
one it was given when the helper fails. -/
def ledgerAfter (l : Ledger) (r : Res Ledger) : Ledger :=
  match r with
  | .ok l1 => l1
  | _ => l

/-- Invariant of the auction ledger: every user record names its record type; every
row of `AuctionTable` is keyed by the AuctionID of its record; every row of
`AucOpenTable` is keyed ("2016", id) and holds the record `AuctionTable` has for `id`,
whose Status is "OPEN"; every row of `AucInitTable` holds a request as it was posted,
keyed ("2016", AuctionID), and `AuctionTable` has for it that same record or the one
that differs in its Status "CLOSED". -/
def AuctionInv (l : Ledger) : Prop :=
  (∀ r ∈ tableRows l "UserTable", ∃ rt, assocGet "RecType" r.payload = some rt) ∧
  (∀ r ∈ tableRows l "AuctionTable", r.keys = [(JSONtoAucReq r.payload).AuctionID]) ∧
  (∀ r ∈ tableRows l "AucOpenTable", ∃ id, r.keys = ["2016", id] ∧
    auctionRecord l id = some r.payload ∧ (JSONtoAucReq r.payload).Status = "OPEN") ∧
  (∀ r ∈ tableRows l "AucInitTable", ∃ ar : AuctionRequest,
    r.payload = AucReqtoJSON ar ∧ r.keys = ["2016", ar.AuctionID] ∧
    (auctionRecord l ar.AuctionID = some (AucReqtoJSON ar) ∨
     auctionRecord l ar.AuctionID = some (AucReqtoJSON { ar with Status := "CLOSED" })))

/-! ### Ledgers and arguments of the examples -/

/-- The ten arguments of a user with the given ID, name and user type. -/
def userArgs (id name userType : String) : List String :=
  [id, "USER", name, userType, "Morrisville Parkway", "9198063535", "ashley@itpeople.com",
   "SUNTRUST", "00017102345", "0234678"]

/-- The six arguments of an item with the given ID and description. -/
def itemArgs (id desc : String) : List String :=
  [id, "ARTINV", desc, "Asppen Messer", "Original", "Landscape"]

/-- The eight arguments of a request to auction item "1000" at the house "200", with
the given AuctionID and Status. -/
def requestArgs (id status : String) : List String :=
  [id, "AUCREQ", "1000", "200", "04012016", status, "", ""]

/-- Ledger after the trader "100" and the auction house "200" were registered on a
fresh deployment. -/
def ledgerUsers : Ledger :=
  let l1 := commit emptyLedger
    (Invoke sampleEnv emptyLedger "PostUser" (userArgs "100" "Ashley Hart" "TRD"))
  commit l1 (Invoke sampleEnv l1 "PostUser" (userArgs "200" "Sotheby" "AH"))

/-- Ledger after item "1000" was then registered. -/
def ledgerItem : Ledger :=
  commit ledgerUsers (Invoke sampleEnv ledgerUsers "PostItem" (itemArgs "1000" "Shadows by Asppen"))

/-- Ledger after the request "1111" was then posted with Status "INIT". -/
def ledgerRequest : Ledger :=
  commit ledgerItem (Invoke sampleEnv ledgerItem "PostAuctionRequest" (requestArgs "1111" "INIT"))

/-- Ledger after the auction "1111" was then opened for three minutes. -/
def ledgerOpen : Ledger :=
  commit ledgerRequest (Invoke sampleEnv ledgerRequest "OpenAuctionForBids" ["1111", "OPENAUC", "3"])

/-- Ledger after the open auction "1111" was then bought by the trader "100". -/
def ledgerBought : Ledger :=
  commit ledgerOpen (Invoke sampleEnv ledgerOpen "BuyItNow" ["1111", "BID", "1", "1000", "100", "1200"])

/-- Ledger after the request "1111", still in its initial state, was bought by the
trader "100". -/
def ledgerBoughtEarly : Ledger :=
  commit ledgerRequest
    (Invoke sampleEnv ledgerRequest "BuyItNow" ["1111", "BID", "1", "1000", "100", "1200"])

/-- Ledger after the request "1111" was posted with Status "OPEN" instead. -/
def ledgerPostedOpen : Ledger :=
  commit ledgerItem (Invoke sampleEnv ledgerItem "PostAuctionRequest" (requestArgs "1111" "OPEN"))

/-- Row of `BidTable` for bid `no` of buyer `buyer` on auction "1111" at `price`. -/
def bidRow (no buyer price : String) : Row :=
  ⟨["1111", no], BidtoJSON ⟨"1111", "BID", no, "1000", buyer, price, "2016-06-28 18:40:57"⟩⟩

/-- Ledger whose `BidTable` holds two bids on auction "1111", priced 300 and 400. -/
def ledgerBids : Ledger :=
  ⟨[], [("BidTable", [bidRow "1" "100" "300", bidRow "2" "200" "400"])]⟩

end Auction

/-! ## Repeated invoicing: notions used in the statements -/

/-- Ledger states that follow `l`: those reached from it by any number of further
committed invocations whose function name and arguments satisfy `allowed`. -/
inductive LaterBy (allowed : String → List String → Prop) (l : Ledger) : Ledger → Prop where
  | refl : LaterBy allowed l l
  | step {l1 : Ledger} (env : Env) (function : String) (args : List String) :
      LaterBy allowed l l1 → allowed function args →
      LaterBy allowed l (commit l1 (Invoke env l1 function args))

/-- The two kinds of rows the operations write into `VoucherTable`: the row of a
voucher, keyed ("voucher", VoucherID, "invoice") by `createVoucher` and rewritten by
`updateVoucher`, and a stamped copy, keyed ("voucher", DispatchOrderID, stage) by the
loops of `createInvoice` and `validateInvoice`, with a stage text other than
"invoice". -/
def VoucherKeyed (r : Row) : Prop :=
  r.keys = ["voucher", (JSONtoVO r.payload).VoucherID, "invoice"] ∨
  ∃ s, s ≠ "invoice" ∧ r.keys = ["voucher", (JSONtoVO r.payload).DispatchOrderID, s]

/-- Invariant of `VoucherTable`, for a set `K` of key tuples: every row is of one of
the two kinds of `VoucherKeyed`, and every key tuple of `K` is the key of some row. -/
def VoucherInv (K : List String → Prop) (l : Ledger) : Prop :=
  (∀ r ∈ tableRows l "VoucherTable", VoucherKeyed r) ∧
  (∀ k, K k → ∃ r ∈ tableRows l "VoucherTable", r.keys = k)

/-- The voucher `id` has the pairing `createVoucher` gives a voucher: the row stored
for it under ("voucher", id, "invoice"), if there is one, holds a voucher whose
VoucherID and DispatchOrderID are equal. -/
def Paired (id : String) (l : Ledger) : Prop :=
  ∀ r ∈ tableRows l "VoucherTable", r.keys = ["voucher", id, "invoice"] →
    (JSONtoVO r.payload).VoucherID = (JSONtoVO r.payload).DispatchOrderID

/-- The voucher ID `id` is spent in `l`: if a voucher is loaded under ("voucher", id),
the row `createInvoice` would insert for it, keyed by its DispatchOrderID and the
stage of a generated invoice, is already in `VoucherTable`. -/
def Spent (id : String) (l : Ledger) : Prop :=
  ∀ v, getVoucherFromTable l ["voucher", id] = .ok v →
    ∃ r ∈ tableRows l "VoucherTable",
      r.keys = ["voucher", v.DispatchOrderID, Itoa STATE_INVOICE_GENERATED]

/-- The 34 arguments of an `updateVoucher` that links the voucher "B" to the order
"A". -/
def relinkArgs : List String :=
  "B" :: sampleArgs "A" "0" "10" ++ ["", ""]

/-- Ledger with the orders "A" and "B" and a voucher for each. -/
def ledgerTwoVouchers : Ledger :=
  let l1 := commit ledgerVoucher
    (Invoke sampleEnv ledgerVoucher "createDispatchOrder" (sampleArgs "B" "0" "10"))
  commit l1 (Invoke sampleEnv l1 "createVoucher" (sampleArgs "B" "0" "10"))

/-- Ledger after invoice "I" was then created over the voucher "A". -/
def ledgerFirstInvoice : Ledger :=
  commit ledgerTwoVouchers (Invoke sampleEnv ledgerTwoVouchers "createInvoice" ["I", "A"])

/-- Ledger after the voucher "B" was then linked to the order "A". -/
def ledgerRelinked : Ledger :=
  commit ledgerFirstInvoice (Invoke sampleEnv ledgerFirstInvoice "updateVoucher" relinkArgs)

namespace Auction

/-! ### Comparison of times -/

/-- Ledger whose `BidTable` holds two bids on auction "1111", priced -5 and -7. -/
def ledgerNegativeBids : Ledger :=
  ⟨[], [("BidTable", [bidRow "1" "100" "-5", bidRow "2" "200" "-7"])]⟩

end Auction

/-! ## Pricing engine: theorems -/

theorem wrapInt_of_inRange (x : Int) (h1 : -9223372036854775808 ≤ x)
    (h2 : x ≤ 9223372036854775807) : wrapInt x = x := by
  unfold wrapInt
  omega

theorem wrapInt_add_wrapInt (x y : Int) : wrapInt (wrapInt x + y) = wrapInt (x + y) := by
  unfold wrapInt
  omega

/-- C1, as amended. For a voucher whose Weight parses as the integer `w` and whose
Customer has the unit rate `r`, `CalculateVoucherAmount` returns without error: for
"LTL" the product `r * w` reduced to the signed 64-bit range, which is `r * w` itself
whenever that product lies in the range; for "FTL" on a "16 Tonner" exactly `r * 16`
and on a "21 Tonner" exactly `r * 21`. -/
theorem CalculateVoucherAmount_table (v : VoucherObject) (w r : Int)
    (hw : Atoi v.Weight = some w) (hr : rate v.Customer = some r) :
    (v.LoadingType = "LTL" → CalculateVoucherAmount v = .ok (wrapInt (r * w))) ∧
    (v.LoadingType = "LTL" → -9223372036854775808 ≤ r * w → r * w ≤ 9223372036854775807 →
        CalculateVoucherAmount v = .ok (r * w)) ∧
    (v.LoadingType = "FTL" → v.VehicleType = "16 Tonner" →
        CalculateVoucherAmount v = .ok (r * 16)) ∧
    (v.LoadingType = "FTL" → v.VehicleType = "21 Tonner" →
        CalculateVoucherAmount v = .ok (r * 21)) := by
  have hwrap := wrapInt_of_inRange
  unfold rate at hr
  unfold CalculateVoucherAmount
  rw [hw]
  split_ifs at hr with h1 h2 h3 <;> simp only [Option.some.injEq] at hr <;> subst hr
  all_goals refine ⟨?_, ?_, ?_, ?_⟩
  all_goals intros
  all_goals simp_all

/-- Witness of C1 as amended: "LTL", "Maruthi Pune", weight 10 gives 25000, and "FTL",
"16 Tonner", "Ashok Leyland Hosur" gives 2000. -/
theorem CalculateVoucherAmount_table_witness :
    CalculateVoucherAmount
        { blankVoucher with LoadingType := "LTL", Customer := "Maruthi Pune", Weight := "10" }
      = .ok 25000 ∧
    CalculateVoucherAmount
        { blankVoucher with LoadingType := "FTL", VehicleType := "16 Tonner",
                            Customer := "Ashok Leyland Hosur", Weight := "7" }
      = .ok 2000 :=
  ⟨(CalculateVoucherAmount_table
      { blankVoucher with LoadingType := "LTL", Customer := "Maruthi Pune", Weight := "10" }
      10 2500 (by decide) (by decide)).2.1 (by decide) (by decide) (by decide),
   (CalculateVoucherAmount_table
      { blankVoucher with LoadingType := "FTL", VehicleType := "16 Tonner",
                          Customer := "Ashok Leyland Hosur", Weight := "7" }
      7 125 (by decide) (by decide)).2.2.1 (by decide) (by decide)⟩

/-- Counterexample to C1 as stated: with Weight "4611686018427387904" (2^62), "LTL" and
"Maruthi Pune", the Go product 2500 * weight overflows `int` and the function returns 0,
not the product. -/
theorem CalculateVoucherAmount_product_counterexample :
    ¬ ∀ (v : VoucherObject) (w r : Int), Atoi v.Weight = some w → rate v.Customer = some r →
        v.LoadingType = "LTL" → CalculateVoucherAmount v = .ok (r * w) := by
  intro h
  have h1 := h { blankVoucher with LoadingType := "LTL", Customer := "Maruthi Pune",
                                   Weight := "4611686018427387904" }
    4611686018427387904 2500 (by decide) (by decide) (by decide)
  revert h1
  decide

/-- C2, as amended. For a voucher whose Weight parses as an integer and whose
(LoadingType, VehicleType, Customer) combination is not an entry of the pricing table,
`CalculateVoucherAmount` returns 0 with no error. -/
theorem CalculateVoucherAmount_unmatched (v : VoucherObject) (w : Int)
    (hw : Atoi v.Weight = some w)
    (hno : inPricingTable v.LoadingType v.VehicleType v.Customer = false) :
    CalculateVoucherAmount v = .ok 0 := by
  unfold CalculateVoucherAmount
  rw [hw]
  unfold inPricingTable rate at hno
  split_ifs <;> simp_all

/-- Witness of C2 as amended: an air shipment of weight 10 is priced 0. -/
theorem CalculateVoucherAmount_unmatched_witness :
    CalculateVoucherAmount
        { blankVoucher with LoadingType := "AIR", Customer := "Maruthi Pune", Weight := "10" }
      = .ok 0 :=
  CalculateVoucherAmount_unmatched
    { blankVoucher with LoadingType := "AIR", Customer := "Maruthi Pune", Weight := "10" }
    10 (by decide) (by decide)

/-- Counterexample to C2 as stated: for an unmatched combination whose Weight is not
an integer the function returns an error, not 0. -/
theorem CalculateVoucherAmount_unmatched_counterexample :
    ¬ ∀ v : VoucherObject, inPricingTable v.LoadingType v.VehicleType v.Customer = false →
        CalculateVoucherAmount v = .ok 0 := by
  intro h
  have h1 := h { blankVoucher with LoadingType := "AIR", Weight := "ten" } (by decide)
  revert h1
  decide

/-! ## Ledger interface: lemmas -/

theorem assocGet_assocSet_same {β : Type} (k : String) (v : β) (xs : List (String × β)) :
    assocGet k (assocSet k v xs) = some v := by
  induction xs with
  | nil => simp [assocSet, assocGet]
  | cons x rest ih =>
    obtain ⟨k1, v1⟩ := x
    by_cases h : k1 = k <;> simp [assocSet, assocGet, h, ih]

theorem assocGet_assocSet_ne {β : Type} (k k2 : String) (v : β) (xs : List (String × β))
    (h : k2 ≠ k) : assocGet k2 (assocSet k v xs) = assocGet k2 xs := by
  induction xs with
  | nil => simp [assocSet, assocGet, Ne.symm h]
  | cons x rest ih =>
    obtain ⟨k1, v1⟩ := x
    by_cases h1 : k1 = k
    · subst h1
      simp [assocSet, assocGet, Ne.symm h]
    · by_cases h2 : k1 = k2
      · subst h2
        simp [assocSet, assocGet, h1]
      · simp [assocSet, assocGet, h1, h2, ih]

theorem mem_assocSet {β : Type} (k : String) (v : β) (xs : List (String × β))
    (x : String × β) (hx : x ∈ assocSet k v xs) : x ∈ xs ∨ x.2 = v := by
  induction xs with
  | nil => simp [assocSet] at hx; simp [hx]
  | cons y rest ih =>
    obtain ⟨k1, v1⟩ := y
    by_cases h : k1 = k
    · simp [assocSet, h] at hx
      rcases hx with hx | hx
      · right; simp [hx]
      · left; simp [hx]
    · simp [assocSet, h] at hx
      rcases hx with hx | hx
      · left; simp [hx]
      · rcases ih hx with h1 | h1
        · left; simp [h1]
        · right; exact h1

theorem mem_of_assocGet {β : Type} (k : String) (v : β) (xs : List (String × β))
    (h : assocGet k xs = some v) : (k, v) ∈ xs := by
  induction xs with
  | nil => simp [assocGet] at h
  | cons y rest ih =>
    obtain ⟨k1, v1⟩ := y
    by_cases h1 : k1 = k
    · simp [assocGet, h1] at h
      simp [h1, h]
    · simp [assocGet, h1] at h
      simp [ih h]

theorem mapIndex_assocSet_same (k v : String) (dat : Payload) :
    mapIndex (assocSet k v dat) k = v := by
  simp [mapIndex, assocGet_assocSet_same]

theorem mapIndex_assocSet_ne (k k2 v : String) (dat : Payload) (h : k2 ≠ k) :
    mapIndex (assocSet k v dat) k2 = mapIndex dat k2 := by
  simp [mapIndex, assocGet_assocSet_ne k k2 v dat h]

/-! ## Dispatch orders: theorems -/

/-- C3. For every list of 31 arguments whose ID `args[0]` already has a stored record,
`createDispatchOrder` returns an error and the working state of the invocation, hence
the stored order and every table, is the ledger it started from. -/
theorem createDispatchOrder_existing (env : Env) (l : Ledger) (args : List String)
    (p : Payload) (hlen : args.length = 31) (hex : GetState l (argAt args 0) = some p) :
    (∃ msg, (createDispatchOrder env l args).1 = .error .nil msg) ∧
    (createDispatchOrder env l args).2 = l := by
  simp [createDispatchOrder, createDispatchOrderObject, hlen, hex]

/-- Witness of C3: order "A" exists in `ledgerA`, and creating it again fails there
and changes nothing. -/
theorem createDispatchOrder_existing_witness :
    (∃ msg, (createDispatchOrder sampleEnv ledgerA (sampleArgs "A" "3" "12")).1
        = .error .nil msg) ∧
    (createDispatchOrder sampleEnv ledgerA (sampleArgs "A" "3" "12")).2 = ledgerA :=
  createDispatchOrder_existing sampleEnv ledgerA (sampleArgs "A" "3" "12")
    (doToJSON ⟨"A", "0", "Maruthi Pune", "", "", "", "", "", "", "", "", "", "", "LTL", "", "10",
      "", "", "", "", "", "", "", "", "", "", "", "", "", "", "", "20170304102030"⟩)
    (by decide) (by decide)

/-! ## Effect of the table helpers -/

theorem PutState_tables (l : Ledger) (k : String) (v : Payload) :
    (PutState l k v).tables = l.tables := rfl

theorem tableRows_PutState (l : Ledger) (k : String) (v : Payload) (name : String) :
    tableRows (PutState l k v) name = tableRows l name := rfl

theorem GetState_PutState_same (l : Ledger) (k : String) (v : Payload) :
    GetState (PutState l k v) k = some v := by
  simp [GetState, PutState, assocGet_assocSet_same]

/-- A successful `UpdateLedger` leaves the flat key space alone and appends one row,
keyed by the leading entries of `keys`, to a table that held no row with that key. -/
theorem UpdateLedger_ok (l l1 : Ledger) (name : String) (keys : List String) (p : Payload)
    (h : UpdateLedger l name keys p = .ok l1) :
    l1.state = l.state ∧
    ∃ rows, assocGet name l.tables = some rows ∧
      (∀ r ∈ rows, r.keys ≠ keys.take (GetNumberOfKeys name)) ∧
      l1.tables = assocSet name (rows ++ [⟨keys.take (GetNumberOfKeys name), p⟩]) l.tables := by
  unfold UpdateLedger at h
  simp only at h
  split_ifs at h
  unfold InsertRow at h
  cases hrows : assocGet name l.tables with
  | none => simp [hrows] at h
  | some rows =>
    by_cases hany : (rows.any fun r => decide (r.keys = keys.take (GetNumberOfKeys name))) = true
    · simp [hrows, hany] at h
    · simp only [hrows, hany, Bool.false_eq_true, if_false, Res.ok.injEq] at h
      subst h
      refine ⟨rfl, rows, rfl, ?_, rfl⟩
      intro r hr hk
      exact hany (List.any_eq_true.mpr ⟨r, hr, by simp [hk]⟩)

/-- An `UpdateLedger` on an existing table that holds no row with the key succeeds. -/
theorem UpdateLedger_fresh (l : Ledger) (name : String) (keys : List String) (p : Payload)
    (rows : List Row) (hlen : GetNumberOfKeys name ≤ keys.length)
    (hrows : assocGet name l.tables = some rows)
    (hfresh : ∀ r ∈ rows, r.keys ≠ keys.take (GetNumberOfKeys name)) :
    UpdateLedger l name keys p = .ok ⟨l.state,
      assocSet name (rows ++ [⟨keys.take (GetNumberOfKeys name), p⟩]) l.tables⟩ := by
  unfold UpdateLedger InsertRow
  have hany : (rows.any fun r => decide (r.keys = keys.take (GetNumberOfKeys name))) = false := by
    rw [List.any_eq_false]
    intro r hr
    simpa using hfresh r hr
  simp [hrows, hany, Nat.not_lt.mpr hlen]

/-- An `UpdateLedger` whose key is already in the table returns an error. -/
theorem UpdateLedger_duplicate (l : Ledger) (name : String) (keys : List String) (p : Payload)
    (rows : List Row) (r : Row) (hlen : GetNumberOfKeys name ≤ keys.length)
    (hrows : assocGet name l.tables = some rows) (hr : r ∈ rows)
    (hkey : r.keys = keys.take (GetNumberOfKeys name)) :
    ∃ msg, UpdateLedger l name keys p = .error msg := by
  unfold UpdateLedger InsertRow
  have hany : (rows.any fun r => decide (r.keys = keys.take (GetNumberOfKeys name))) = true :=
    List.any_eq_true.mpr ⟨r, hr, by simp [hkey]⟩
  simp [hrows, hany, Nat.not_lt.mpr hlen]

theorem tableRows_UpdateLedger_same (l l1 : Ledger) (name : String) (keys : List String)
    (p : Payload) (h : UpdateLedger l name keys p = .ok l1) :
    tableRows l1 name = tableRows l name ++ [⟨keys.take (GetNumberOfKeys name), p⟩] := by
  obtain ⟨-, rows, hrows, -, htab⟩ := UpdateLedger_ok l l1 name keys p h
  simp [tableRows, htab, hrows, assocGet_assocSet_same]

theorem tableRows_UpdateLedger_ne (l l1 : Ledger) (name other : String) (keys : List String)
    (p : Payload) (h : UpdateLedger l name keys p = .ok l1) (hne : other ≠ name) :
    tableRows l1 other = tableRows l other := by
  obtain ⟨-, rows, -, -, htab⟩ := UpdateLedger_ok l l1 name keys p h
  simp [tableRows, htab, assocGet_assocSet_ne name other _ _ hne]

theorem assocGet_UpdateLedger_ne (l l1 : Ledger) (name other : String) (keys : List String)
    (p : Payload) (h : UpdateLedger l name keys p = .ok l1) (hne : other ≠ name) :
    assocGet other l1.tables = assocGet other l.tables := by
  obtain ⟨-, rows, -, -, htab⟩ := UpdateLedger_ok l l1 name keys p h
  simp [htab, assocGet_assocSet_ne name other _ _ hne]

/-- A successful `ReplaceRowInLedger` leaves the flat key space alone and rewrites
the rows of its own table only. -/
theorem ReplaceRowInLedger_ok (l l1 : Ledger) (name : String) (keys : List String)
    (p : Payload) (h : ReplaceRowInLedger l name keys p = .ok l1) :
    l1.state = l.state ∧
    ∃ rows, assocGet name l.tables = some rows ∧
      (∃ r ∈ rows, r.keys = keys.take (GetNumberOfKeys name)) ∧
      l1.tables = assocSet name
        (rows.map (fun r => if r.keys = keys.take (GetNumberOfKeys name)
          then ⟨keys.take (GetNumberOfKeys name), p⟩ else r)) l.tables := by
  unfold ReplaceRowInLedger at h
  simp only at h
  split_ifs at h
  unfold ReplaceRow at h
  cases hrows : assocGet name l.tables with
  | none => simp [hrows] at h
  | some rows =>
    by_cases hany : (rows.any fun r => decide (r.keys = keys.take (GetNumberOfKeys name))) = true
    · simp only [hrows, hany, if_true, Res.ok.injEq] at h
      subst h
      refine ⟨rfl, rows, rfl, ?_, rfl⟩
      obtain ⟨r, hr, hk⟩ := List.any_eq_true.mp hany
      exact ⟨r, hr, by simpa using hk⟩
    · simp [hrows, hany] at h

theorem tableRows_ReplaceRowInLedger_ne (l l1 : Ledger) (name other : String)
    (keys : List String) (p : Payload) (h : ReplaceRowInLedger l name keys p = .ok l1)
    (hne : other ≠ name) : tableRows l1 other = tableRows l other := by
  obtain ⟨-, rows, -, -, htab⟩ := ReplaceRowInLedger_ok l l1 name keys p h
  simp [tableRows, htab, assocGet_assocSet_ne name other _ _ hne]

theorem assocGet_ReplaceRowInLedger_ne (l l1 : Ledger) (name other : String)
    (keys : List String) (p : Payload) (h : ReplaceRowInLedger l name keys p = .ok l1)
    (hne : other ≠ name) : assocGet other l1.tables = assocGet other l.tables := by
  obtain ⟨-, rows, -, -, htab⟩ := ReplaceRowInLedger_ok l l1 name keys p h
  simp [htab, assocGet_assocSet_ne name other _ _ hne]

/-! ## Audit trail: theorems -/

/-- The insert of the history row as the four operations perform it, with the error
of `UpdateLedger` dropped: on a table without a row under `keys` it appends the row. -/
theorem createDispatchOrderObject_ok (now : Instant) (args : List String)
    (d : DispatchOrderObject) (h : createDispatchOrderObject now args = .ok d) :
    args.length = 31 ∧ d.DispatchOrderID = argAt args 0 ∧
      d.Stage = Itoa STATE_OBD_REQUEST_CREATED := by
  unfold createDispatchOrderObject at h
  split_ifs at h with hlen
  simp only [Except.ok.injEq] at h
  subst h
  exact ⟨by simpa using hlen, rfl, rfl⟩

theorem CreateVoucherObject_ok (now : Instant) (args : List String) (v : VoucherObject)
    (h : CreateVoucherObject now args = .ok v) :
    args.length = 31 ∧ v.VoucherID = argAt args 0 ∧ v.DispatchOrderID = argAt args 0 := by
  unfold CreateVoucherObject at h
  by_cases hlen : args.length ≠ 31
  · simp [hlen] at h
  · simp only [hlen, if_false] at h
    split at h
    · simp at h
    · simp only [Except.ok.injEq] at h
      subst h
      exact ⟨by simpa using hlen, rfl, rfl⟩

theorem CreateUpdatedVoucherObject_ok (now : Instant) (args : List String)
    (v : VoucherObject) (h : CreateUpdatedVoucherObject now args = .ok v) :
    args.length = 34 ∧ v.VoucherID = argAt args 0 ∧ v.DispatchOrderID = argAt args 1 := by
  unfold CreateUpdatedVoucherObject at h
  by_cases hlen : args.length ≠ 34
  · simp [hlen] at h
  · simp only [hlen, if_false, Except.ok.injEq] at h
    subst h
    exact ⟨by simpa using hlen, rfl, rfl⟩

theorem history_insert_fresh (l1 : Ledger) (k2 k3 : String) (buffer : Payload)
    (t : List Row) (ht : assocGet "TransactionHistory" l1.tables = some t)
    (hfresh : ∀ row ∈ t, row.keys ≠ ["transaction", k2, k3]) :
    UpdateLedger l1 "TransactionHistory" ["transaction", k2, k3] buffer =
      .ok ⟨l1.state,
        assocSet "TransactionHistory" (t ++ [⟨["transaction", k2, k3], buffer⟩]) l1.tables⟩ := by
  have hlen : GetNumberOfKeys "TransactionHistory" ≤ ["transaction", k2, k3].length := by
    simp [GetNumberOfKeys]
  have h := UpdateLedger_fresh l1 "TransactionHistory" ["transaction", k2, k3] buffer t
    hlen ht (by simpa [GetNumberOfKeys] using hfresh)
  simpa [GetNumberOfKeys] using h

theorem voucherTail_history (env : Env) (l l2 : Ledger) (v : VoucherObject) (buf : Payload)
    (kTime kKey : Nat) (r : Reply) (t : List Row)
    (h : voucherTail env l v buf kTime kKey = (.ok r, l2))
    (ht : assocGet "TransactionHistory" l.tables = some t)
    (hfresh : ∀ row ∈ t,
      row.keys ≠ ["transaction", v.DispatchOrderID, formatLong (env.now kKey)]) :
    ∃ payload, tableRows l2 "TransactionHistory" =
      t ++ [⟨["transaction", v.DispatchOrderID, formatLong (env.now kKey)], payload⟩] := by
  unfold voucherTail at h
  simp only [history_insert_fresh (PutState _ _ _) _ _ _ t ht hfresh] at h
  repeat' split at h
  all_goals try (simp at h; done)
  simp only [Prod.mk.injEq] at h
  obtain ⟨-, h2⟩ := h
  subst h2
  simp only [tableRows, assocGet_assocSet_same, Option.getD_some]
  exact ⟨_, rfl⟩

/-- C5, as amended. A successful `createDispatchOrder`, `updateDispatchOrder`,
`createVoucher` or `updateVoucher`, started on a ledger whose TransactionHistory table
holds no row under ("transaction", order ID, timestamp), leaves that table with exactly
one more row than before, appended under that key. The order ID is `args[0]` for
`createDispatchOrder` and `createVoucher`, the `dispatchOrderId` of the stored order for
`updateDispatchOrder` and `args[1]` for `updateVoucher`; the timestamp is the reading of
the last `time.Now()` of the invocation. -/
theorem history_row_appended (env : Env) (l l2 : Ledger) (args : List String) (r : Reply)
    (t : List Row) (ht : assocGet "TransactionHistory" l.tables = some t) :
    (createDispatchOrder env l args = (.ok r, l2) →
      (∀ row ∈ t, row.keys ≠ ["transaction", argAt args 0, formatLong (env.now 2)]) →
      ∃ payload, tableRows l2 "TransactionHistory" =
        t ++ [⟨["transaction", argAt args 0, formatLong (env.now 2)], payload⟩]) ∧
    (updateDispatchOrder env l args = (.ok r, l2) →
      ∀ dat, GetState l (argAt args 0) = some dat →
      (∀ row ∈ t, row.keys ≠
        ["transaction", mapIndex dat "dispatchOrderId", formatLong (env.now 2)]) →
      ∃ payload, tableRows l2 "TransactionHistory" =
        t ++ [⟨["transaction", mapIndex dat "dispatchOrderId", formatLong (env.now 2)],
               payload⟩]) ∧
    (createVoucher env l args = (.ok r, l2) →
      (∀ row ∈ t, row.keys ≠ ["transaction", argAt args 0, formatLong (env.now 3)]) →
      ∃ payload, tableRows l2 "TransactionHistory" =
        t ++ [⟨["transaction", argAt args 0, formatLong (env.now 3)], payload⟩]) ∧
    (updateVoucher env l args = (.ok r, l2) →
      (∀ row ∈ t, row.keys ≠ ["transaction", argAt args 1, formatLong (env.now 3)]) →
      ∃ payload, tableRows l2 "TransactionHistory" =
        t ++ [⟨["transaction", argAt args 1, formatLong (env.now 3)], payload⟩]) := by
  refine ⟨?_, ?_, ?_, ?_⟩
  · intro h hfresh
    unfold createDispatchOrder at h
    split at h
    · simp at h
    rename_i d hd
    obtain ⟨-, hid, -⟩ := createDispatchOrderObject_ok _ _ _ hd
    simp only [hid, history_insert_fresh (PutState _ _ _) _ _ _ t ht hfresh] at h
    repeat' split at h
    all_goals try (simp at h; done)
    simp only [Prod.mk.injEq] at h
    obtain ⟨-, h2⟩ := h
    subst h2
    simp only [tableRows, assocGet_assocSet_same, Option.getD_some]
    exact ⟨_, rfl⟩
  · intro h dat hdat hfresh
    unfold updateDispatchOrder at h
    simp only [JSONtoArgs, hdat,
      history_insert_fresh (PutState _ _ _) _ _ _ t ht hfresh] at h
    repeat' split at h
    all_goals try (simp at h; done)
    simp only [Prod.mk.injEq] at h
    obtain ⟨-, h2⟩ := h
    subst h2
    simp only [tableRows, assocGet_assocSet_same, Option.getD_some]
    exact ⟨_, rfl⟩
  · intro h hfresh
    unfold createVoucher at h
    split at h
    · simp at h
    · rename_i v0 hv0
      have hid : v0.DispatchOrderID = argAt args 0 := (CreateVoucherObject_ok _ _ _ hv0).2.2
      split at h
      · simp at h
      · simp only at h
        split at h
        · simp at h
        · simp at h
        · rename_i l1 hl1
          have ht1 : assocGet "TransactionHistory" l1.tables = some t := by
            rw [assocGet_UpdateLedger_ne _ _ _ _ _ _ hl1 (by decide)]
            exact ht
          have := voucherTail_history env l1 l2 _ _ 2 3 r t h ht1
          simp only [hid] at this
          exact this hfresh
  · intro h hfresh
    unfold updateVoucher at h
    split at h
    · simp at h
    · rename_i v0 hv0
      have hid : v0.DispatchOrderID = argAt args 1 :=
        (CreateUpdatedVoucherObject_ok _ _ _ hv0).2.2
      split at h
      · simp at h
      · simp only at h
        split at h
        · simp at h
        · simp at h
        · rename_i l1 hl1
          have ht1 : assocGet "TransactionHistory" l1.tables = some t := by
            rw [assocGet_ReplaceRowInLedger_ne _ _ _ _ _ _ hl1 (by decide)]
            exact ht
          have := voucherTail_history env l1 l2 _ _ 2 3 r t h ht1
          simp only [hid] at this
          exact this hfresh

/-! ## Invariant of the reachable ledgers -/

theorem mapIndex_doToJSON_stage (d : DispatchOrderObject) :
    mapIndex (doToJSON d) "stage" = d.Stage := by
  simp [doToJSON, mapIndex, assocGet]

theorem LedgerInv_PutState (P : String → Prop) (l : Ledger) (k : String) (p : Payload)
    (hl : LedgerInv P l) (hp : P (mapIndex p "stage")) : LedgerInv P (PutState l k p) := by
  refine ⟨?_, hl.2⟩
  intro kp hkp
  rcases mem_assocSet k p l.state kp hkp with h | h
  · exact hl.1 kp h
  · rw [h]
    exact hp

theorem LedgerInv_UpdateLedger (P : String → Prop) (l l1 : Ledger) (name : String)
    (keys : List String) (p : Payload) (hl : LedgerInv P l)
    (h : UpdateLedger l name keys p = .ok l1)
    (hk : name = "InvoiceTable" → (keys.take 4).getD 2 "" ≠ "9") : LedgerInv P l1 := by
  refine ⟨?_, ?_⟩
  · rw [(UpdateLedger_ok l l1 name keys p h).1]
    exact hl.1
  · by_cases hn : name = "InvoiceTable"
    · subst hn
      rw [tableRows_UpdateLedger_same _ _ _ _ _ h]
      intro r hr
      rcases List.mem_append.mp hr with h1 | h1
      · exact hl.2 r h1
      · simp only [List.mem_singleton] at h1
        subst h1
        simpa [GetNumberOfKeys] using hk rfl
    · rw [tableRows_UpdateLedger_ne _ _ _ _ _ _ h (Ne.symm hn)]
      exact hl.2

theorem LedgerInv_UpdateLedger_other (P : String → Prop) (l l1 : Ledger) (name : String)
    (keys : List String) (p : Payload) (hl : LedgerInv P l)
    (h : UpdateLedger l name keys p = .ok l1) (hn : name ≠ "InvoiceTable") : LedgerInv P l1 :=
  LedgerInv_UpdateLedger P l l1 name keys p hl h (fun hname => absurd hname hn)

theorem LedgerInv_ReplaceRowInLedger (P : String → Prop) (l l1 : Ledger) (name : String)
    (keys : List String) (p : Payload) (hl : LedgerInv P l)
    (h : ReplaceRowInLedger l name keys p = .ok l1) (hn : name ≠ "InvoiceTable") :
    LedgerInv P l1 := by
  refine ⟨?_, ?_⟩
  · rw [(ReplaceRowInLedger_ok l l1 name keys p h).1]
    exact hl.1
  · rw [tableRows_ReplaceRowInLedger_ne _ _ _ _ _ _ h (Ne.symm hn)]
    exact hl.2

theorem LedgerInv_historyInsert (P : String → Prop) (l1 : Ledger) (keys : List String)
    (buffer : Payload) (hl : LedgerInv P l1) :
    LedgerInv P (match UpdateLedger l1 "TransactionHistory" keys buffer with
      | .ok l2 => (Outcome.ok .nil, l2)
      | .error _ => (Outcome.ok .nil, l1)
      | .fault => (Outcome.fault, l1)).2 := by
  split
  · rename_i l2 h2
    exact LedgerInv_UpdateLedger_other P l1 l2 _ _ _ hl h2 (by decide)
  · exact hl
  · exact hl

theorem LedgerInv_createDispatchOrder (P : String → Prop) (hP : WrittenStages P) (env : Env)
    (l : Ledger) (args : List String) (hl : LedgerInv P l) :
    LedgerInv P (createDispatchOrder env l args).2 := by
  unfold createDispatchOrder
  split
  · exact hl
  · rename_i d hd
    obtain ⟨-, -, hst⟩ := createDispatchOrderObject_ok _ _ _ hd
    have h1 : LedgerInv P (PutState l (argAt args 0) (doToJSON d)) :=
      LedgerInv_PutState P l _ _ hl (by rw [mapIndex_doToJSON_stage, hst]; exact hP.1)
    split
    · exact hl
    · simp only
      split
      · exact h1
      · exact LedgerInv_historyInsert P _ _ _ h1

theorem LedgerInv_updateDispatchOrder (P : String → Prop) (env : Env) (l : Ledger)
    (args : List String) (hl : LedgerInv P l) (harg : P (argAt args 1)) :
    LedgerInv P (updateDispatchOrder env l args).2 := by
  unfold updateDispatchOrder
  split
  · exact hl
  · simp only
    split
    · exact hl
    · rename_i dat hdat
      have h1 : ∀ (k : String) (d : DispatchOrderObject), d.Stage = argAt args 1 →
          LedgerInv P (PutState l k (doToJSON d)) := by
        intro k d hd
        exact LedgerInv_PutState P l _ _ hl (by rw [mapIndex_doToJSON_stage, hd]; exact harg)
      split
      · exact h1 _ _ rfl
      · exact LedgerInv_historyInsert P _ _ _ (h1 _ _ rfl)

theorem LedgerInv_invokeAsset (P : String → Prop) (env : Env) (l : Ledger)
    (args : List String) (hl : LedgerInv P l) : LedgerInv P (invokeAsset env l args).2 := by
  unfold invokeAsset
  split
  · exact hl
  · simp only
    split
    · rename_i l1 h1
      exact LedgerInv_UpdateLedger_other P l l1 _ _ _ hl h1 (by decide)
    · exact hl
    · exact hl

theorem LedgerInv_invokeDocument (P : String → Prop) (env : Env) (l : Ledger)
    (args : List String) (hl : LedgerInv P l) : LedgerInv P (invokeDocument env l args).2 := by
  unfold invokeDocument
  split
  · exact hl
  · simp only
    split
    · rename_i l1 h1
      exact LedgerInv_UpdateLedger_other P l l1 _ _ _ hl h1 (by decide)
    · exact hl
    · exact hl

theorem LedgerInv_voucherTail (P : String → Prop) (env : Env) (l : Ledger)
    (v : VoucherObject) (buf : Payload) (kTime kKey : Nat) (hl : LedgerInv P l)
    (hbuf : P (mapIndex buf "stage")) : LedgerInv P (voucherTail env l v buf kTime kKey).2 := by
  unfold voucherTail
  have h1 := LedgerInv_PutState P l v.DispatchOrderID buf hl hbuf
  split
  · exact hl
  · simp only
    split
    · exact h1
    · exact LedgerInv_historyInsert P _ _ _ h1

theorem LedgerInv_createVoucher (P : String → Prop) (hP : WrittenStages P) (env : Env)
    (l : Ledger) (args : List String) (hl : LedgerInv P l) :
    LedgerInv P (createVoucher env l args).2 := by
  unfold createVoucher
  split
  · exact hl
  · split
    · exact hl
    · simp only
      split
      · exact hl
      · exact hl
      · rename_i l1 h1
        exact LedgerInv_voucherTail P env l1 _ _ 2 3
          (LedgerInv_UpdateLedger_other P l l1 _ _ _ hl h1 (by decide))
          (by rw [mapIndex_doToJSON_stage]; exact hP.2.1)

theorem LedgerInv_updateVoucher (P : String → Prop) (hP : WrittenStages P) (env : Env)
    (l : Ledger) (args : List String) (hl : LedgerInv P l) :
    LedgerInv P (updateVoucher env l args).2 := by
  unfold updateVoucher
  split
  · exact hl
  · split
    · exact hl
    · simp only
      split
      · exact hl
      · exact hl
      · rename_i l1 h1
        exact LedgerInv_voucherTail P env l1 _ _ 2 3
          (LedgerInv_ReplaceRowInLedger P l l1 _ _ _ hl h1 (by decide))
          (by rw [mapIndex_doToJSON_stage]; exact hP.2.2.1)

theorem loadVoucherAndOrder_ok (l : Ledger) (id stage : String) (v : VoucherObject)
    (dat : Payload) (h : loadVoucherAndOrder l id stage = .ok (v, dat)) :
    getVoucherFromTable l ["voucher", id] = .ok v ∧
    ∃ dat0, GetState l id = some dat0 ∧ dat = assocSet "stage" stage dat0 := by
  unfold loadVoucherAndOrder at h
  split at h
  · simp at h
  · simp at h
  · rename_i v1 hv1
    split at h
    · simp at h
    · rename_i dat0 hdat0
      simp only [Except.ok.injEq, Prod.mk.injEq] at h
      obtain ⟨h1, h2⟩ := h
      subst h1 h2
      exact ⟨hv1, dat0, hdat0, rfl⟩

theorem stampVoucherAndOrder_ok (l l2 : Ledger) (invoiceID : String) (v : VoucherObject)
    (dat : Payload) (h : stampVoucherAndOrder l invoiceID v dat = .ok l2) :
    ∃ l1, UpdateLedger l "VoucherTable" ["voucher", v.DispatchOrderID, v.Stage, invoiceID]
        (voToJSON v) = .ok l1 ∧
      l2 = PutState l1 (mapIndex dat "dispatchOrderId") dat := by
  unfold stampVoucherAndOrder at h
  simp only at h
  split at h
  · simp at h
  · simp at h
  · rename_i l1 h1
    simp only [Except.ok.injEq] at h
    exact ⟨l1, h1, h.symm⟩

theorem LedgerInv_stampVoucherAndOrder (P : String → Prop) (l l2 : Ledger)
    (invoiceID : String) (v : VoucherObject) (dat : Payload) (hl : LedgerInv P l)
    (hdat : P (mapIndex dat "stage"))
    (h : stampVoucherAndOrder l invoiceID v dat = .ok l2) : LedgerInv P l2 := by
  obtain ⟨l1, h1, h2⟩ := stampVoucherAndOrder_ok l l2 invoiceID v dat h
  subst h2
  exact LedgerInv_PutState P l1 _ _
    (LedgerInv_UpdateLedger_other P l l1 _ _ _ hl h1 (by decide)) hdat

theorem LedgerInv_createInvoiceLoop (P : String → Prop) (hP : WrittenStages P)
    (invoiceID : String) (ids : List String) :
    ∀ (acc : Int) (l : Ledger), LedgerInv P l →
      LedgerInv P (createInvoiceLoop invoiceID ids acc l).2 := by
  induction ids with
  | nil => intro acc l hl; exact hl
  | cons id rest ih =>
    intro acc l hl
    unfold createInvoiceLoop
    split
    · exact hl
    · rename_i v dat hload
      obtain ⟨-, dat0, -, hdat⟩ := loadVoucherAndOrder_ok _ _ _ _ _ hload
      split
      · exact hl
      · simp only
        split
        · exact hl
        · rename_i l2 h2
          refine ih _ l2 (LedgerInv_stampVoucherAndOrder P l l2 _ _ _ hl ?_ h2)
          rw [hdat, mapIndex_assocSet_same]
          exact hP.2.2.2.1

theorem LedgerInv_validateInvoiceLoop (P : String → Prop) (hP : WrittenStages P)
    (invoiceID : String) (ids : List String) :
    ∀ (l : Ledger), LedgerInv P l → LedgerInv P (validateInvoiceLoop invoiceID ids l).2 := by
  induction ids with
  | nil => intro l hl; exact hl
  | cons id rest ih =>
    intro l hl
    unfold validateInvoiceLoop
    split
    · exact hl
    · rename_i v dat hload
      obtain ⟨-, dat0, -, hdat⟩ := loadVoucherAndOrder_ok _ _ _ _ _ hload
      simp only
      split
      · exact hl
      · rename_i l2 h2
        refine ih l2 (LedgerInv_stampVoucherAndOrder P l l2 _ _ _ hl ?_ h2)
        rw [hdat, mapIndex_assocSet_same]
        exact hP.2.2.2.2

theorem LedgerInv_mapAssetLoop (P : String → Prop) (orderID : String) (dat : Payload)
    (str : Payload) (hstr : P (mapIndex str "stage")) (ids : List String) :
    ∀ (l : Ledger), LedgerInv P l → LedgerInv P (mapAssetLoop orderID dat str ids l).2 := by
  induction ids with
  | nil => intro l hl; exact hl
  | cons id rest ih =>
    intro l hl
    unfold mapAssetLoop
    split
    · exact hl
    · exact hl
    · simp only
      split
      · exact hl
      · exact hl
      · rename_i l1 h1
        exact ih _ (LedgerInv_PutState P l1 _ _
          (LedgerInv_ReplaceRowInLedger P l l1 _ _ _ hl h1 (by decide)) hstr)

theorem LedgerInv_mapAsset (P : String → Prop) (env : Env) (l : Ledger)
    (args : List String) (hl : LedgerInv P l) : LedgerInv P (mapAsset env l args).2 := by
  unfold mapAsset
  split
  · exact hl
  · rename_i orderID more
    split
    · exact hl
    · rename_i dat0 hdat0
      split
      · exact hl
      · rename_i assetIds rest
        have hstage : P (mapIndex (assocSet "assetIds" assetIds dat0) "stage") := by
          rw [mapIndex_assocSet_ne _ _ _ _ (by decide)]
          exact hl.1 (orderID, dat0) (mem_of_assocGet _ _ _ hdat0)
        have h1 := LedgerInv_mapAssetLoop P orderID (assocSet "assetIds" assetIds dat0)
          (assocSet "assetIds" assetIds dat0) hstage (Split assetIds) l hl
        simp only
        split
        · rename_i o l1 heq
          rw [heq] at h1
          exact h1
        · rename_i l1 heq
          rw [heq] at h1
          exact h1

theorem LedgerInv_createInvoice (P : String → Prop) (hP : WrittenStages P) (env : Env)
    (l : Ledger) (args : List String) (hl : LedgerInv P l) :
    LedgerInv P (createInvoice env l args).2 := by
  unfold createInvoice
  split
  · rename_i invoiceID voucherIds rest
    have h1 := LedgerInv_createInvoiceLoop P hP invoiceID (Split voucherIds) 0 l hl
    split
    · rename_i o l1 heq
      rw [heq] at h1
      exact h1
    · rename_i amount l1 heq
      rw [heq] at h1
      simp only
      split
      · exact h1
      · split
        · exact h1
        · exact h1
        · rename_i l2 h2
          refine LedgerInv_UpdateLedger P l1 l2 _ _ _ h1 h2 ?_
          intro _
          show Itoa STATE_INVOICE_GENERATED ≠ "9"
          decide
  · exact hl

/-- On a ledger that satisfies the invariant the lookup of `getunValidatedInvoice`,
made under the stage key "9", finds no row: it never returns an invoice. -/
theorem getunValidatedInvoice_not_ok (P : String → Prop) (l : Ledger) (invoiceID : String)
    (hl : LedgerInv P l) (inv : InvoiceObject) :
    getunValidatedInvoice l invoiceID ≠ .ok inv := by
  unfold getunValidatedInvoice GetList GetRows
  cases hrows : assocGet "InvoiceTable" l.tables with
  | none => simp
  | some rows =>
    have hnone : rows.filter (fun r => ["invoice", invoiceID, "9"].isPrefixOf r.keys) = [] := by
      rw [List.filter_eq_nil_iff]
      intro r hr hpre
      have h9 := hl.2 r (by simpa [tableRows, hrows] using hr)
      apply h9
      rcases hk : r.keys with _ | ⟨a, _ | ⟨b, _ | ⟨c, rest⟩⟩⟩ <;>
        simp [hk, List.isPrefixOf] at hpre ⊢
      exact hpre.2.2.symm
    simp [hnone]

theorem LedgerInv_validateInvoice (P : String → Prop) (hP : WrittenStages P) (env : Env)
    (l : Ledger) (args : List String) (hl : LedgerInv P l) :
    LedgerInv P (validateInvoice env l args).2 := by
  unfold validateInvoice
  split
  · exact hl
  · simp only
    split
    · exact hl
    · exact hl
    · split
      · exact hl
      · exact hl
      · rename_i l1 h1
        have hl1 : LedgerInv P l1 := by
          refine LedgerInv_UpdateLedger P l l1 _ _ _ hl h1 ?_
          intro _
          show Itoa STATE_INVOICE_VALIDATED ≠ "9"
          decide
        split
        · rename_i o l2 heq
          rw [← congrArg Prod.snd heq]
          exact LedgerInv_validateInvoiceLoop P hP _ _ l1 hl1
        · rename_i l2 heq
          rw [← congrArg Prod.snd heq]
          exact LedgerInv_validateInvoiceLoop P hP _ _ l1 hl1

theorem LedgerInv_Invoke (P : String → Prop) (hP : WrittenStages P) (env : Env) (l : Ledger)
    (function : String) (args : List String) (hl : LedgerInv P l)
    (harg : function = "updateDispatchOrder" → P (argAt args 1)) :
    LedgerInv P (Invoke env l function args).2 := by
  unfold Invoke
  split_ifs with h1 h2 h3 h4 h5 h6 h7 h8 h9
  · exact LedgerInv_createDispatchOrder P hP env l args hl
  · exact LedgerInv_updateDispatchOrder P env l args hl (harg h2)
  · exact LedgerInv_invokeAsset P env l args hl
  · exact LedgerInv_mapAsset P env l args hl
  · exact LedgerInv_invokeDocument P env l args hl
  · exact LedgerInv_createVoucher P hP env l args hl
  · exact LedgerInv_updateVoucher P hP env l args hl
  · exact LedgerInv_createInvoice P hP env l args hl
  · exact LedgerInv_validateInvoice P hP env l args hl
  · exact hl

theorem LedgerInv_commit (P : String → Prop) (l : Ledger) (r : Outcome × Ledger)
    (hl : LedgerInv P l) (hr : LedgerInv P r.2) : LedgerInv P (commit l r) := by
  unfold commit
  split
  · exact hr
  · exact hl

theorem LedgerInv_emptyLedger (P : String → Prop) : LedgerInv P emptyLedger := by
  refine ⟨?_, ?_⟩
  · intro kp hkp
    exact absurd hkp (List.not_mem_nil kp)
  · intro r hr
    have hrows : tableRows emptyLedger "InvoiceTable" = [] := by decide
    rw [hrows] at hr
    exact absurd hr (List.not_mem_nil r)

/-- Every ledger reachable by calls that keep the stage property `P` satisfies the
invariant. -/
theorem LedgerInv_of_ReachableBy (P : String → Prop) (hP : WrittenStages P)
    (allowed : String → List String → Prop)
    (hallowed : ∀ function args, allowed function args →
      function = "updateDispatchOrder" → P (argAt args 1))
    (l : Ledger) (h : ReachableBy allowed l) : LedgerInv P l := by
  induction h with
  | init => exact LedgerInv_emptyLedger P
  | step env function args _ hcall ih =>
    exact LedgerInv_commit P _ _ ih
      (LedgerInv_Invoke P hP env _ function args ih (hallowed function args hcall))

/-! ## Lifecycle stage of stored orders -/

theorem WrittenStages_stageTexts : WrittenStages (fun s => s ∈ stageTexts) := by
  unfold WrittenStages
  decide

theorem ReachableBy_ledgerA (allowed : String → List String → Prop)
    (h : allowed "createDispatchOrder" (sampleArgs "A" "0" "10")) :
    ReachableBy allowed ledgerA :=
  ReachableBy.step sampleEnv "createDispatchOrder" (sampleArgs "A" "0" "10") ReachableBy.init h

/-- C4, as amended. In every ledger reachable from a fresh deployment by invocations of
the nine operations in which each `updateDispatchOrder` passes as `args[1]` the decimal
text of one of the twelve lifecycle constants, the `stage` member of every stored
dispatch order is the decimal text of one of the constants 0..11. -/
theorem stored_order_stage (l : Ledger) (h : ReachableBy stageChecked l) (k : String)
    (p : Payload) (hmem : (k, p) ∈ l.state) : mapIndex p "stage" ∈ stageTexts :=
  (LedgerInv_of_ReachableBy (fun s => s ∈ stageTexts) WrittenStages_stageTexts stageChecked
    (fun _ _ hcall hfn => hcall hfn) l h).1 (k, p) hmem

/-- Witness of C4 as amended: order "A", created and then updated with stage "4". -/
theorem stored_order_stage_witness :
    mapIndex ((GetState ledgerTransit "A").getD []) "stage" ∈ stageTexts :=
  stored_order_stage ledgerTransit
    (ReachableBy.step sampleEnv "updateDispatchOrder" (sampleArgs "A" "4" "10")
      (ReachableBy_ledgerA stageChecked (fun hfn => absurd hfn (by decide)))
      (fun _ => by decide))
    "A" ((GetState ledgerTransit "A").getD []) (by decide)

/-- Counterexample to C4 as stated: `updateDispatchOrder` stores `args[1]` unchecked, so
after creating order "A" and updating it with the stage argument "shipped" the stored
stage is "shipped", which is none of the twelve constants. -/
theorem stored_order_stage_counterexample :
    ¬ ∀ l : Ledger, Reachable l → ∀ (k : String) (p : Payload), (k, p) ∈ l.state →
        mapIndex p "stage" ∈ stageTexts := by
  intro h
  have hreach : Reachable ledgerShipped :=
    ReachableBy.step sampleEnv "updateDispatchOrder" (sampleArgs "A" "shipped" "10")
      (ReachableBy_ledgerA _ trivial) trivial
  have h1 := h ledgerShipped hreach "A" ((GetState ledgerShipped "A").getD []) (by decide)
  revert h1
  decide

/-! ## Audit trail: examples -/

/-- Witness of C5 as amended: creating order "A" on a fresh deployment appends the
history row ("transaction", "A", "2017-03-04 10:20:30"). -/
theorem history_row_appended_witness :
    ∃ payload, tableRows ledgerA "TransactionHistory" =
      [] ++ [⟨["transaction", "A", "2017-03-04 10:20:30"], payload⟩] :=
  (history_row_appended sampleEnv emptyLedger ledgerA (sampleArgs "A" "0" "10") .nil []
    (by decide)).1 (by decide) (by decide)

/-- Counterexample to C5 as stated: order "A" is created and, within the same second,
updated. The update succeeds, its history row has the key of the row the creation
wrote, the insert is rejected and the error dropped: the table has one row, not two. -/
theorem history_row_counterexample :
    ¬ ∀ (env : Env) (l l2 : Ledger) (args : List String) (r : Reply),
        updateDispatchOrder env l args = (.ok r, l2) →
        (tableRows l2 "TransactionHistory").length
          = (tableRows l "TransactionHistory").length + 1 := by
  intro h
  have h1 := h sampleEnv ledgerA ledgerTransit (sampleArgs "A" "4" "10") .nil (by decide)
  revert h1
  decide

/-- C6, evaluated. `mapAsset` and `createInvoice` succeed, rewrite the stored order
"A", and leave the TransactionHistory table as it was: no history row is inserted. -/
theorem mapAsset_createInvoice_no_history :
    (mapAsset sampleEnv ledgerAsset ["A", "X"]).1 = .ok (.text "Assets Mapped") ∧
    GetState (mapAsset sampleEnv ledgerAsset ["A", "X"]).2 "A" ≠ GetState ledgerAsset "A" ∧
    tableRows (mapAsset sampleEnv ledgerAsset ["A", "X"]).2 "TransactionHistory"
      = tableRows ledgerAsset "TransactionHistory" ∧
    (createInvoice sampleEnv ledgerVoucher ["I", "A"]).1 = .ok (.text "Invoice Created") ∧
    GetState (createInvoice sampleEnv ledgerVoucher ["I", "A"]).2 "A"
      ≠ GetState ledgerVoucher "A" ∧
    tableRows (createInvoice sampleEnv ledgerVoucher ["I", "A"]).2 "TransactionHistory"
      = tableRows ledgerVoucher "TransactionHistory" := by
  decide

/-! ## Invoice validation -/

/-- C7, evaluated. Invoice "I" is created over the voucher of order "A" and is stored
under ("invoice", "I", "11", time) with stage "11"; `validateInvoice` on it looks the
invoice up under ("invoice", "I", "9"), finds no row and panics on `rows[0]`, with
nothing written. -/
theorem validateInvoice_after_createInvoice :
    (createInvoice sampleEnv ledgerVoucher ["I", "A"]).1 = .ok (.text "Invoice Created") ∧
    tableRows ledgerInvoiced "InvoiceTable" =
      [⟨["invoice", "I", "11", "2017-03-04 10:20:30"],
        InvoicetoJSON ⟨"I", "A", "11", "25000"⟩⟩] ∧
    validateInvoice sampleEnv ledgerInvoiced ["I"] = (.fault, ledgerInvoiced) := by
  decide

/-- C8. On every reachable ledger that holds no invoice with the given ID in stage
INVOICE_GENERATED, `validateInvoice` does not succeed and its working state is the
ledger it started from: every voucher row, every stored order and the InvoiceTable are
unchanged. (The lookup is made under the stage key "9", which no row of a reachable
InvoiceTable carries, so the hypothesis on the invoice is not needed for the
conclusion.) -/
theorem validateInvoice_not_generated (env : Env) (l : Ledger) (invoiceID : String)
    (h : Reachable l)
    (_hno : ∀ r ∈ tableRows l "InvoiceTable",
      ¬ ((JSONtoInvoice r.payload).InvoiceID = invoiceID ∧
         (JSONtoInvoice r.payload).Stage = Itoa STATE_INVOICE_GENERATED)) :
    (∀ r, (validateInvoice env l [invoiceID]).1 ≠ .ok r) ∧
    (validateInvoice env l [invoiceID]).2 = l := by
  have hl : LedgerInv (fun _ => True) l :=
    LedgerInv_of_ReachableBy (fun _ => True) ⟨trivial, trivial, trivial, trivial, trivial⟩
      (fun _ _ => True) (fun _ _ _ _ => trivial) l h
  have hnot := getunValidatedInvoice_not_ok (fun _ => True) l invoiceID hl
  unfold validateInvoice
  simp only [List.length_singleton, ne_eq, not_true_eq_false, if_false, argAt, List.getD_cons_zero]
  split
  · exact ⟨fun r hr => by simp at hr, rfl⟩
  · exact ⟨fun r hr => by simp at hr, rfl⟩
  · rename_i inv hinv
    exact absurd hinv (hnot inv)

/-- Witness of C8: the reachable ledger `ledgerInvoiced` holds invoice "I" only, and
`validateInvoice` on the unknown invoice "J" does not succeed and changes nothing. -/
theorem validateInvoice_not_generated_witness :
    (∀ r, (validateInvoice sampleEnv ledgerInvoiced ["J"]).1 ≠ .ok r) ∧
    (validateInvoice sampleEnv ledgerInvoiced ["J"]).2 = ledgerInvoiced :=
  validateInvoice_not_generated sampleEnv ledgerInvoiced "J"
    (ReachableBy.step sampleEnv "createInvoice" ["I", "A"]
      (ReachableBy.step sampleEnv "createVoucher" (sampleArgs "A" "0" "10")
        (ReachableBy_ledgerA _ trivial) trivial) trivial)
    (by decide)

/-! ## Invoice creation -/

theorem JSONtoVO_voToJSON (v : VoucherObject) : JSONtoVO (voToJSON v) = v := by
  cases v
  rfl

theorem wrapInt_wrapInt (x : Int) : wrapInt (wrapInt x) = wrapInt x := by
  unfold wrapInt
  omega

/-- The running sum of `createInvoice`, each addition reduced to the range of `int`,
is the whole sum reduced once. -/
theorem foldl_wrapInt (xs : List Int) :
    ∀ acc : Int, wrapInt acc = acc →
      xs.foldl (fun a x => wrapInt (a + x)) acc = wrapInt (acc + xs.sum) := by
  induction xs with
  | nil => intro acc hacc; simp [hacc]
  | cons x rest ih =>
    intro acc _
    simp only [List.foldl_cons, List.sum_cons]
    rw [ih _ (wrapInt_wrapInt _), wrapInt_add_wrapInt, Int.add_assoc]

theorem VoucherExt_refl (l : Ledger) : VoucherExt l l :=
  fun rows h => ⟨[], by simp [h]⟩

theorem VoucherExt_trans (l l1 l2 : Ledger) (h1 : VoucherExt l l1) (h2 : VoucherExt l1 l2) :
    VoucherExt l l2 := by
  intro rows hrows
  obtain ⟨e1, he1⟩ := h1 rows hrows
  obtain ⟨e2, he2⟩ := h2 _ he1
  exact ⟨e1 ++ e2, by simp [he2]⟩

theorem VoucherExt_stamp (l l2 : Ledger) (invoiceID : String) (v : VoucherObject)
    (dat : Payload) (h : stampVoucherAndOrder l invoiceID v dat = .ok l2) :
    VoucherExt l l2 := by
  obtain ⟨l1, h1, h2⟩ := stampVoucherAndOrder_ok l l2 invoiceID v dat h
  obtain ⟨-, rows, hrows, -, htab⟩ := UpdateLedger_ok _ _ _ _ _ h1
  intro rows0 hrows0
  rw [hrows] at hrows0
  simp only [Option.some.injEq] at hrows0
  subst hrows0 h2
  exact ⟨_, by rw [PutState_tables, htab, assocGet_assocSet_same]⟩

theorem getVoucherFromTable_mono (l l1 : Ledger) (key : List String) (v : VoucherObject)
    (hext : VoucherExt l l1) (h : getVoucherFromTable l key = .ok v) :
    getVoucherFromTable l1 key = .ok v := by
  unfold getVoucherFromTable GetList GetRows at h ⊢
  by_cases hlen : key.length < 1
  · simp [hlen] at h
  · simp only [hlen, if_false] at h ⊢
    cases hrows : assocGet "VoucherTable" l.tables with
    | none => simp [hrows] at h
    | some rows =>
      obtain ⟨extra, hextra⟩ := hext rows hrows
      simp only [hrows] at h
      simp only [hextra, List.filter_append]
      cases hf : rows.filter (fun r => key.isPrefixOf r.keys) with
      | nil => simp [hf] at h
      | cons r rest =>
        simp only [hf] at h
        simpa using h

theorem getVoucherFromTable_ok (l : Ledger) (key : List String) (v : VoucherObject)
    (h : getVoucherFromTable l key = .ok v) :
    ∃ r ∈ tableRows l "VoucherTable", key.isPrefixOf r.keys = true ∧ v = JSONtoVO r.payload := by
  unfold getVoucherFromTable GetList GetRows at h
  by_cases hlen : key.length < 1
  · simp [hlen] at h
  · simp only [hlen, if_false] at h
    cases hrows : assocGet "VoucherTable" l.tables with
    | none => simp [hrows] at h
    | some rows =>
      simp only [hrows] at h
      cases hf : rows.filter (fun r => key.isPrefixOf r.keys) with
      | nil => simp [hf] at h
      | cons r rest =>
        simp only [hf, Res.ok.injEq] at h
        have hr : r ∈ rows.filter (fun r => key.isPrefixOf r.keys) := by simp [hf]
        rw [List.mem_filter] at hr
        exact ⟨r, by simpa [tableRows, hrows] using hr.1, hr.2, h.symm⟩

theorem assocGet_stamp_other (l l2 : Ledger) (invoiceID : String) (v : VoucherObject)
    (dat : Payload) (name : String) (hname : name ≠ "VoucherTable")
    (h : stampVoucherAndOrder l invoiceID v dat = .ok l2) :
    assocGet name l2.tables = assocGet name l.tables := by
  obtain ⟨l1, h1, h2⟩ := stampVoucherAndOrder_ok l l2 invoiceID v dat h
  subst h2
  rw [PutState_tables]
  exact assocGet_UpdateLedger_ne _ _ _ _ _ _ h1 hname

/-- What a completed loop of `createInvoice` has done: the running sum grew by the
amounts of the vouchers loaded for the IDs in order, `InvoiceTable` is untouched and
`VoucherTable` was only extended. -/
theorem createInvoiceLoop_ok (invoiceID : String) (ids : List String) :
    ∀ (acc : Int) (l : Ledger) (total : Int) (l1 : Ledger),
      createInvoiceLoop invoiceID ids acc l = (.ok total, l1) →
      ∃ amounts : List Int,
        List.Forall₂ (fun id a => ∃ v, getVoucherFromTable l1 ["voucher", id] = .ok v ∧
          Atoi v.Amount = some a) ids amounts ∧
        total = amounts.foldl (fun a x => wrapInt (a + x)) acc ∧
        assocGet "InvoiceTable" l1.tables = assocGet "InvoiceTable" l.tables ∧
        VoucherExt l l1 := by
  induction ids with
  | nil =>
    intro acc l total l1 h
    simp only [createInvoiceLoop, Prod.mk.injEq, Except.ok.injEq] at h
    obtain ⟨h1, h2⟩ := h
    subst h1 h2
    exact ⟨[], List.Forall₂.nil, rfl, rfl, VoucherExt_refl _⟩
  | cons id rest ih =>
    intro acc l total l1 h
    unfold createInvoiceLoop at h
    split at h
    · simp at h
    · rename_i v0 dat hload
      obtain ⟨hv0, -⟩ := loadVoucherAndOrder_ok _ _ _ _ _ hload
      split at h
      · simp at h
      · rename_i a ha
        simp only at h
        split at h
        · simp at h
        · rename_i l2 h2
          obtain ⟨amounts, hall, htotal, hinv, hext⟩ := ih _ l2 total l1 h
          have hext2 := VoucherExt_stamp _ _ _ _ _ h2
          refine ⟨a :: amounts, List.Forall₂.cons ?_ hall, ?_, ?_, ?_⟩
          · exact ⟨v0, getVoucherFromTable_mono _ _ _ _
              (VoucherExt_trans _ _ _ hext2 hext) hv0, ha⟩
          · simpa using htotal
          · rw [hinv]
            exact assocGet_stamp_other _ _ _ _ _ _ (by decide) h2
          · exact VoucherExt_trans _ _ _ hext2 hext

theorem loadVoucherAndOrder_error (l : Ledger) (id stage : String) (o : Outcome)
    (h : loadVoucherAndOrder l id stage = .error o) : o.failed := by
  unfold loadVoucherAndOrder at h
  intro r hr
  subst hr
  repeat' split at h
  all_goals simp at h

theorem stampVoucherAndOrder_error (l : Ledger) (invoiceID : String) (v : VoucherObject)
    (dat : Payload) (o : Outcome) (h : stampVoucherAndOrder l invoiceID v dat = .error o) :
    o.failed := by
  unfold stampVoucherAndOrder at h
  intro r hr
  subst hr
  simp only at h
  repeat' split at h
  all_goals simp at h

theorem createInvoiceLoop_error (invoiceID : String) (ids : List String) :
    ∀ (acc : Int) (l : Ledger) (o : Outcome) (l1 : Ledger),
      createInvoiceLoop invoiceID ids acc l = (.error o, l1) → o.failed := by
  induction ids with
  | nil =>
    intro acc l o l1 h
    simp [createInvoiceLoop] at h
  | cons id rest ih =>
    intro acc l o l1 h
    unfold createInvoiceLoop at h
    split at h
    · rename_i o1 hload
      simp only [Prod.mk.injEq, Except.error.injEq] at h
      rw [← h.1]
      exact loadVoucherAndOrder_error _ _ _ _ hload
    · split at h
      · simp only [Prod.mk.injEq, Except.error.injEq] at h
        rw [← h.1]
        intro r hr
        simp at hr
      · simp only at h
        split at h
        · rename_i o1 hstamp
          simp only [Prod.mk.injEq, Except.error.injEq] at h
          rw [← h.1]
          exact stampVoucherAndOrder_error _ _ _ _ _ hstamp
        · exact ih _ _ _ _ h

theorem createInvoiceLoop_other (invoiceID : String) (name : String)
    (hname : name ≠ "VoucherTable") (ids : List String) :
    ∀ (acc : Int) (l : Ledger),
      assocGet name (createInvoiceLoop invoiceID ids acc l).2.tables
        = assocGet name l.tables := by
  induction ids with
  | nil => intro acc l; rfl
  | cons id rest ih =>
    intro acc l
    unfold createInvoiceLoop
    split
    · rfl
    · split
      · rfl
      · simp only
        split
        · rfl
        · rename_i l2 h2
          rw [ih]
          exact assocGet_stamp_other _ _ _ _ _ _ hname h2

/-- C9, as amended. After a successful `createInvoice(invoiceID, voucherIds)` the
InvoiceTable holds exactly one more row, keyed ("invoice", invoiceID, "11", time),
whose invoice has InvoiceID = invoiceID, VoucherList = the supplied text, Stage = "11"
and Amount = the decimal text of the sum, reduced to the signed 64-bit range of Go
`int`, of the integer Amounts of the vouchers loaded for the comma-separated IDs in
order (for each ID the first row of VoucherTable under ("voucher", ID)). -/
theorem createInvoice_record (env : Env) (l l1 : Ledger) (invoiceID voucherIds : String)
    (more : List String) (r : Reply)
    (h : createInvoice env l (invoiceID :: voucherIds :: more) = (.ok r, l1)) :
    ∃ amounts : List Int,
      List.Forall₂ (fun id a => ∃ v, getVoucherFromTable l1 ["voucher", id] = .ok v ∧
        Atoi v.Amount = some a) (Split voucherIds) amounts ∧
      tableRows l1 "InvoiceTable" = tableRows l "InvoiceTable" ++
        [⟨["invoice", invoiceID, "11", formatLong (env.now 0)],
          InvoicetoJSON ⟨invoiceID, voucherIds, "11", Itoa (wrapInt amounts.sum)⟩⟩] := by
  unfold createInvoice at h
  simp only at h
  split at h
  · rename_i o l2 hloop
    simp only [Prod.mk.injEq] at h
    exact absurd h.1 (createInvoiceLoop_error _ _ _ _ _ _ hloop r)
  · rename_i total l2 hloop
    obtain ⟨amounts, hall, htotal, hinv, hext⟩ := createInvoiceLoop_ok _ _ _ _ _ _ hloop
    have hsum : total = wrapInt amounts.sum := by
      rw [htotal, foldl_wrapInt amounts 0 (by decide)]
      simp
    have hstage : Itoa STATE_INVOICE_GENERATED = "11" := by decide
    rw [show CreateInvoiceObject
        [invoiceID, voucherIds, Itoa STATE_INVOICE_GENERATED, Itoa total]
      = .ok ⟨invoiceID, voucherIds, Itoa STATE_INVOICE_GENERATED, Itoa total⟩ from rfl] at h
    simp only [hstage] at h
    split at h
    · simp at h
    · simp at h
    · rename_i l3 h3
      simp only [Prod.mk.injEq] at h
      obtain ⟨-, h4⟩ := h
      subst h4
      refine ⟨amounts, ?_, ?_⟩
      · refine List.Forall₂.imp ?_ hall
        intro id a ⟨v, hv, ha⟩
        refine ⟨v, getVoucherFromTable_mono l2 l3 _ _ ?_ hv, ha⟩
        intro rows hrows
        exact ⟨[], by rw [assocGet_UpdateLedger_ne _ _ _ _ _ _ h3 (by decide), hrows]; simp⟩
      · rw [tableRows_UpdateLedger_same _ _ _ _ _ h3]
        simp only [tableRows, hinv, hsum, GetNumberOfKeys]
        rfl

/-- Witness of C9 as amended: invoice "I" over the voucher of order "A". -/
theorem createInvoice_record_witness :
    ∃ amounts : List Int,
      List.Forall₂ (fun id a => ∃ v, getVoucherFromTable ledgerInvoiced ["voucher", id] = .ok v ∧
        Atoi v.Amount = some a) (Split "A") amounts ∧
      tableRows ledgerInvoiced "InvoiceTable" = tableRows ledgerVoucher "InvoiceTable" ++
        [⟨["invoice", "I", "11", formatLong (sampleEnv.now 0)],
          InvoicetoJSON ⟨"I", "A", "11", Itoa (wrapInt amounts.sum)⟩⟩] :=
  createInvoice_record sampleEnv ledgerVoucher ledgerInvoiced "I" "A" []
    (.text "Invoice Created") (by decide)

/-- Counterexample to C9 as stated: the vouchers of "A" and "B" each have the Amount
"9223372036854775000"; the sum of the two overflows `int`, and the invoice created over
them is stored with the Amount "-1616", not with the decimal text of the sum. -/
theorem createInvoice_amount_counterexample :
    (createInvoice sampleEnv ledgerBig ["I", "A,B"]).1 = .ok (.text "Invoice Created") ∧
    (getVoucherFromTable ledgerBig ["voucher", "A"] = .ok
      { blankVoucher with
          VoucherID := "A", DispatchOrderID := "A", Stage := "8", Customer := "Maruthi Pune",
          LoadingType := "LTL", Weight := "3689348814741910", TimeStamp := "20170304102030",
          Amount := "9223372036854775000" }) ∧
    (getVoucherFromTable ledgerBig ["voucher", "B"] = .ok
      { blankVoucher with
          VoucherID := "B", DispatchOrderID := "B", Stage := "8", Customer := "Maruthi Pune",
          LoadingType := "LTL", Weight := "3689348814741910", TimeStamp := "20170304102030",
          Amount := "9223372036854775000" }) ∧
    tableRows (createInvoice sampleEnv ledgerBig ["I", "A,B"]).2 "InvoiceTable" =
      [⟨["invoice", "I", "11", "2017-03-04 10:20:30"],
        InvoicetoJSON ⟨"I", "A,B", "11", "-1616"⟩⟩] ∧
    Itoa (9223372036854775000 + 9223372036854775000) = "18446744073709550000" := by
  decide

theorem OnlyStamped_stamp (id : String) (l l2 : Ledger) (invoiceID : String)
    (w : VoucherObject) (dat : Payload) (hl : OnlyStamped id l)
    (hw : w.Stage = Itoa STATE_INVOICE_GENERATED)
    (h : stampVoucherAndOrder l invoiceID w dat = .ok l2) : OnlyStamped id l2 := by
  obtain ⟨l1, h1, h2⟩ := stampVoucherAndOrder_ok _ _ _ _ _ h
  subst h2
  intro r hr hpre
  rw [tableRows_PutState, tableRows_UpdateLedger_same _ _ _ _ _ h1] at hr
  rcases List.mem_append.mp hr with hr1 | hr1
  · exact hl r hr1 hpre
  · simp only [List.mem_singleton] at hr1
    have hkeys : List.take (GetNumberOfKeys "VoucherTable")
        ["voucher", w.DispatchOrderID, w.Stage, invoiceID]
        = ["voucher", w.DispatchOrderID, w.Stage] := rfl
    rw [hkeys] at hr1
    subst hr1
    have hdo : id = w.DispatchOrderID := by
      simpa [List.isPrefixOf] using hpre
    simp only [JSONtoVO_voToJSON, ← hdo, hw, and_self]

/-- When every row under ("voucher", id) is a stamped copy, the loop of `createInvoice`
does not get past `id`: either nothing is loaded for it, or the row it would insert is
the stamped copy that is already there. -/
theorem createInvoiceLoop_missing (invoiceID id : String) (ids : List String) :
    ∀ (acc : Int) (l : Ledger), OnlyStamped id l → id ∈ ids →
      ∃ o, (createInvoiceLoop invoiceID ids acc l).1 = .error o := by
  induction ids with
  | nil => intro acc l _ hmem; simp at hmem
  | cons id1 rest ih =>
    intro acc l hl hmem
    unfold createInvoiceLoop
    split
    · exact ⟨_, rfl⟩
    · rename_i v0 dat hload
      split
      · exact ⟨_, rfl⟩
      · simp only
        split
        · exact ⟨_, rfl⟩
        · rename_i l2 h2
          by_cases hid : id1 = id
          · subst hid
            exfalso
            obtain ⟨hv0, -⟩ := loadVoucherAndOrder_ok _ _ _ _ _ hload
            obtain ⟨r, hr, hpre, hv⟩ := getVoucherFromTable_ok _ _ _ hv0
            obtain ⟨hkeys, hdo⟩ := hl r hr hpre
            obtain ⟨l1, h1, -⟩ := stampVoucherAndOrder_ok _ _ _ _ _ h2
            obtain ⟨-, rows, hrows, hfresh, -⟩ := UpdateLedger_ok _ _ _ _ _ h1
            have hr2 : r ∈ rows := by simpa [tableRows, hrows] using hr
            apply hfresh r hr2
            rw [hkeys, ← hv] at *
            simp [GetNumberOfKeys, hdo]
          · have hmem2 : id ∈ rest := by
              rcases List.mem_cons.mp hmem with h3 | h3
              · exact absurd h3.symm hid
              · exact h3
            exact ih _ l2 (OnlyStamped_stamp id l l2 _ _ _ hl rfl h2) hmem2

/-- C10. If some voucher ID of the comma-separated list has no row in VoucherTable,
`createInvoice` does not succeed and InvoiceTable is left as it was: no row is
inserted into it. -/
theorem createInvoice_missing_voucher (env : Env) (l : Ledger) (invoiceID voucherIds : String)
    (more : List String) (id : String) (hid : id ∈ Split voucherIds)
    (hno : ∀ r ∈ tableRows l "VoucherTable", ["voucher", id].isPrefixOf r.keys = false) :
    (∀ r, (createInvoice env l (invoiceID :: voucherIds :: more)).1 ≠ .ok r) ∧
    tableRows (createInvoice env l (invoiceID :: voucherIds :: more)).2 "InvoiceTable"
      = tableRows l "InvoiceTable" := by
  have hl : OnlyStamped id l := by
    intro r hr hpre
    rw [hno r hr] at hpre
    exact absurd hpre (by decide)
  obtain ⟨o, ho⟩ := createInvoiceLoop_missing invoiceID id (Split voucherIds) 0 l hl hid
  have hinv := createInvoiceLoop_other invoiceID "InvoiceTable" (by decide)
    (Split voucherIds) 0 l
  unfold createInvoice
  simp only
  split
  · rename_i o1 l1 hloop
    rw [hloop] at hinv
    exact ⟨createInvoiceLoop_error _ _ _ _ _ _ hloop, by simp only [tableRows, hinv]⟩
  · rename_i total l1 hloop
    rw [hloop] at ho
    simp at ho

/-- Witness of C10: in `ledgerVoucher` only order "A" has a voucher, and an invoice
over "A,B" is not created. -/
theorem createInvoice_missing_voucher_witness :
    (∀ r, (createInvoice sampleEnv ledgerVoucher ["I", "A,B"]).1 ≠ .ok r) ∧
    tableRows (createInvoice sampleEnv ledgerVoucher ["I", "A,B"]).2 "InvoiceTable"
      = tableRows ledgerVoucher "InvoiceTable" :=
  createInvoice_missing_voucher sampleEnv ledgerVoucher "I" "A,B" [] "B"
    (by decide) (by decide)

/-! ## Operations that write no history -/

theorem mapAssetLoop_other (orderID : String) (dat str : Payload) (name : String)
    (hname : name ≠ "AssetTable") (ids : List String) :
    ∀ l : Ledger, assocGet name (mapAssetLoop orderID dat str ids l).2.tables
      = assocGet name l.tables := by
  induction ids with
  | nil => intro l; rfl
  | cons id rest ih =>
    intro l
    unfold mapAssetLoop
    split
    · rfl
    · rfl
    · simp only
      split
      · rfl
      · rfl
      · rename_i l1 h1
        rw [ih, PutState_tables]
        exact assocGet_ReplaceRowInLedger_ne _ _ _ _ _ _ h1 hname

theorem validateInvoiceLoop_other (invoiceID : String) (name : String)
    (hname : name ≠ "VoucherTable") (ids : List String) :
    ∀ l : Ledger, assocGet name (validateInvoiceLoop invoiceID ids l).2.tables
      = assocGet name l.tables := by
  induction ids with
  | nil => intro l; rfl
  | cons id rest ih =>
    intro l
    unfold validateInvoiceLoop
    split
    · rfl
    · simp only
      split
      · rfl
      · rename_i l2 h2
        rw [ih]
        exact assocGet_stamp_other _ _ _ _ _ _ hname h2

/-- For every ledger, environment and argument list, `mapAsset`, `createInvoice` and
`validateInvoice` leave the TransactionHistory table as it was, whatever they return. -/
theorem no_history_written (env : Env) (l : Ledger) (args : List String) :
    tableRows (mapAsset env l args).2 "TransactionHistory"
      = tableRows l "TransactionHistory" ∧
    tableRows (createInvoice env l args).2 "TransactionHistory"
      = tableRows l "TransactionHistory" ∧
    tableRows (validateInvoice env l args).2 "TransactionHistory"
      = tableRows l "TransactionHistory" := by
  refine ⟨?_, ?_, ?_⟩
  · unfold mapAsset
    split
    · rfl
    · split
      · rfl
      · split
        · rfl
        · simp only
          split
          · rename_i o l1 heq
            have h1 : _ = l1 := congrArg Prod.snd heq
            show tableRows l1 _ = _
            rw [← h1]
            simp only [tableRows, mapAssetLoop_other _ _ _ "TransactionHistory" (by decide)]
          · rename_i l1 heq
            have h1 : _ = l1 := congrArg Prod.snd heq
            show tableRows l1 _ = _
            rw [← h1]
            simp only [tableRows, mapAssetLoop_other _ _ _ "TransactionHistory" (by decide)]
  · unfold createInvoice
    split
    · rename_i invoiceID voucherIds rest
      have h1 := createInvoiceLoop_other invoiceID "TransactionHistory" (by decide)
        (Split voucherIds) 0 l
      split
      · rename_i o l1 heq
        rw [heq] at h1
        simp only [tableRows, h1]
      · rename_i total l1 heq
        rw [heq] at h1
        simp only
        split
        · simp only [tableRows, h1]
        · split
          · simp only [tableRows, h1]
          · simp only [tableRows, h1]
          · rename_i l2 h2
            simp only [tableRows, assocGet_UpdateLedger_ne _ _ _ _ _ _ h2
              (show "TransactionHistory" ≠ "InvoiceTable" by decide), h1]
    · rfl
  · unfold validateInvoice
    split
    · rfl
    · simp only
      split
      · rfl
      · rfl
      · split
        · rfl
        · rfl
        · rename_i l1 h1
          have h0 := assocGet_UpdateLedger_ne _ _ _ _ _ _ h1
            (show "TransactionHistory" ≠ "InvoiceTable" by decide)
          split
          · rename_i o l2 heq
            have h2 : _ = l2 := congrArg Prod.snd heq
            show tableRows l2 _ = _
            rw [← h2]
            simp only [tableRows, h0,
              validateInvoiceLoop_other _ "TransactionHistory" (by decide)]
          · rename_i l2 heq
            have h2 : _ = l2 := congrArg Prod.snd heq
            show tableRows l2 _ = _
            rw [← h2]
            simp only [tableRows, h0,
              validateInvoiceLoop_other _ "TransactionHistory" (by decide)]

/-! ## Vouchers: creation and update -/

/-- The amount depends on the loading type, the vehicle type, the customer and the
weight only. -/
theorem CalculateVoucherAmount_congr (v w : VoucherObject)
    (hl : v.LoadingType = w.LoadingType) (hv : v.VehicleType = w.VehicleType)
    (hc : v.Customer = w.Customer) (hw : v.Weight = w.Weight) :
    CalculateVoucherAmount v = CalculateVoucherAmount w := by
  simp only [CalculateVoucherAmount, hl, hv, hc, hw]

/-- What a successful `CreateVoucherObject` returns: the voucher built from the
arguments, with the amount computed on it. -/
theorem CreateVoucherObject_fields (now : Instant) (args : List String) (v : VoucherObject)
    (h : CreateVoucherObject now args = .ok v) :
    v.Customer = argAt args 2 ∧ v.LoadingType = argAt args 13 ∧
    v.VehicleType = argAt args 14 ∧ v.Weight = argAt args 15 ∧
    ∃ a, CalculateVoucherAmount v = .ok a ∧ v.Amount = Itoa a := by
  unfold CreateVoucherObject at h
  by_cases hlen : args.length ≠ 31
  · simp [hlen] at h
  · simp only [hlen, if_false] at h
    split at h
    · simp at h
    · rename_i a ha
      simp only [Except.ok.injEq] at h
      subst h
      refine ⟨rfl, rfl, rfl, rfl, a, ?_, rfl⟩
      rw [← ha]
      exact CalculateVoucherAmount_congr _ _ rfl rfl rfl rfl

/-- The Amount of the voucher `CreateVoucherObject` builds from 31 arguments, or its
error, is the image of `CalculateVoucherAmount` on the four pricing fields alone. -/
theorem CreateVoucherObject_amount_eq (now : Instant) (args : List String)
    (h : args.length = 31) :
    (CreateVoucherObject now args).map (fun v => v.Amount) =
      (CalculateVoucherAmount { blankVoucher with
        Customer := argAt args 2, LoadingType := argAt args 13,
        VehicleType := argAt args 14, Weight := argAt args 15 }).map Itoa := by
  unfold CreateVoucherObject
  simp only [h, ne_eq, not_true_eq_false, if_false]
  split
  · rename_i err he
    have he2 : CalculateVoucherAmount { blankVoucher with
        Customer := argAt args 2, LoadingType := argAt args 13,
        VehicleType := argAt args 14, Weight := argAt args 15 } = .error err :=
      (CalculateVoucherAmount_congr _ _ rfl rfl rfl rfl).trans he
    rw [he2]
    rfl
  · rename_i a ha
    have ha2 : CalculateVoucherAmount { blankVoucher with
        Customer := argAt args 2, LoadingType := argAt args 13,
        VehicleType := argAt args 14, Weight := argAt args 15 } = .ok a :=
      (CalculateVoucherAmount_congr _ _ rfl rfl rfl rfl).trans ha
    rw [ha2]
    rfl

/-- C13. For two lists of 31 arguments that agree on `args[2]` (Customer), `args[13]`
(LoadingType), `args[14]` (VehicleType) and `args[15]` (Weight), and for any two clock
readings, `CreateVoucherObject` either fails on both or yields two vouchers with the
same Amount. -/
theorem CreateVoucherObject_amount (now1 now2 : Instant) (args1 args2 : List String)
    (h1 : args1.length = 31) (h2 : args2.length = 31)
    (hc : argAt args1 2 = argAt args2 2) (hl : argAt args1 13 = argAt args2 13)
    (hv : argAt args1 14 = argAt args2 14) (hw : argAt args1 15 = argAt args2 15) :
    (∃ e1 e2, CreateVoucherObject now1 args1 = .error e1 ∧
      CreateVoucherObject now2 args2 = .error e2) ∨
    (∃ v1 v2, CreateVoucherObject now1 args1 = .ok v1 ∧
      CreateVoucherObject now2 args2 = .ok v2 ∧ v1.Amount = v2.Amount) := by
  have e1 := CreateVoucherObject_amount_eq now1 args1 h1
  have e2 := CreateVoucherObject_amount_eq now2 args2 h2
  rw [hc, hl, hv, hw, ← e2] at e1
  cases hr1 : CreateVoucherObject now1 args1 with
  | error a =>
    cases hr2 : CreateVoucherObject now2 args2 with
    | error b => exact Or.inl ⟨a, b, rfl, rfl⟩
    | ok v2 => simp [hr1, hr2, Except.map] at e1
  | ok v1 =>
    cases hr2 : CreateVoucherObject now2 args2 with
    | error b => simp [hr1, hr2, Except.map] at e1
    | ok v2 =>
      refine Or.inr ⟨v1, v2, rfl, rfl, ?_⟩
      simpa [hr1, hr2, Except.map] using e1

/-- Witness of C13: two vouchers for the same customer, load and weight, with
different IDs and stage arguments and created at different times, get the same
Amount. -/
theorem CreateVoucherObject_amount_witness :
    (∃ e1 e2, CreateVoucherObject sampleInstant (sampleArgs "A" "0" "10") = .error e1 ∧
      CreateVoucherObject ⟨2018, 1, 1, 0, 0, 0⟩ (sampleArgs "B" "5" "10") = .error e2) ∨
    (∃ v1 v2, CreateVoucherObject sampleInstant (sampleArgs "A" "0" "10") = .ok v1 ∧
      CreateVoucherObject ⟨2018, 1, 1, 0, 0, 0⟩ (sampleArgs "B" "5" "10") = .ok v2 ∧
      v1.Amount = v2.Amount) :=
  CreateVoucherObject_amount sampleInstant ⟨2018, 1, 1, 0, 0, 0⟩ (sampleArgs "A" "0" "10")
    (sampleArgs "B" "5" "10") (by decide) (by decide) (by decide) (by decide) (by decide)
    (by decide)

theorem UpdateLedger_not_fault (l : Ledger) (name : String) (keys : List String)
    (p : Payload) (hlen : GetNumberOfKeys name ≤ keys.length) :
    UpdateLedger l name keys p ≠ .fault := by
  unfold UpdateLedger
  simp only [Nat.not_lt.mpr hlen, if_false]
  split <;> simp

theorem ReplaceRowInLedger_not_fault (l : Ledger) (name : String) (keys : List String)
    (p : Payload) (hlen : GetNumberOfKeys name ≤ keys.length) :
    ReplaceRowInLedger l name keys p ≠ .fault := by
  unfold ReplaceRowInLedger
  simp only [Nat.not_lt.mpr hlen, if_false]
  split <;> simp

/-- A `ReplaceRowInLedger` whose key is in no row of the table returns an error. -/
theorem ReplaceRowInLedger_missing (l : Ledger) (name : String) (keys : List String)
    (p : Payload) (hlen : GetNumberOfKeys name ≤ keys.length)
    (hno : ∀ r ∈ tableRows l name, r.keys ≠ keys.take (GetNumberOfKeys name)) :
    ∃ msg, ReplaceRowInLedger l name keys p = .error msg := by
  cases h : ReplaceRowInLedger l name keys p with
  | error msg => exact ⟨msg, rfl⟩
  | fault => exact absurd h (ReplaceRowInLedger_not_fault l name keys p hlen)
  | ok l1 =>
    obtain ⟨-, rows, hrows, ⟨r, hr, hk⟩, -⟩ := ReplaceRowInLedger_ok _ _ _ _ _ h
    exact absurd hk (hno r (by simpa [tableRows, hrows] using hr))

/-- What a successful `voucherTail` has done: the order existed, it is now the given
buffer, and no table but TransactionHistory was touched. -/
theorem voucherTail_ok (env : Env) (l l2 : Ledger) (v : VoucherObject) (buf : Payload)
    (kTime kKey : Nat) (r : Reply) (h : voucherTail env l v buf kTime kKey = (.ok r, l2)) :
    (∃ p, GetState l v.DispatchOrderID = some p) ∧
    GetState l2 v.DispatchOrderID = some buf ∧
    ∀ name, name ≠ "TransactionHistory" → assocGet name l2.tables = assocGet name l.tables := by
  unfold voucherTail at h
  split at h
  · simp at h
  · rename_i p hp
    simp only at h
    split at h
    · simp at h
    · split at h
      · rename_i l3 h3
        simp only [Prod.mk.injEq] at h
        obtain ⟨-, h4⟩ := h
        subst h4
        refine ⟨⟨p, hp⟩, ?_, ?_⟩
        · simp only [GetState, (UpdateLedger_ok _ _ _ _ _ h3).1]
          exact GetState_PutState_same l _ _
        · intro name hname
          rw [assocGet_UpdateLedger_ne _ _ _ _ _ _ h3 hname, PutState_tables]
      · simp only [Prod.mk.injEq] at h
        obtain ⟨-, h4⟩ := h
        subst h4
        exact ⟨⟨p, hp⟩, GetState_PutState_same l _ _, fun _ _ => rfl⟩
      · simp at h

/-- A `voucherTail` that finds no order returns an error and writes nothing. -/
theorem voucherTail_missing (env : Env) (l : Ledger) (v : VoucherObject) (buf : Payload)
    (kTime kKey : Nat) (hno : GetState l v.DispatchOrderID = none) :
    voucherTail env l v buf kTime kKey =
      (.error .nil ("Failed - contract is null for " ++ v.DispatchOrderID), l) := by
  unfold voucherTail
  rw [hno]

/-- C12. After a successful `createVoucher(args)`: the list has 31 arguments; one row
was appended to VoucherTable under ("voucher", args[0], "invoice"), a key no row held
before; its voucher has VoucherID = DispatchOrderID = args[0], Stage = "8" whatever
`args[1]` was, the pricing fields given in the arguments and as Amount the decimal text
of `CalculateVoucherAmount` on them; and the dispatch order stored under args[0] has
Stage = "8". -/
theorem createVoucher_record (env : Env) (l l1 : Ledger) (args : List String) (r : Reply)
    (h : createVoucher env l args = (.ok r, l1)) :
    args.length = 31 ∧
    (∀ row ∈ tableRows l "VoucherTable", row.keys ≠ ["voucher", argAt args 0, "invoice"]) ∧
    ∃ v : VoucherObject,
      tableRows l1 "VoucherTable" = tableRows l "VoucherTable" ++
        [⟨["voucher", argAt args 0, "invoice"], voToJSON v⟩] ∧
      v.VoucherID = argAt args 0 ∧ v.DispatchOrderID = argAt args 0 ∧ v.Stage = "8" ∧
      v.Customer = argAt args 2 ∧ v.LoadingType = argAt args 13 ∧
      v.VehicleType = argAt args 14 ∧ v.Weight = argAt args 15 ∧
      (∃ a, CalculateVoucherAmount v = .ok a ∧ v.Amount = Itoa a) ∧
      ∃ p, GetState l1 (argAt args 0) = some p ∧ mapIndex p "stage" = "8" := by
  unfold createVoucher at h
  split at h
  · simp at h
  · rename_i v0 hv0
    obtain ⟨hlen, hvid, hdo⟩ := CreateVoucherObject_ok _ _ _ hv0
    obtain ⟨f1, f2, f3, f4, a, ha, hamt⟩ := CreateVoucherObject_fields _ _ _ hv0
    split at h
    · simp at h
    · rename_i d0 hd0
      simp only at h
      split at h
      · simp at h
      · simp at h
      · rename_i l2 h2
        obtain ⟨-, hstate, htab⟩ := voucherTail_ok _ _ _ _ _ _ _ _ h
        obtain ⟨-, rows, hrows, hfresh, -⟩ := UpdateLedger_ok _ _ _ _ _ h2
        have hkey : List.take (GetNumberOfKeys "VoucherTable")
            ["voucher", v0.VoucherID, "invoice"] = ["voucher", argAt args 0, "invoice"] := by
          rw [hvid]
          rfl
        have hstage : Itoa STATE_VOUCHER_CREATED = "8" := by decide
        refine ⟨hlen, ?_, { v0 with Stage := Itoa STATE_VOUCHER_CREATED }, ?_, hvid, hdo,
          hstage, f1, f2, f3, f4, ⟨a, ?_, hamt⟩, ?_⟩
        · intro row hrow
          rw [← hkey]
          exact hfresh row (by simpa [tableRows, hrows] using hrow)
        · simp only [tableRows, htab "VoucherTable" (by decide)]
          have := tableRows_UpdateLedger_same _ _ _ _ _ h2
          simp only [tableRows] at this
          rw [this, ← hkey]
        · rw [← ha]
          exact CalculateVoucherAmount_congr _ _ rfl rfl rfl rfl
        · rw [← hdo]
          exact ⟨_, hstate, by rw [mapIndex_doToJSON_stage]; exact hstage⟩

/-- Witness of C12: the voucher of order "A" in `ledgerVoucher`. -/
theorem createVoucher_record_witness :
    ∃ v : VoucherObject,
      tableRows ledgerVoucher "VoucherTable" = tableRows ledgerA "VoucherTable" ++
        [⟨["voucher", "A", "invoice"], voToJSON v⟩] ∧
      v.VoucherID = "A" ∧ v.DispatchOrderID = "A" ∧ v.Stage = "8" ∧ v.Amount = "25000" ∧
      ∃ p, GetState ledgerVoucher "A" = some p ∧ mapIndex p "stage" = "8" := by
  obtain ⟨-, -, v, h1, h2, h3, h4, -, -, -, -, ⟨a, ha, hamt⟩, h5⟩ :=
    createVoucher_record sampleEnv ledgerA ledgerVoucher (sampleArgs "A" "0" "10") .nil
      (by decide)
  refine ⟨v, h1, h2, h3, h4, ?_, h5⟩
  have hrow : ∃ row ∈ tableRows ledgerVoucher "VoucherTable",
      (JSONtoVO row.payload).Amount = "25000" ∧
      row = ⟨["voucher", "A", "invoice"], row.payload⟩ ∧
      tableRows ledgerVoucher "VoucherTable" = [row] := by decide
  obtain ⟨row, -, hr1, hr2, hr3⟩ := hrow
  have hrows : tableRows ledgerA "VoucherTable" = [] := by decide
  rw [hr3, hrows] at h1
  simp only [List.nil_append, List.cons.injEq, and_true] at h1
  rw [h1] at hr1
  simpa [JSONtoVO_voToJSON] using hr1

/-! ## Preconditions and argument counts -/

/-- C14, as amended. When no dispatch order is stored under `args[0]`, `createVoucher`
returns an error, and the committed ledger is the one it started from. In the working
state of the failed invocation the flat key space and the TransactionHistory table are
untouched; the order check follows the insert of the voucher row, so VoucherTable is
either untouched or holds the new row ("voucher", args[0], "invoice"). -/
theorem createVoucher_missing_order (env : Env) (l : Ledger) (args : List String)
    (hno : GetState l (argAt args 0) = none) :
    (∃ rep msg, (createVoucher env l args).1 = .error rep msg) ∧
    commit l (createVoucher env l args) = l ∧
    (createVoucher env l args).2.state = l.state ∧
    tableRows (createVoucher env l args).2 "TransactionHistory"
      = tableRows l "TransactionHistory" ∧
    ((createVoucher env l args).2 = l ∨
      ∃ v, tableRows (createVoucher env l args).2 "VoucherTable"
        = tableRows l "VoucherTable" ++ [⟨["voucher", argAt args 0, "invoice"], voToJSON v⟩]) := by
  have key : (∃ rep msg, (createVoucher env l args).1 = .error rep msg) ∧
      (createVoucher env l args).2.state = l.state ∧
      tableRows (createVoucher env l args).2 "TransactionHistory"
        = tableRows l "TransactionHistory" ∧
      ((createVoucher env l args).2 = l ∨
        ∃ v, tableRows (createVoucher env l args).2 "VoucherTable"
          = tableRows l "VoucherTable" ++
            [⟨["voucher", argAt args 0, "invoice"], voToJSON v⟩]) := by
    unfold createVoucher
    split
    · exact ⟨⟨_, _, rfl⟩, rfl, rfl, Or.inl rfl⟩
    · rename_i v0 hv0
      obtain ⟨-, hvid, hdo⟩ := CreateVoucherObject_ok _ _ _ hv0
      split
      · exact ⟨⟨_, _, rfl⟩, rfl, rfl, Or.inl rfl⟩
      · simp only
        split
        · exact ⟨⟨_, _, rfl⟩, rfl, rfl, Or.inl rfl⟩
        · rename_i hf
          exact absurd hf (UpdateLedger_not_fault _ _ _ _ (by simp [GetNumberOfKeys]))
        · rename_i l1 h1
          have hstate := (UpdateLedger_ok _ _ _ _ _ h1).1
          have hno1 : GetState l1 (argAt args 0) = none := by
            simp only [GetState, hstate]
            exact hno
          rw [voucherTail_missing env l1 _ _ 2 3 (by rw [← hdo] at hno1; exact hno1)]
          refine ⟨⟨_, _, rfl⟩, hstate, ?_,
            Or.inr ⟨{ v0 with Stage := Itoa STATE_VOUCHER_CREATED }, ?_⟩⟩
          · exact tableRows_UpdateLedger_ne _ _ _ _ _ _ h1 (by decide)
          · have := tableRows_UpdateLedger_same _ _ _ _ _ h1
            rw [this, hvid]
            rfl
  obtain ⟨⟨rep, msg, herr⟩, h2, h3, h4⟩ := key
  refine ⟨⟨rep, msg, herr⟩, ?_, h2, h3, h4⟩
  unfold commit
  rw [herr]

/-- Witness of C14 as amended: a voucher for "A" on a fresh deployment, where no order
exists. -/
theorem createVoucher_missing_order_witness :
    (∃ rep msg, (createVoucher sampleEnv emptyLedger (sampleArgs "A" "0" "10")).1
      = .error rep msg) ∧
    commit emptyLedger (createVoucher sampleEnv emptyLedger (sampleArgs "A" "0" "10"))
      = emptyLedger :=
  ⟨(createVoucher_missing_order sampleEnv emptyLedger (sampleArgs "A" "0" "10")
      (by decide)).1,
   (createVoucher_missing_order sampleEnv emptyLedger (sampleArgs "A" "0" "10")
      (by decide)).2.1⟩

/-- Counterexample to C14 as stated: on a fresh deployment `createVoucher` for "A"
fails on the missing order after it has inserted the voucher row: the working state of
the invocation holds one row in VoucherTable. -/
theorem createVoucher_missing_order_counterexample :
    ¬ ∀ (env : Env) (l : Ledger) (args : List String), args.length = 31 →
        GetState l (argAt args 0) = none →
        tableRows (createVoucher env l args).2 "VoucherTable" = tableRows l "VoucherTable" := by
  intro h
  have h1 := h sampleEnv emptyLedger (sampleArgs "A" "0" "10") (by decide) (by decide)
  revert h1
  decide

/-- C15. `updateVoucher` whose voucher ID has no row ("voucher", args[0], "invoice") in
VoucherTable returns an error and its working state is the ledger it started from: no
voucher row is created, no order is touched and no history row is added. This holds for
every argument list, so in particular for one of 34 arguments. -/
theorem updateVoucher_missing (env : Env) (l : Ledger) (args : List String)
    (hno : ∀ r ∈ tableRows l "VoucherTable", r.keys ≠ ["voucher", argAt args 0, "invoice"]) :
    (∃ rep msg, (updateVoucher env l args).1 = .error rep msg) ∧
    (updateVoucher env l args).2 = l := by
  unfold updateVoucher
  split
  · exact ⟨⟨_, _, rfl⟩, rfl⟩
  · rename_i v0 hv0
    obtain ⟨-, hvid, -⟩ := CreateUpdatedVoucherObject_ok _ _ _ hv0
    split
    · exact ⟨⟨_, _, rfl⟩, rfl⟩
    · simp only
      obtain ⟨msg, hmsg⟩ := ReplaceRowInLedger_missing l "VoucherTable"
        ["voucher", v0.VoucherID, "invoice"]
        (voToJSON { v0 with Stage := Itoa STATE_VOUCHER_VALIDATED })
        (by simp [GetNumberOfKeys])
        (by rw [hvid]; exact hno)
      rw [hmsg]
      exact ⟨⟨_, _, rfl⟩, rfl⟩

/-- Witness of C15: `ledgerA` holds no voucher, and updating the voucher "A" fails
there and changes nothing. -/
theorem updateVoucher_missing_witness :
    (∃ rep msg, (updateVoucher sampleEnv ledgerA
      ("A" :: sampleArgs "A" "9" "10" ++ ["A", "25000"])).1 = .error rep msg) ∧
    (updateVoucher sampleEnv ledgerA ("A" :: sampleArgs "A" "9" "10" ++ ["A", "25000"])).2
      = ledgerA :=
  updateVoucher_missing sampleEnv ledgerA ("A" :: sampleArgs "A" "9" "10" ++ ["A", "25000"])
    (by decide)

/-- C16. `updateDispatchOrder` with 31 arguments whose `args[0]` names no stored order
returns an error and its working state is the ledger it started from: no order is
created under that key and no history row is added. -/
theorem updateDispatchOrder_missing (env : Env) (l : Ledger) (args : List String)
    (hlen : args.length = 31) (hno : GetState l (argAt args 0) = none) :
    (∃ msg, (updateDispatchOrder env l args).1 = .error .nil msg) ∧
    (updateDispatchOrder env l args).2 = l := by
  simp [updateDispatchOrder, hlen, hno, JSONtoArgs]

/-- Witness of C16: `ledgerA` holds no order "B". -/
theorem updateDispatchOrder_missing_witness :
    (∃ msg, (updateDispatchOrder sampleEnv ledgerA (sampleArgs "B" "1" "10")).1
      = .error .nil msg) ∧
    (updateDispatchOrder sampleEnv ledgerA (sampleArgs "B" "1" "10")).2 = ledgerA :=
  updateDispatchOrder_missing sampleEnv ledgerA (sampleArgs "B" "1" "10")
    (by decide) (by decide)

/-- C20. A wrong argument count is rejected before any write: `createDispatchOrder`,
`updateDispatchOrder` and `createVoucher` with a list of length other than 31,
`createAsset` with a length other than 10, `createDocument` with a length other than 4,
`updateVoucher` with a length other than 34 and `validateInvoice` with a length other
than 1 each return an error, and the working state is the ledger they started from. -/
theorem wrong_argument_count (env : Env) (l : Ledger) (args : List String) :
    (args.length ≠ 31 →
      (∃ rep msg, createDispatchOrder env l args = (.error rep msg, l)) ∧
      (∃ rep msg, updateDispatchOrder env l args = (.error rep msg, l)) ∧
      (∃ rep msg, createVoucher env l args = (.error rep msg, l))) ∧
    (args.length ≠ 10 → ∃ rep msg, invokeAsset env l args = (.error rep msg, l)) ∧
    (args.length ≠ 4 → ∃ rep msg, invokeDocument env l args = (.error rep msg, l)) ∧
    (args.length ≠ 34 → ∃ rep msg, updateVoucher env l args = (.error rep msg, l)) ∧
    (args.length ≠ 1 → ∃ rep msg, validateInvoice env l args = (.error rep msg, l)) := by
  refine ⟨fun h => ⟨?_, ?_, ?_⟩, fun h => ?_, fun h => ?_, fun h => ?_, fun h => ?_⟩
  · simp [createDispatchOrder, createDispatchOrderObject, h]
  · simp [updateDispatchOrder, h]
  · simp [createVoucher, CreateVoucherObject, h]
  · simp [invokeAsset, CreateAssetObject, h]
  · simp [invokeDocument, CreateDocumentObject, h]
  · simp [updateVoucher, CreateUpdatedVoucherObject, h]
  · simp [validateInvoice, h]

/-- Witness of C20: each of the seven operations called with two arguments on
`ledgerA`. -/
theorem wrong_argument_count_witness :
    (∃ rep msg, createDispatchOrder sampleEnv ledgerA ["A", "0"] = (.error rep msg, ledgerA)) ∧
    (∃ rep msg, updateDispatchOrder sampleEnv ledgerA ["A", "0"] = (.error rep msg, ledgerA)) ∧
    (∃ rep msg, createVoucher sampleEnv ledgerA ["A", "0"] = (.error rep msg, ledgerA)) ∧
    (∃ rep msg, invokeAsset sampleEnv ledgerA ["A", "0"] = (.error rep msg, ledgerA)) ∧
    (∃ rep msg, invokeDocument sampleEnv ledgerA ["A", "0"] = (.error rep msg, ledgerA)) ∧
    (∃ rep msg, updateVoucher sampleEnv ledgerA ["A", "0"] = (.error rep msg, ledgerA)) ∧
    (∃ rep msg, validateInvoice sampleEnv ledgerA ["A", "0"] = (.error rep msg, ledgerA)) :=
  ⟨((wrong_argument_count sampleEnv ledgerA ["A", "0"]).1 (by decide)).1,
   ((wrong_argument_count sampleEnv ledgerA ["A", "0"]).1 (by decide)).2.1,
   ((wrong_argument_count sampleEnv ledgerA ["A", "0"]).1 (by decide)).2.2,
   (wrong_argument_count sampleEnv ledgerA ["A", "0"]).2.1 (by decide),
   (wrong_argument_count sampleEnv ledgerA ["A", "0"]).2.2.1 (by decide),
   (wrong_argument_count sampleEnv ledgerA ["A", "0"]).2.2.2.1 (by decide),
   (wrong_argument_count sampleEnv ledgerA ["A", "0"]).2.2.2.2 (by decide)⟩

/-! ## Second invariant of the reachable ledgers -/

theorem JSONtoAR_ARtoJSON (a : AssetObject) : JSONtoAR (ARtoJSON a) = a := by
  cases a
  rfl

theorem mapIndex_doToJSON_id (d : DispatchOrderObject) :
    mapIndex (doToJSON d) "dispatchOrderId" = d.DispatchOrderID := by
  simp [doToJSON, mapIndex, assocGet]

theorem tableRows_ReplaceRowInLedger_same (l l1 : Ledger) (name : String)
    (keys : List String) (p : Payload) (h : ReplaceRowInLedger l name keys p = .ok l1) :
    tableRows l1 name = (tableRows l name).map (fun r =>
      if r.keys = keys.take (GetNumberOfKeys name)
        then ⟨keys.take (GetNumberOfKeys name), p⟩ else r) := by
  obtain ⟨-, rows, hrows, -, htab⟩ := ReplaceRowInLedger_ok l l1 name keys p h
  simp [tableRows, htab, hrows, assocGet_assocSet_same]

theorem KeyedInv_PutState (l : Ledger) (k : String) (p : Payload) (hl : KeyedInv l)
    (hp : mapIndex p "dispatchOrderId" = k) : KeyedInv (PutState l k p) := by
  refine ⟨?_, hl.2⟩
  intro kp hkp
  have hkey : ∀ (xs : List (String × Payload)),
      (∀ x ∈ xs, mapIndex x.2 "dispatchOrderId" = x.1) →
      ∀ x ∈ assocSet k p xs, mapIndex x.2 "dispatchOrderId" = x.1 := by
    intro xs
    induction xs with
    | nil =>
      intro _ x hx
      simp only [assocSet, List.mem_singleton] at hx
      subst hx
      exact hp
    | cons y rest ih =>
      intro hxs x hx
      obtain ⟨k1, v1⟩ := y
      by_cases h1 : k1 = k
      · simp only [assocSet, h1, if_true, List.mem_cons] at hx
        rcases hx with hx | hx
        · subst hx
          exact hp
        · exact hxs x (List.mem_cons_of_mem _ hx)
      · simp only [assocSet, h1, if_false, List.mem_cons] at hx
        rcases hx with hx | hx
        · subst hx
          exact hxs _ (List.mem_cons_self _ _)
        · exact ih (fun z hz => hxs z (List.mem_cons_of_mem _ hz)) x hx
  exact hkey l.state hl.1 kp hkp

theorem KeyedInv_UpdateLedger (l l1 : Ledger) (name : String) (keys : List String)
    (p : Payload) (hl : KeyedInv l) (h : UpdateLedger l name keys p = .ok l1)
    (hk : name = "AssetTable" →
      keys.take 3 = ["asset", (JSONtoAR p).AssetID, (JSONtoAR p).Owner]) : KeyedInv l1 := by
  refine ⟨?_, ?_⟩
  · rw [(UpdateLedger_ok l l1 name keys p h).1]
    exact hl.1
  · by_cases hn : name = "AssetTable"
    · subst hn
      rw [tableRows_UpdateLedger_same _ _ _ _ _ h]
      intro r hr
      rcases List.mem_append.mp hr with h1 | h1
      · exact hl.2 r h1
      · simp only [List.mem_singleton] at h1
        subst h1
        exact hk rfl
    · rw [tableRows_UpdateLedger_ne _ _ _ _ _ _ h (Ne.symm hn)]
      exact hl.2

theorem KeyedInv_UpdateLedger_other (l l1 : Ledger) (name : String) (keys : List String)
    (p : Payload) (hl : KeyedInv l) (h : UpdateLedger l name keys p = .ok l1)
    (hn : name ≠ "AssetTable") : KeyedInv l1 :=
  KeyedInv_UpdateLedger l l1 name keys p hl h (fun hname => absurd hname hn)

theorem KeyedInv_ReplaceRowInLedger (l l1 : Ledger) (name : String) (keys : List String)
    (p : Payload) (hl : KeyedInv l) (h : ReplaceRowInLedger l name keys p = .ok l1)
    (hk : name = "AssetTable" →
      keys.take 3 = ["asset", (JSONtoAR p).AssetID, (JSONtoAR p).Owner]) : KeyedInv l1 := by
  refine ⟨?_, ?_⟩
  · rw [(ReplaceRowInLedger_ok l l1 name keys p h).1]
    exact hl.1
  · by_cases hn : name = "AssetTable"
    · subst hn
      rw [tableRows_ReplaceRowInLedger_same _ _ _ _ _ h]
      intro r hr
      obtain ⟨r0, hr0, hr1⟩ := List.mem_map.mp hr
      by_cases hkey : r0.keys = List.take (GetNumberOfKeys "AssetTable") keys
      · simp only [hkey, if_true] at hr1
        subst hr1
        exact hk rfl
      · simp only [hkey, if_false] at hr1
        subst hr1
        exact hl.2 _ hr0
    · rw [tableRows_ReplaceRowInLedger_ne _ _ _ _ _ _ h (Ne.symm hn)]
      exact hl.2

theorem KeyedInv_historyInsert (l1 : Ledger) (keys : List String) (buffer : Payload)
    (hl : KeyedInv l1) :
    KeyedInv (match UpdateLedger l1 "TransactionHistory" keys buffer with
      | .ok l2 => (Outcome.ok .nil, l2)
      | .error _ => (Outcome.ok .nil, l1)
      | .fault => (Outcome.fault, l1)).2 := by
  split
  · rename_i l2 h2
    exact KeyedInv_UpdateLedger_other l1 l2 _ _ _ hl h2 (by decide)
  · exact hl
  · exact hl

theorem KeyedInv_createDispatchOrder (env : Env) (l : Ledger) (args : List String)
    (hl : KeyedInv l) : KeyedInv (createDispatchOrder env l args).2 := by
  unfold createDispatchOrder
  split
  · exact hl
  · rename_i d hd
    obtain ⟨-, hid, -⟩ := createDispatchOrderObject_ok _ _ _ hd
    have h1 : KeyedInv (PutState l (argAt args 0) (doToJSON d)) :=
      KeyedInv_PutState l _ _ hl (by rw [mapIndex_doToJSON_id, hid])
    split
    · exact hl
    · simp only
      split
      · exact h1
      · exact KeyedInv_historyInsert _ _ _ h1

theorem KeyedInv_updateDispatchOrder (env : Env) (l : Ledger) (args : List String)
    (hl : KeyedInv l) : KeyedInv (updateDispatchOrder env l args).2 := by
  unfold updateDispatchOrder
  split
  · exact hl
  · simp only
    split
    · exact hl
    · rename_i dat hdat
      have h1 : ∀ (k : String) (d : DispatchOrderObject), d.DispatchOrderID = k →
          KeyedInv (PutState l k (doToJSON d)) := by
        intro k d hd
        exact KeyedInv_PutState l _ _ hl (by rw [mapIndex_doToJSON_id, hd])
      split
      · exact h1 _ _ rfl
      · exact KeyedInv_historyInsert _ _ _ (h1 _ _ rfl)

theorem KeyedInv_invokeAsset (env : Env) (l : Ledger) (args : List String)
    (hl : KeyedInv l) : KeyedInv (invokeAsset env l args).2 := by
  unfold invokeAsset
  split
  · exact hl
  · simp only
    split
    · rename_i l1 h1
      exact KeyedInv_UpdateLedger l l1 _ _ _ hl h1 (fun _ => by rw [JSONtoAR_ARtoJSON]; rfl)
    · exact hl
    · exact hl

theorem KeyedInv_invokeDocument (env : Env) (l : Ledger) (args : List String)
    (hl : KeyedInv l) : KeyedInv (invokeDocument env l args).2 := by
  unfold invokeDocument
  split
  · exact hl
  · simp only
    split
    · rename_i l1 h1
      exact KeyedInv_UpdateLedger_other l l1 _ _ _ hl h1 (by decide)
    · exact hl
    · exact hl

theorem KeyedInv_voucherTail (env : Env) (l : Ledger) (v : VoucherObject) (buf : Payload)
    (kTime kKey : Nat) (hl : KeyedInv l)
    (hbuf : mapIndex buf "dispatchOrderId" = v.DispatchOrderID) :
    KeyedInv (voucherTail env l v buf kTime kKey).2 := by
  unfold voucherTail
  have h1 := KeyedInv_PutState l v.DispatchOrderID buf hl hbuf
  split
  · exact hl
  · simp only
    split
    · exact h1
    · exact KeyedInv_historyInsert _ _ _ h1

theorem KeyedInv_createVoucher (env : Env) (l : Ledger) (args : List String)
    (hl : KeyedInv l) : KeyedInv (createVoucher env l args).2 := by
  unfold createVoucher
  split
  · exact hl
  · rename_i v0 hv0
    obtain ⟨-, -, hdo⟩ := CreateVoucherObject_ok _ _ _ hv0
    split
    · exact hl
    · rename_i d0 hd0
      obtain ⟨-, hid, -⟩ := createDispatchOrderObject_ok _ _ _ hd0
      simp only
      split
      · exact hl
      · exact hl
      · rename_i l1 h1
        exact KeyedInv_voucherTail env l1 _ _ 2 3
          (KeyedInv_UpdateLedger_other l l1 _ _ _ hl h1 (by decide))
          (by rw [mapIndex_doToJSON_id]; exact hid.trans hdo.symm)

theorem argAt_drop_take (args : List String) (h : args.length = 34) :
    argAt ((args.drop 1).take 31) 0 = argAt args 1 := by
  match args, h with
  | _ :: b :: _, _ => rfl

theorem KeyedInv_updateVoucher (env : Env) (l : Ledger) (args : List String)
    (hl : KeyedInv l) : KeyedInv (updateVoucher env l args).2 := by
  unfold updateVoucher
  split
  · exact hl
  · rename_i v0 hv0
    obtain ⟨hlen, -, hdo⟩ := CreateUpdatedVoucherObject_ok _ _ _ hv0
    split
    · exact hl
    · rename_i d0 hd0
      obtain ⟨-, hid, -⟩ := createDispatchOrderObject_ok _ _ _ hd0
      simp only
      split
      · exact hl
      · exact hl
      · rename_i l1 h1
        exact KeyedInv_voucherTail env l1 _ _ 2 3
          (KeyedInv_ReplaceRowInLedger l l1 _ _ _ hl h1 (fun hname => absurd hname (by decide)))
          (by rw [mapIndex_doToJSON_id]
              exact (hid.trans (argAt_drop_take args hlen)).trans hdo.symm)

theorem KeyedInv_stampVoucherAndOrder (l l2 : Ledger) (invoiceID : String)
    (v : VoucherObject) (dat : Payload) (hl : KeyedInv l)
    (h : stampVoucherAndOrder l invoiceID v dat = .ok l2) : KeyedInv l2 := by
  obtain ⟨l1, h1, h2⟩ := stampVoucherAndOrder_ok l l2 invoiceID v dat h
  subst h2
  exact KeyedInv_PutState l1 _ _
    (KeyedInv_UpdateLedger_other l l1 _ _ _ hl h1 (by decide)) rfl

theorem KeyedInv_createInvoiceLoop (invoiceID : String) (ids : List String) :
    ∀ (acc : Int) (l : Ledger), KeyedInv l →
      KeyedInv (createInvoiceLoop invoiceID ids acc l).2 := by
  induction ids with
  | nil => intro acc l hl; exact hl
  | cons id rest ih =>
    intro acc l hl
    unfold createInvoiceLoop
    split
    · exact hl
    · split
      · exact hl
      · simp only
        split
        · exact hl
        · rename_i l2 h2
          exact ih _ l2 (KeyedInv_stampVoucherAndOrder l l2 _ _ _ hl h2)

theorem KeyedInv_validateInvoiceLoop (invoiceID : String) (ids : List String) :
    ∀ (l : Ledger), KeyedInv l → KeyedInv (validateInvoiceLoop invoiceID ids l).2 := by
  induction ids with
  | nil => intro l hl; exact hl
  | cons id rest ih =>
    intro l hl
    unfold validateInvoiceLoop
    split
    · exact hl
    · simp only
      split
      · exact hl
      · rename_i l2 h2
        exact ih l2 (KeyedInv_stampVoucherAndOrder l l2 _ _ _ hl h2)

theorem KeyedInv_mapAssetLoop (orderID : String) (dat : Payload) (ids : List String) :
    ∀ (l : Ledger), KeyedInv l → KeyedInv (mapAssetLoop orderID dat dat ids l).2 := by
  induction ids with
  | nil => intro l hl; exact hl
  | cons id rest ih =>
    intro l hl
    unfold mapAssetLoop
    split
    · exact hl
    · exact hl
    · simp only
      split
      · exact hl
      · exact hl
      · rename_i l1 h1
        exact ih _ (KeyedInv_PutState l1 _ _
          (KeyedInv_ReplaceRowInLedger l l1 _ _ _ hl h1
            (fun _ => by rw [JSONtoAR_ARtoJSON]; rfl)) rfl)

theorem KeyedInv_mapAsset (env : Env) (l : Ledger) (args : List String)
    (hl : KeyedInv l) : KeyedInv (mapAsset env l args).2 := by
  unfold mapAsset
  split
  · exact hl
  · split
    · exact hl
    · split
      · exact hl
      · simp only
        split
        · rename_i o l1 heq
          rw [← congrArg Prod.snd heq]
          exact KeyedInv_mapAssetLoop _ _ _ l hl
        · rename_i l1 heq
          rw [← congrArg Prod.snd heq]
          exact KeyedInv_mapAssetLoop _ _ _ l hl

theorem KeyedInv_createInvoice (env : Env) (l : Ledger) (args : List String)
    (hl : KeyedInv l) : KeyedInv (createInvoice env l args).2 := by
  unfold createInvoice
  split
  · rename_i invoiceID voucherIds rest
    have h1 := KeyedInv_createInvoiceLoop invoiceID (Split voucherIds) 0 l hl
    split
    · rename_i o l1 heq
      rw [heq] at h1
      exact h1
    · rename_i amount l1 heq
      rw [heq] at h1
      simp only
      split
      · exact h1
      · split
        · exact h1
        · exact h1
        · rename_i l2 h2
          exact KeyedInv_UpdateLedger_other l1 l2 _ _ _ h1 h2 (by decide)
  · exact hl

theorem KeyedInv_validateInvoice (env : Env) (l : Ledger) (args : List String)
    (hl : KeyedInv l) : KeyedInv (validateInvoice env l args).2 := by
  unfold validateInvoice
  split
  · exact hl
  · simp only
    split
    · exact hl
    · exact hl
    · split
      · exact hl
      · exact hl
      · rename_i l1 h1
        have hl1 : KeyedInv l1 := KeyedInv_UpdateLedger_other l l1 _ _ _ hl h1 (by decide)
        split
        · rename_i o l2 heq
          rw [← congrArg Prod.snd heq]
          exact KeyedInv_validateInvoiceLoop _ _ l1 hl1
        · rename_i l2 heq
          rw [← congrArg Prod.snd heq]
          exact KeyedInv_validateInvoiceLoop _ _ l1 hl1

theorem KeyedInv_Invoke (env : Env) (l : Ledger) (function : String) (args : List String)
    (hl : KeyedInv l) : KeyedInv (Invoke env l function args).2 := by
  unfold Invoke
  split_ifs
  · exact KeyedInv_createDispatchOrder env l args hl
  · exact KeyedInv_updateDispatchOrder env l args hl
  · exact KeyedInv_invokeAsset env l args hl
  · exact KeyedInv_mapAsset env l args hl
  · exact KeyedInv_invokeDocument env l args hl
  · exact KeyedInv_createVoucher env l args hl
  · exact KeyedInv_updateVoucher env l args hl
  · exact KeyedInv_createInvoice env l args hl
  · exact KeyedInv_validateInvoice env l args hl
  · exact hl

/-- Every reachable ledger satisfies the second invariant. -/
theorem KeyedInv_of_ReachableBy (allowed : String → List String → Prop) (l : Ledger)
    (h : ReachableBy allowed l) : KeyedInv l := by
  induction h with
  | init =>
    refine ⟨fun kp hkp => absurd hkp (List.not_mem_nil kp), fun r hr => ?_⟩
    have hrows : tableRows emptyLedger "AssetTable" = [] := by decide
    rw [hrows] at hr
    exact absurd hr (List.not_mem_nil r)
  | step env function args _ _ ih =>
    unfold commit
    split
    · exact KeyedInv_Invoke env _ function args ih
    · exact ih

/-! ## Invoice creation: vouchers and orders -/

theorem GetState_PutState_ne (l : Ledger) (k k2 : String) (v : Payload) (h : k2 ≠ k) :
    GetState (PutState l k v) k2 = GetState l k2 := by
  simp [GetState, PutState, assocGet_assocSet_ne k k2 v l.state h]

theorem tableRows_stamp (l l2 : Ledger) (invoiceID : String) (v : VoucherObject)
    (dat : Payload) (h : stampVoucherAndOrder l invoiceID v dat = .ok l2) :
    tableRows l2 "VoucherTable" = tableRows l "VoucherTable" ++
      [⟨["voucher", v.DispatchOrderID, v.Stage], voToJSON v⟩] := by
  obtain ⟨l1, h1, h2⟩ := stampVoucherAndOrder_ok l l2 invoiceID v dat h
  subst h2
  rw [tableRows_PutState, tableRows_UpdateLedger_same _ _ _ _ _ h1]
  rfl

/-- The rows a completed loop of `createInvoice` has added to VoucherTable: for each ID
in order, a copy of the loaded voucher with Stage "11", keyed by the DispatchOrderID of
that voucher and "11". The rows the table held are untouched. -/
theorem createInvoiceLoop_rows (invoiceID : String) (ids : List String) :
    ∀ (acc : Int) (l : Ledger) (total : Int) (l1 : Ledger),
      createInvoiceLoop invoiceID ids acc l = (.ok total, l1) →
      ∃ vs : List VoucherObject,
        List.Forall₂ (fun id v => getVoucherFromTable l1 ["voucher", id] = .ok v) ids vs ∧
        tableRows l1 "VoucherTable" = tableRows l "VoucherTable" ++
          vs.map (fun v => ⟨["voucher", v.DispatchOrderID, "11"],
            voToJSON { v with Stage := "11" }⟩) := by
  induction ids with
  | nil =>
    intro acc l total l1 h
    simp only [createInvoiceLoop, Prod.mk.injEq, Except.ok.injEq] at h
    obtain ⟨-, h2⟩ := h
    subst h2
    exact ⟨[], List.Forall₂.nil, by simp⟩
  | cons id rest ih =>
    intro acc l total l1 h
    unfold createInvoiceLoop at h
    split at h
    · simp at h
    · rename_i v0 dat hload
      obtain ⟨hv0, -⟩ := loadVoucherAndOrder_ok _ _ _ _ _ hload
      split at h
      · simp at h
      · simp only at h
        split at h
        · simp at h
        · rename_i l2 h2
          obtain ⟨vs, hall, hrows⟩ := ih _ l2 total l1 h
          obtain ⟨-, -, -, -, hext⟩ := createInvoiceLoop_ok _ _ _ _ _ _ h
          have hext2 := VoucherExt_stamp _ _ _ _ _ h2
          have hstage : Itoa STATE_INVOICE_GENERATED = "11" := by decide
          refine ⟨v0 :: vs, List.Forall₂.cons ?_ hall, ?_⟩
          · exact getVoucherFromTable_mono _ _ _ _ (VoucherExt_trans _ _ _ hext2 hext) hv0
          · rw [hrows, tableRows_stamp _ _ _ _ _ h2]
            simp only [hstage, List.map_cons, List.append_assoc, List.singleton_append]

/-- The loop of `createInvoice` keeps an order that has Stage "11". -/
theorem createInvoiceLoop_keeps_stage (invoiceID id0 : String) (ids : List String) :
    ∀ (acc : Int) (l : Ledger),
      (∃ p, GetState l id0 = some p ∧ mapIndex p "stage" = "11") →
      ∃ p, GetState (createInvoiceLoop invoiceID ids acc l).2 id0 = some p ∧
        mapIndex p "stage" = "11" := by
  induction ids with
  | nil => intro acc l hl; exact hl
  | cons id rest ih =>
    intro acc l hl
    unfold createInvoiceLoop
    split
    · exact hl
    · rename_i v0 dat hload
      obtain ⟨-, dat0, -, hdat⟩ := loadVoucherAndOrder_ok _ _ _ _ _ hload
      split
      · exact hl
      · simp only
        split
        · exact hl
        · rename_i l2 h2
          apply ih
          obtain ⟨l3, h3, h4⟩ := stampVoucherAndOrder_ok _ _ _ _ _ h2
          subst h4
          by_cases hk : id0 = mapIndex dat "dispatchOrderId"
          · rw [hk, GetState_PutState_same]
            refine ⟨dat, rfl, ?_⟩
            rw [hdat, mapIndex_assocSet_same]
            decide
          · rw [GetState_PutState_ne _ _ _ _ hk]
            simp only [GetState, (UpdateLedger_ok _ _ _ _ _ h3).1]
            exact hl

/-- After a completed loop of `createInvoice` on a ledger whose orders are stored under
their own IDs, the order stored under each ID of the list has Stage "11". -/
theorem createInvoiceLoop_stage (invoiceID : String) (ids : List String) :
    ∀ (acc : Int) (l : Ledger) (total : Int) (l1 : Ledger), KeyedInv l →
      createInvoiceLoop invoiceID ids acc l = (.ok total, l1) →
      ∀ id ∈ ids, ∃ p, GetState l1 id = some p ∧ mapIndex p "stage" = "11" := by
  induction ids with
  | nil => intro acc l total l1 _ _ id hid; simp at hid
  | cons id1 rest ih =>
    intro acc l total l1 hl h id hid
    unfold createInvoiceLoop at h
    split at h
    · simp at h
    · rename_i v0 dat hload
      obtain ⟨-, dat0, hdat0, hdat⟩ := loadVoucherAndOrder_ok _ _ _ _ _ hload
      split at h
      · simp at h
      · simp only at h
        split at h
        · simp at h
        · rename_i l2 h2
          have hl2 := KeyedInv_stampVoucherAndOrder _ _ _ _ _ hl h2
          by_cases hmem : id ∈ rest
          · exact ih _ l2 total l1 hl2 h id hmem
          · have hid1 : id = id1 := by
              rcases List.mem_cons.mp hid with h5 | h5
              · exact h5
              · exact absurd h5 hmem
            subst hid1
            have hkey : mapIndex dat "dispatchOrderId" = id := by
              rw [hdat, mapIndex_assocSet_ne _ _ _ _ (by decide)]
              exact hl.1 (id, dat0) (mem_of_assocGet _ _ _ hdat0)
            have hnow : ∃ p, GetState l2 id = some p ∧ mapIndex p "stage" = "11" := by
              obtain ⟨l3, h3, h4⟩ := stampVoucherAndOrder_ok _ _ _ _ _ h2
              subst h4
              rw [hkey, GetState_PutState_same]
              refine ⟨dat, rfl, ?_⟩
              rw [hdat, mapIndex_assocSet_same]
              decide
            have hsnd : _ = l1 := congrArg Prod.snd h
            rw [← hsnd]
            exact createInvoiceLoop_keeps_stage invoiceID id rest _ l2 hnow

/-- C11, as amended. After a successful `createInvoice` on a reachable ledger, the
rows VoucherTable held before the call are all still there, unchanged, and for each
voucher ID of the list, in order, one row has been added: a copy of the voucher loaded
for that ID with Stage "11", keyed ("voucher", DispatchOrderID of that voucher, "11").
The dispatch order stored under each listed ID has Stage "11". -/
theorem createInvoice_stamps (env : Env) (l l1 : Ledger) (invoiceID voucherIds : String)
    (more : List String) (r : Reply) (hreach : Reachable l)
    (h : createInvoice env l (invoiceID :: voucherIds :: more) = (.ok r, l1)) :
    (∃ vs : List VoucherObject,
      List.Forall₂ (fun id v => getVoucherFromTable l1 ["voucher", id] = .ok v)
        (Split voucherIds) vs ∧
      tableRows l1 "VoucherTable" = tableRows l "VoucherTable" ++
        vs.map (fun v => ⟨["voucher", v.DispatchOrderID, "11"],
          voToJSON { v with Stage := "11" }⟩)) ∧
    (∀ id ∈ Split voucherIds, ∃ p, GetState l1 id = some p ∧ mapIndex p "stage" = "11") := by
  have hl := KeyedInv_of_ReachableBy _ l hreach
  unfold createInvoice at h
  simp only at h
  split at h
  · rename_i o l2 hloop
    simp only [Prod.mk.injEq] at h
    exact absurd h.1 (createInvoiceLoop_error _ _ _ _ _ _ hloop r)
  · rename_i total l2 hloop
    obtain ⟨vs, hall, hrows⟩ := createInvoiceLoop_rows _ _ _ _ _ _ hloop
    have hst := createInvoiceLoop_stage _ _ _ _ _ _ hl hloop
    rw [show CreateInvoiceObject
        [invoiceID, voucherIds, Itoa STATE_INVOICE_GENERATED, Itoa total]
      = .ok ⟨invoiceID, voucherIds, Itoa STATE_INVOICE_GENERATED, Itoa total⟩ from rfl] at h
    simp only at h
    split at h
    · simp at h
    · simp at h
    · rename_i l3 h3
      simp only [Prod.mk.injEq] at h
      obtain ⟨-, h4⟩ := h
      subst h4
      refine ⟨⟨vs, ?_, ?_⟩, ?_⟩
      · refine List.Forall₂.imp ?_ hall
        intro id v hv
        refine getVoucherFromTable_mono l2 l3 _ _ ?_ hv
        intro rows hrows2
        exact ⟨[], by rw [assocGet_UpdateLedger_ne _ _ _ _ _ _ h3 (by decide), hrows2]; simp⟩
      · rw [tableRows_UpdateLedger_ne _ _ _ _ _ _ h3 (by decide)]
        exact hrows
      · intro id hid
        simp only [GetState, (UpdateLedger_ok _ _ _ _ _ h3).1]
        exact hst id hid

/-- Witness of C11 as amended: invoice "I" over the voucher of order "A". -/
theorem createInvoice_stamps_witness :
    (∃ vs : List VoucherObject,
      List.Forall₂ (fun id v => getVoucherFromTable ledgerInvoiced ["voucher", id] = .ok v)
        (Split "A") vs ∧
      tableRows ledgerInvoiced "VoucherTable" = tableRows ledgerVoucher "VoucherTable" ++
        vs.map (fun v => ⟨["voucher", v.DispatchOrderID, "11"],
          voToJSON { v with Stage := "11" }⟩)) ∧
    (∀ id ∈ Split "A", ∃ p, GetState ledgerInvoiced id = some p ∧
      mapIndex p "stage" = "11") :=
  createInvoice_stamps sampleEnv ledgerVoucher ledgerInvoiced "I" "A" []
    (.text "Invoice Created")
    (ReachableBy.step sampleEnv "createVoucher" (sampleArgs "A" "0" "10")
      (ReachableBy_ledgerA _ trivial) trivial)
    (by decide)

/-- Counterexample to C11 as stated: before `createInvoice("I", "A")` VoucherTable holds
one row for voucher "A"; after the successful call it holds two, and the first of them
still carries Stage "8". -/
theorem createInvoice_stamps_counterexample :
    (createInvoice sampleEnv ledgerVoucher ["I", "A"]).1 = .ok (.text "Invoice Created") ∧
    ((tableRows ledgerVoucher "VoucherTable").filter
      (fun r => ["voucher", "A"].isPrefixOf r.keys)).length = 1 ∧
    ((tableRows (createInvoice sampleEnv ledgerVoucher ["I", "A"]).2 "VoucherTable").filter
      (fun r => ["voucher", "A"].isPrefixOf r.keys)).map
        (fun r => (r.keys, (JSONtoVO r.payload).Stage))
      = [(["voucher", "A", "invoice"], "8"), (["voucher", "A", "11"], "11")] := by
  decide

/-! ## Asset mapping -/

theorem getAssetFromTable_rows (l : Ledger) (rows : List Row) (id : String)
    (hrows : assocGet "AssetTable" l.tables = some rows) :
    getAssetFromTable l ["asset", id] =
      match rows.filter (fun r => ["asset", id].isPrefixOf r.keys) with
      | [] => .fault
      | row :: _ => .ok (JSONtoAR row.payload) := by
  cases hf : rows.filter (fun r => ["asset", id].isPrefixOf r.keys) <;>
    simp [getAssetFromTable, GetList, GetRows, hrows, hf]

theorem getAssetFromTable_ok (l : Ledger) (id : String) (a : AssetObject)
    (h : getAssetFromTable l ["asset", id] = .ok a) :
    ∃ rows r rest, assocGet "AssetTable" l.tables = some rows ∧
      rows.filter (fun r => ["asset", id].isPrefixOf r.keys) = r :: rest ∧
      a = JSONtoAR r.payload := by
  cases hrows : assocGet "AssetTable" l.tables with
  | none => simp [getAssetFromTable, GetList, GetRows, hrows] at h
  | some rows =>
    rw [getAssetFromTable_rows l rows id hrows] at h
    split at h
    · simp at h
    · rename_i r rest hf
      simp only [Res.ok.injEq] at h
      exact ⟨rows, r, rest, rfl, hf, h.symm⟩

theorem filter_map_keys (rows : List Row) (f : Row → Row) (hf : ∀ r, (f r).keys = r.keys)
    (key : List String) :
    (rows.map f).filter (fun r => key.isPrefixOf r.keys) =
      (rows.filter (fun r => key.isPrefixOf r.keys)).map f := by
  induction rows with
  | nil => rfl
  | cons r rest ih =>
    simp only [List.map_cons, List.filter_cons, hf r]
    split <;> simp [ih]

/-- One iteration of `mapAsset` on a ledger whose asset rows are keyed by the assets
they hold: the row loaded for `id1` becomes the rewritten asset, the asset loaded for
any other ID is what it was, and the number of rows is the same. -/
theorem replace_loaded_asset (l l1 : Ledger) (orderID id1 : String) (a0 : AssetObject)
    (hl : KeyedInv l) (hget : getAssetFromTable l ["asset", id1] = .ok a0)
    (hrep : ReplaceRowInLedger l "AssetTable" ["asset", a0.AssetID, a0.Owner]
      (ARtoJSON (mappedTo orderID a0)) = .ok l1) :
    getAssetFromTable l1 ["asset", id1] = .ok (mappedTo orderID a0) ∧
    (∀ id, id ≠ id1 → getAssetFromTable l1 ["asset", id] = getAssetFromTable l ["asset", id]) ∧
    (tableRows l1 "AssetTable").length = (tableRows l "AssetTable").length := by
  obtain ⟨rows, r1, rest1, hrows, hf1, ha0⟩ := getAssetFromTable_ok l id1 a0 hget
  obtain ⟨-, rows2, hrows2, -, htab⟩ := ReplaceRowInLedger_ok _ _ _ _ _ hrep
  rw [hrows] at hrows2
  simp only [Option.some.injEq] at hrows2
  subst hrows2
  have hk : List.take (GetNumberOfKeys "AssetTable") ["asset", a0.AssetID, a0.Owner]
      = ["asset", a0.AssetID, a0.Owner] := rfl
  rw [hk] at htab
  have hrows1 : assocGet "AssetTable" l1.tables = some (rows.map (fun r =>
      if r.keys = ["asset", a0.AssetID, a0.Owner]
        then ⟨["asset", a0.AssetID, a0.Owner], ARtoJSON (mappedTo orderID a0)⟩ else r)) := by
    rw [htab, assocGet_assocSet_same]
  have hkeys : ∀ r : Row, (if r.keys = ["asset", a0.AssetID, a0.Owner]
      then (⟨["asset", a0.AssetID, a0.Owner], ARtoJSON (mappedTo orderID a0)⟩ : Row)
      else r).keys = r.keys := by
    intro r
    split
    · rename_i h
      exact h.symm
    · rfl
  have hmem1 : r1 ∈ rows := by
    have : r1 ∈ rows.filter (fun r => ["asset", id1].isPrefixOf r.keys) := by simp [hf1]
    exact (List.mem_filter.mp this).1
  have hpre1 : ["asset", id1].isPrefixOf r1.keys = true := by
    have : r1 ∈ rows.filter (fun r => ["asset", id1].isPrefixOf r.keys) := by simp [hf1]
    exact (List.mem_filter.mp this).2
  have hkey1 : r1.keys = ["asset", a0.AssetID, a0.Owner] := by
    rw [ha0]
    exact hl.2 r1 (by simpa [tableRows, hrows] using hmem1)
  have hid1 : a0.AssetID = id1 := by
    rw [hkey1] at hpre1
    have : id1 = a0.AssetID := by simpa [List.isPrefixOf] using hpre1
    exact this.symm
  refine ⟨?_, ?_, ?_⟩
  · rw [getAssetFromTable_rows l1 _ id1 hrows1, filter_map_keys _ _ hkeys, hf1]
    simp [hkey1, JSONtoAR_ARtoJSON]
  · intro id hne
    rw [getAssetFromTable_rows l1 _ id hrows1, getAssetFromTable_rows l rows id hrows,
      filter_map_keys _ _ hkeys]
    cases hf : rows.filter (fun r => ["asset", id].isPrefixOf r.keys) with
    | nil => rfl
    | cons r rest =>
      have hmem : r ∈ rows.filter (fun r => ["asset", id].isPrefixOf r.keys) := by simp [hf]
      obtain ⟨hm, hpre⟩ := List.mem_filter.mp hmem
      have hkeep : r.keys ≠ ["asset", a0.AssetID, a0.Owner] := by
        intro hkr
        rw [hkr] at hpre
        have : id = a0.AssetID := by simpa [List.isPrefixOf] using hpre
        exact hne (this.trans hid1)
      simp [hkeep]
  · simp [tableRows, hrows, hrows1]

theorem mappedTo_mappedTo (orderID : String) (a : AssetObject) :
    mappedTo orderID (mappedTo orderID a) = mappedTo orderID a := rfl

/-- What a completed loop of `mapAsset` has done to AssetTable, on a ledger that
satisfies the second invariant. -/
theorem mapAssetLoop_assets (orderID : String) (dat : Payload) (ids : List String) :
    ∀ (l l1 : Ledger), KeyedInv l → mapAssetLoop orderID dat dat ids l = (none, l1) →
      (∀ id, id ∈ ids → ∃ a0, getAssetFromTable l ["asset", id] = .ok a0 ∧
        getAssetFromTable l1 ["asset", id] = .ok (mappedTo orderID a0)) ∧
      (∀ id, id ∉ ids →
        getAssetFromTable l1 ["asset", id] = getAssetFromTable l ["asset", id]) ∧
      (tableRows l1 "AssetTable").length = (tableRows l "AssetTable").length := by
  induction ids with
  | nil =>
    intro l l1 _ h
    simp only [mapAssetLoop, Prod.mk.injEq, true_and] at h
    subst h
    exact ⟨fun id hid => by simp at hid, fun _ _ => rfl, rfl⟩
  | cons id1 rest ih =>
    intro l l1 hl h
    unfold mapAssetLoop at h
    split at h
    · simp at h
    · simp at h
    · rename_i a0 hget
      simp only at h
      split at h
      · simp at h
      · simp at h
      · rename_i l2 hrep
        obtain ⟨s1, s2, s3⟩ := replace_loaded_asset l l2 orderID id1 a0 hl hget hrep
        have hl3 : KeyedInv (PutState l2 (mapIndex dat "dispatchOrderId") dat) :=
          KeyedInv_PutState l2 _ _
            (KeyedInv_ReplaceRowInLedger l l2 _ _ _ hl hrep
              (fun _ => by rw [JSONtoAR_ARtoJSON]; rfl)) rfl
        obtain ⟨i1, i2, i3⟩ := ih _ l1 hl3 h
        refine ⟨?_, ?_, ?_⟩
        · intro id hid
          by_cases hmem : id ∈ rest
          · obtain ⟨a1, ha1, hb1⟩ := i1 id hmem
            by_cases heq : id = id1
            · subst heq
              have : a1 = mappedTo orderID a0 := by
                have h5 : getAssetFromTable l2 ["asset", id] = .ok a1 := ha1
                rw [s1] at h5
                simpa using h5.symm
              subst this
              exact ⟨a0, hget, hb1⟩
            · exact ⟨a1, (s2 id heq) ▸ ha1, hb1⟩
          · have heq : id = id1 := by
              rcases List.mem_cons.mp hid with h5 | h5
              · exact h5
              · exact absurd h5 hmem
            subst heq
            refine ⟨a0, hget, ?_⟩
            rw [i2 id hmem]
            exact s1
        · intro id hid
          have hne : id ≠ id1 := fun h5 => hid (by simp [h5])
          have hnr : id ∉ rest := fun h5 => hid (List.mem_cons_of_mem _ h5)
          rw [i2 id hnr]
          exact s2 id hne
        · rw [i3]
          exact s3

theorem mapAssetLoop_error (orderID : String) (dat str : Payload) (ids : List String) :
    ∀ (l : Ledger) (o : Outcome) (l1 : Ledger),
      mapAssetLoop orderID dat str ids l = (some o, l1) → o.failed := by
  induction ids with
  | nil => intro l o l1 h; simp [mapAssetLoop] at h
  | cons id rest ih =>
    intro l o l1 h
    unfold mapAssetLoop at h
    split at h
    · simp only [Prod.mk.injEq, Option.some.injEq] at h
      rw [← h.1]
      intro r hr
      simp at hr
    · simp only [Prod.mk.injEq, Option.some.injEq] at h
      rw [← h.1]
      intro r hr
      simp at hr
    · simp only at h
      split at h
      · simp only [Prod.mk.injEq, Option.some.injEq] at h
        rw [← h.1]
        intro r hr
        simp at hr
      · simp only [Prod.mk.injEq, Option.some.injEq] at h
        rw [← h.1]
        intro r hr
        simp at hr
      · exact ih _ _ _ h

/-- C17. After a successful `mapAsset(orderID, assetIDs)` on a reachable ledger, for
every asset ID of the comma-separated list the AssetTable row loaded for that ID holds
the asset it held before with OrderID = orderID and Stage = "Mapped" and every other
field unchanged, and the number of rows of AssetTable is unchanged. -/
theorem mapAsset_assets (env : Env) (l l1 : Ledger) (orderID assetIds : String)
    (more : List String) (r : Reply) (hreach : Reachable l)
    (h : mapAsset env l (orderID :: assetIds :: more) = (.ok r, l1)) :
    (∀ id ∈ Split assetIds, ∃ a0, getAssetFromTable l ["asset", id] = .ok a0 ∧
      getAssetFromTable l1 ["asset", id] = .ok { a0 with OrderID := orderID, Stage := "Mapped" }) ∧
    (tableRows l1 "AssetTable").length = (tableRows l "AssetTable").length := by
  have hl := KeyedInv_of_ReachableBy _ l hreach
  unfold mapAsset at h
  simp only at h
  split at h
  · simp at h
  · rename_i dat0 hdat0
    split at h
    · rename_i o l2 hloop
      simp only [Prod.mk.injEq] at h
      exact absurd h.1 (mapAssetLoop_error _ _ _ _ _ _ _ hloop r)
    · rename_i l2 hloop
      simp only [Prod.mk.injEq] at h
      obtain ⟨-, h2⟩ := h
      subst h2
      obtain ⟨i1, -, i3⟩ := mapAssetLoop_assets orderID _ _ l _ hl hloop
      exact ⟨i1, i3⟩

/-- Witness of C17: asset "X" is mapped to order "A". -/
theorem mapAsset_assets_witness :
    (∀ id ∈ Split "X", ∃ a0, getAssetFromTable ledgerAsset ["asset", id] = .ok a0 ∧
      getAssetFromTable (mapAsset sampleEnv ledgerAsset ["A", "X"]).2 ["asset", id]
        = .ok { a0 with OrderID := "A", Stage := "Mapped" }) ∧
    (tableRows (mapAsset sampleEnv ledgerAsset ["A", "X"]).2 "AssetTable").length
      = (tableRows ledgerAsset "AssetTable").length :=
  mapAsset_assets sampleEnv ledgerAsset (mapAsset sampleEnv ledgerAsset ["A", "X"]).2 "A" "X" []
    (.text "Assets Mapped")
    (ReachableBy.step sampleEnv "createAsset"
      ["X", "P1", "part", "bosch", "New", "B1", "2017", "i", "e", ""]
      (ReachableBy_ledgerA _ trivial) trivial)
    (by decide)

/-- When the table exists and holds no row under ("asset", id), `getAssetFromTable`
panics; when `id` is the first ID of the list and the order exists, so does `mapAsset`,
before any write. -/
theorem mapAsset_first_asset_missing (env : Env) (l : Ledger) (orderID assetIds : String)
    (more : List String) (id : String) (rest : List String) (rows : List Row) (dat0 : Payload)
    (horder : GetState l orderID = some dat0) (hsplit : Split assetIds = id :: rest)
    (hrows : assocGet "AssetTable" l.tables = some rows)
    (hno : ∀ r ∈ rows, ["asset", id].isPrefixOf r.keys = false) :
    getAssetFromTable l ["asset", id] = .fault ∧
    mapAsset env l (orderID :: assetIds :: more) = (.fault, l) := by
  have hf : rows.filter (fun r => ["asset", id].isPrefixOf r.keys) = [] := by
    rw [List.filter_eq_nil_iff]
    intro r hr
    simp [hno r hr]
  have hget : getAssetFromTable l ["asset", id] = .fault := by
    rw [getAssetFromTable_rows l rows id hrows, hf]
  refine ⟨hget, ?_⟩
  simp [mapAsset, JSONtoArgs, horder, hsplit, mapAssetLoop, hget]

/-- C18, evaluated. After the successful `mapAsset("A", "X")` the order stored under
"A" still has the empty `assetIDs` member it was created with; the list was stored
under a new member named `assetIds`. -/
theorem mapAsset_order_asset_list :
    (mapAsset sampleEnv ledgerAsset ["A", "X"]).1 = .ok (.text "Assets Mapped") ∧
    (GetState ledgerAsset "A").map (fun p => assocGet "assetIDs" p) = some (some "") ∧
    (GetState (mapAsset sampleEnv ledgerAsset ["A", "X"]).2 "A").map
      (fun p => (assocGet "assetIDs" p, assocGet "assetIds" p))
      = some (some "", some "X") := by
  decide

/-- C19, evaluated. Order "A" exists and no asset "Z" is registered: `mapAsset("A", "Z")`
reads `rows[0]` of the empty lookup result and panics; it does not return an error. -/
theorem mapAsset_missing_asset :
    (GetState ledgerAsset "A").isSome = true ∧
    GetList ledgerAsset "AssetTable" ["asset", "Z"] = .ok [] ∧
    getAssetFromTable ledgerAsset ["asset", "Z"] = .fault ∧
    mapAsset sampleEnv ledgerAsset ["A", "Z"] = (.fault, ledgerAsset) := by
  decide

/-! ## C21: argument count of `mapAsset` and `createInvoice` -/

/-- C21 (the code departs from the claim): `mapAsset` and `createInvoice` check no
argument count. Whatever follows the second argument is ignored, so a call with three
arguments whose first two are valid succeeds and writes exactly as the call with two;
a call with a single argument panics on reading `args[1]` instead of returning a
validation error. -/
theorem mapAsset_createInvoice_argument_count :
    (∀ (env : Env) (l : Ledger) (a b : String) (more : List String),
      mapAsset env l (a :: b :: more) = mapAsset env l [a, b] ∧
      createInvoice env l (a :: b :: more) = createInvoice env l [a, b]) ∧
    (mapAsset sampleEnv ledgerAsset ["A", "X", "extra"]).1 = .ok (.text "Assets Mapped") ∧
    (mapAsset sampleEnv ledgerAsset ["A", "X", "extra"]).2 ≠ ledgerAsset ∧
    (createInvoice sampleEnv ledgerVoucher ["I", "A", "extra"]).1
      = .ok (.text "Invoice Created") ∧
    (createInvoice sampleEnv ledgerVoucher ["I", "A", "extra"]).2 ≠ ledgerVoucher ∧
    mapAsset sampleEnv ledgerAsset ["A"] = (.fault, ledgerAsset) ∧
    createInvoice sampleEnv ledgerVoucher ["I"] = (.fault, ledgerVoucher) := by
  refine ⟨fun env l a b more => ⟨rfl, rfl⟩, ?_, ?_, ?_, ?_, ?_, ?_⟩ <;> decide

/-! ## Auction variant: the ledger helpers -/

theorem GetRow_eq_find (l : Ledger) (t : String) (k : List String) :
    GetRow l t k = (tableRows l t).find? (fun r => r.keys = k) := by
  unfold GetRow tableRows
  cases assocGet t l.tables <;> simp

theorem find_append_fresh (rows : List Row) (k : List String) (x : Row)
    (hfresh : ∀ r ∈ rows, r.keys ≠ x.keys) :
    (rows ++ [x]).find? (fun r => r.keys = k) =
      if x.keys = k then some x else rows.find? (fun r => r.keys = k) := by
  induction rows with
  | nil => by_cases h : x.keys = k <;> simp [List.find?, h]
  | cons y rest ih =>
    have hy : y.keys ≠ x.keys := hfresh y (by simp)
    have ih1 := ih (fun r hr => hfresh r (by simp [hr]))
    by_cases hk : y.keys = k
    · have hx : ¬ x.keys = k := fun h => hy (hk.trans h.symm)
      simp [List.find?, hk, hx]
    · simp only [List.cons_append, List.find?, hk, decide_False]
      exact ih1

theorem find_map_replace (rows : List Row) (k k1 : List String) (p : Payload) :
    (rows.map (fun r => if r.keys = k then (⟨k, p⟩ : Row) else r)).find?
        (fun r => r.keys = k1) =
      if k1 = k then (rows.find? (fun r => r.keys = k1)).map (fun _ => (⟨k, p⟩ : Row))
      else rows.find? (fun r => r.keys = k1) := by
  induction rows with
  | nil => simp
  | cons y rest ih =>
    by_cases hy : y.keys = k
    · by_cases hk : k1 = k
      · subst hk
        simp [List.find?, hy]
      · have hne : ¬ k = k1 := fun h => hk h.symm
        have hne2 : ¬ y.keys = k1 := fun h => hk (h.symm.trans hy)
        simp only [List.map_cons, hy, if_true, List.find?, hne, decide_False, hne2]
        simpa [hk] using ih
    · by_cases hk : k1 = k
      · subst hk
        simp only [List.map_cons, hy, if_false, List.find?, decide_False]
        simpa using ih
      · by_cases hyk : y.keys = k1
        · simp [List.find?, hy, hk, hyk]
        · simp only [List.map_cons, hy, if_false, List.find?, hyk, decide_False]
          simpa [hk] using ih

theorem find_filter_other (rows : List Row) (k k1 : List String) (h : k1 ≠ k) :
    (rows.filter (fun r => r.keys ≠ k)).find? (fun r => r.keys = k1) =
      rows.find? (fun r => r.keys = k1) := by
  induction rows with
  | nil => simp
  | cons y rest ih =>
    by_cases hy : y.keys = k
    · have hne : ¬ y.keys = k1 := fun h1 => h (h1.symm.trans hy)
      rw [List.filter_cons_of_neg (by simp [hy]), List.find?_cons_of_neg _ (by simp [hne])]
      exact ih
    · rw [List.filter_cons_of_pos (by simp [hy])]
      by_cases hyk : y.keys = k1
      · rw [List.find?_cons_of_pos _ (by simp [hyk]), List.find?_cons_of_pos _ (by simp [hyk])]
      · rw [List.find?_cons_of_neg _ (by simp [hyk]), List.find?_cons_of_neg _ (by simp [hyk])]
        exact ih

namespace Auction

/-- A successful `UpdateLedger` leaves the flat key space and the other tables alone
and appends one row to a table that held no row with that key. -/
theorem UpdateLedger_appends (l l1 : Ledger) (t : String) (keys : List String) (p : Payload)
    (h : UpdateLedger l t keys p = .ok l1) :
    l1.state = l.state ∧ GetNumberOfKeys t ≤ keys.length ∧
    (∀ r ∈ tableRows l t, r.keys ≠ keys.take (GetNumberOfKeys t)) ∧
    tableRows l1 t = tableRows l t ++ [⟨keys.take (GetNumberOfKeys t), p⟩] ∧
    ∀ t1, t1 ≠ t → tableRows l1 t1 = tableRows l t1 := by
  unfold UpdateLedger at h
  simp only at h
  split_ifs at h with hlen
  unfold InsertRow at h
  cases hrows : assocGet t l.tables with
  | none => simp [hrows] at h
  | some rows =>
    by_cases hany : (rows.any fun r => decide (r.keys = keys.take (GetNumberOfKeys t))) = true
    · simp [hrows, hany] at h
    · simp only [hrows, hany] at h
      simp only [Bool.false_eq_true, if_false, Res.ok.injEq] at h
      subst h
      refine ⟨rfl, Nat.not_lt.mp hlen, ?_, ?_, ?_⟩
      · intro r hr
        simp only [tableRows, hrows, Option.getD_some] at hr
        simp only [Bool.not_eq_true, List.any_eq_false] at hany
        simpa using hany r hr
      · simp [tableRows, hrows, assocGet_assocSet_same]
      · intro t1 ht1
        simp [tableRows, assocGet_assocSet_ne t t1 _ _ ht1]

/-- An `UpdateLedger` whose key tuple is already in the table returns an error. -/
theorem UpdateLedger_existing (l : Ledger) (t : String) (keys : List String) (p : Payload)
    (r : Row) (hlen : GetNumberOfKeys t ≤ keys.length) (hr : r ∈ tableRows l t)
    (hkey : r.keys = keys.take (GetNumberOfKeys t)) :
    UpdateLedger l t keys p = .error ("UpdateLedger: InsertRow into " ++ t ++
      " Table failed. Row with given key " ++ argAt keys 0 ++ " already exists") := by
  unfold UpdateLedger InsertRow
  cases hrows : assocGet t l.tables with
  | none => simp [tableRows, hrows] at hr
  | some rows =>
    have hany : (rows.any fun r => decide (r.keys = keys.take (GetNumberOfKeys t))) = true :=
      List.any_eq_true.mpr ⟨r, by simpa [tableRows, hrows] using hr, by simp [hkey]⟩
    simp [hany, Nat.not_lt.mpr hlen]

/-- A successful `ReplaceLedgerEntry` leaves the flat key space and the other tables
alone and rewrites the rows of its key tuple, of which there is one. -/
theorem ReplaceLedgerEntry_rewrites (l l1 : Ledger) (t : String) (keys : List String)
    (p : Payload) (h : ReplaceLedgerEntry l t keys p = .ok l1) :
    l1.state = l.state ∧ GetNumberOfKeys t ≤ keys.length ∧
    (∃ r ∈ tableRows l t, r.keys = keys.take (GetNumberOfKeys t)) ∧
    tableRows l1 t = (tableRows l t).map (fun r =>
      if r.keys = keys.take (GetNumberOfKeys t)
        then ⟨keys.take (GetNumberOfKeys t), p⟩ else r) ∧
    ∀ t1, t1 ≠ t → tableRows l1 t1 = tableRows l t1 := by
  unfold ReplaceLedgerEntry at h
  simp only at h
  split_ifs at h with hlen
  unfold ReplaceRow at h
  cases hrows : assocGet t l.tables with
  | none => simp [hrows] at h
  | some rows =>
    by_cases hany : (rows.any fun r => decide (r.keys = keys.take (GetNumberOfKeys t))) = true
    · simp only [hrows, hany, if_true, Res.ok.injEq] at h
      subst h
      refine ⟨rfl, Nat.not_lt.mp hlen, ?_, ?_, ?_⟩
      · obtain ⟨r, hr, hk⟩ := List.any_eq_true.mp hany
        exact ⟨r, by simpa [tableRows, hrows] using hr, by simpa using hk⟩
      · simp [tableRows, hrows, assocGet_assocSet_same]
      · intro t1 ht1
        simp [tableRows, assocGet_assocSet_ne t t1 _ _ ht1]
    · simp [hrows, hany] at h

/-- A `ReplaceLedgerEntry` whose key tuple is in no row of the table returns an
error, and the host call it makes changes nothing. -/
theorem ReplaceLedgerEntry_absent (l : Ledger) (t : String) (keys : List String)
    (p : Payload) (hlen : GetNumberOfKeys t ≤ keys.length)
    (hno : ∀ r ∈ tableRows l t, r.keys ≠ keys.take (GetNumberOfKeys t)) :
    ∃ msg, ReplaceLedgerEntry l t keys p = .error msg := by
  unfold ReplaceLedgerEntry ReplaceRow
  cases hrows : assocGet t l.tables with
  | none => simp [Nat.not_lt.mpr hlen]
  | some rows =>
    have hany : (rows.any fun r => decide (r.keys = keys.take (GetNumberOfKeys t))) = false := by
      rw [List.any_eq_false]
      intro r hr
      simpa using hno r (by simpa [tableRows, hrows] using hr)
    simp [hany, Nat.not_lt.mpr hlen]

/-- A successful `DeleteFromLedger` leaves the flat key space and the other tables
alone and removes the rows of the given key tuple. -/
theorem DeleteFromLedger_removes (l l1 : Ledger) (t : String) (keys : List String)
    (h : DeleteFromLedger l t keys = .ok l1) :
    l1.state = l.state ∧
    tableRows l1 t = (tableRows l t).filter (fun r => r.keys ≠ keys) ∧
    ∀ t1, t1 ≠ t → tableRows l1 t1 = tableRows l t1 := by
  unfold DeleteFromLedger at h
  split_ifs at h with hlen
  unfold DeleteRow at h
  cases hrows : assocGet t l.tables with
  | none => simp [hrows] at h
  | some rows =>
    simp only [hrows, Res.ok.injEq] at h
    subst h
    refine ⟨rfl, ?_, ?_⟩
    · simp [tableRows, hrows, assocGet_assocSet_same]
    · intro t1 ht1
      simp [tableRows, assocGet_assocSet_ne t t1 _ _ ht1]

/-- What a successful `QueryLedger` has read: the payload of the row under the leading
entries of `args`, whose record type has a case in `ProcessQueryResult`. -/
theorem QueryLedger_found (l : Ledger) (t : String) (args : List String) (p : Payload)
    (h : QueryLedger l t args = .ok p) :
    GetNumberOfKeys t ≤ args.length ∧
    ∃ row, GetRow l t (args.take (GetNumberOfKeys t)) = some row ∧ row.payload = p := by
  unfold QueryLedger at h
  simp only at h
  split_ifs at h with hlen
  refine ⟨Nat.not_lt.mp hlen, ?_⟩
  cases hrow : GetRow l t (args.take (GetNumberOfKeys t)) with
  | none =>
    simp only [hrow] at h
    split at h <;> simp at h
  | some row =>
    simp only [hrow] at h
    split at h
    · simp at h
    · split at h <;> simp at h
    · simp only [Res.ok.injEq] at h
      exact ⟨row, rfl, h⟩

/-- A `QueryLedger` with at least one argument returns an error when no row of the
table has the key tuple it asks for. -/
theorem QueryLedger_absent (l : Ledger) (t : String) (a0 : String) (rest : List String)
    (hlen : GetNumberOfKeys t ≤ (a0 :: rest).length)
    (hno : ∀ r ∈ tableRows l t, r.keys ≠ (a0 :: rest).take (GetNumberOfKeys t)) :
    QueryLedger l t (a0 :: rest) =
      .error ("\x7b\"Error\":\"Failed retrieving data " ++ a0 ++ ". \"\x7d") := by
  have hrow : GetRow l t ((a0 :: rest).take (GetNumberOfKeys t)) = none := by
    rw [GetRow_eq_find, List.find?_eq_none]
    intro r hr
    simpa using hno r hr
  unfold QueryLedger
  simp only [Nat.not_lt.mpr hlen, if_false, hrow]

theorem JSONtoAucReq_AucReqtoJSON (ar : AuctionRequest) : JSONtoAucReq (AucReqtoJSON ar) = ar := by
  cases ar
  rfl

end Auction

namespace Auction

/-! ## C22: store round trip -/

end Auction

/-! ## C23: replacing never creates a row -/

/-- C23. `ReplaceLedgerEntry` of the auction variant and `ReplaceRowInLedger` of the
shipment variant, called with at least as many keys as the table has key columns: when
no row of the table has the key tuple, the call returns an error and the caller goes
on with the table as it was; when a row has it, the call succeeds, the table holds
the same key tuples in the same order, every row under the key tuple holds the new
payload and every other row is a row the table held before. -/
theorem replace_never_creates (l : Ledger) (p : Payload)
    (tA : String) (keysA : List String) (tS : String) (keysS : List String)
    (hA : Auction.GetNumberOfKeys tA ≤ keysA.length) (hS : GetNumberOfKeys tS ≤ keysS.length) :
    ((∀ r ∈ tableRows l tA, r.keys ≠ keysA.take (Auction.GetNumberOfKeys tA)) →
      (∃ msg, Auction.ReplaceLedgerEntry l tA keysA p = .error msg) ∧
      tableRows (Auction.ledgerAfter l (Auction.ReplaceLedgerEntry l tA keysA p)) tA
        = tableRows l tA) ∧
    ((∃ r ∈ tableRows l tA, r.keys = keysA.take (Auction.GetNumberOfKeys tA)) →
      ∃ l1, Auction.ReplaceLedgerEntry l tA keysA p = .ok l1 ∧
        (tableRows l1 tA).map Row.keys = (tableRows l tA).map Row.keys ∧
        ∀ r ∈ tableRows l1 tA,
          if r.keys = keysA.take (Auction.GetNumberOfKeys tA) then r.payload = p
          else r ∈ tableRows l tA) ∧
    ((∀ r ∈ tableRows l tS, r.keys ≠ keysS.take (GetNumberOfKeys tS)) →
      (∃ msg, ReplaceRowInLedger l tS keysS p = .error msg) ∧
      tableRows (Auction.ledgerAfter l (ReplaceRowInLedger l tS keysS p)) tS
        = tableRows l tS) ∧
    ((∃ r ∈ tableRows l tS, r.keys = keysS.take (GetNumberOfKeys tS)) →
      ∃ l1, ReplaceRowInLedger l tS keysS p = .ok l1 ∧
        (tableRows l1 tS).map Row.keys = (tableRows l tS).map Row.keys ∧
        ∀ r ∈ tableRows l1 tS,
          if r.keys = keysS.take (GetNumberOfKeys tS) then r.payload = p
          else r ∈ tableRows l tS) := by
  have hmap : ∀ (rows : List Row) (k : List String),
      (rows.map (fun r => if r.keys = k then (⟨k, p⟩ : Row) else r)).map Row.keys
        = rows.map Row.keys := by
    intro rows k
    rw [List.map_map]
    apply List.map_congr_left
    intro r _
    by_cases hk : r.keys = k <;> simp [hk]
  have hrow : ∀ (rows : List Row) (k : List String),
      ∀ r ∈ rows.map (fun r => if r.keys = k then (⟨k, p⟩ : Row) else r),
        if r.keys = k then r.payload = p else r ∈ rows := by
    intro rows k r hr
    obtain ⟨r0, hr0, rfl⟩ := List.mem_map.mp hr
    by_cases hk : r0.keys = k <;> simp [hk, hr0]
  refine ⟨?_, ?_, ?_, ?_⟩
  · intro hno
    obtain ⟨msg, hmsg⟩ := Auction.ReplaceLedgerEntry_absent l tA keysA p hA hno
    exact ⟨⟨msg, hmsg⟩, by rw [hmsg]; rfl⟩
  · intro hex
    cases h : Auction.ReplaceLedgerEntry l tA keysA p with
    | ok l1 =>
      obtain ⟨-, -, -, hrows, -⟩ := Auction.ReplaceLedgerEntry_rewrites l l1 tA keysA p h
      exact ⟨l1, rfl, by rw [hrows, hmap], by rw [hrows]; exact hrow _ _⟩
    | error msg =>
      exfalso
      unfold Auction.ReplaceLedgerEntry ReplaceRow at h
      obtain ⟨r, hr, hk⟩ := hex
      cases hrows : assocGet tA l.tables with
      | none => simp [tableRows, hrows] at hr
      | some rows =>
        have hany : (rows.any fun r =>
            decide (r.keys = keysA.take (Auction.GetNumberOfKeys tA))) = true :=
          List.any_eq_true.mpr ⟨r, by simpa [tableRows, hrows] using hr, by simp [hk]⟩
        simp [hrows, hany, Nat.not_lt.mpr hA] at h
    | fault =>
      exfalso
      unfold Auction.ReplaceLedgerEntry at h
      simp only [Nat.not_lt.mpr hA, if_false] at h
      split at h <;> simp at h
  · intro hno
    obtain ⟨msg, hmsg⟩ := ReplaceRowInLedger_missing l tS keysS p hS hno
    exact ⟨⟨msg, hmsg⟩, by rw [hmsg]; rfl⟩
  · intro hex
    cases h : ReplaceRowInLedger l tS keysS p with
    | ok l1 =>
      have hrows := tableRows_ReplaceRowInLedger_same l l1 tS keysS p h
      exact ⟨l1, rfl, by rw [hrows, hmap], by rw [hrows]; exact hrow _ _⟩
    | error msg =>
      exfalso
      unfold ReplaceRowInLedger ReplaceRow at h
      obtain ⟨r, hr, hk⟩ := hex
      cases hrows : assocGet tS l.tables with
      | none => simp [tableRows, hrows] at hr
      | some rows =>
        have hany : (rows.any fun r =>
            decide (r.keys = keysS.take (GetNumberOfKeys tS))) = true :=
          List.any_eq_true.mpr ⟨r, by simpa [tableRows, hrows] using hr, by simp [hk]⟩
        simp [hrows, hany, Nat.not_lt.mpr hS] at h
    | fault => exact absurd h (ReplaceRowInLedger_not_fault l tS keysS p hS)

/-- Witness of C23: on the ledger with the open auction "1111" and on the ledger with
the asset "X", a replacement under a key that is absent and one under the key that is
there. -/
theorem replace_never_creates_witness :
    ((∃ msg, Auction.ReplaceLedgerEntry Auction.ledgerOpen "AuctionTable" ["2222"] [] = .error msg) ∧
      tableRows (Auction.ledgerAfter Auction.ledgerOpen
        (Auction.ReplaceLedgerEntry Auction.ledgerOpen "AuctionTable" ["2222"] [])) "AuctionTable"
        = tableRows Auction.ledgerOpen "AuctionTable") ∧
    (∃ l1, Auction.ReplaceLedgerEntry Auction.ledgerOpen "AuctionTable" ["1111"] [] = .ok l1 ∧
      (tableRows l1 "AuctionTable").map Row.keys
        = (tableRows Auction.ledgerOpen "AuctionTable").map Row.keys ∧
      ∀ r ∈ tableRows l1 "AuctionTable",
        if r.keys = ["1111"].take (Auction.GetNumberOfKeys "AuctionTable") then r.payload = []
        else r ∈ tableRows Auction.ledgerOpen "AuctionTable") ∧
    ((∃ msg, ReplaceRowInLedger ledgerAsset "AssetTable" ["asset", "Z", "bosch"] [] = .error msg) ∧
      tableRows (Auction.ledgerAfter ledgerAsset
        (ReplaceRowInLedger ledgerAsset "AssetTable" ["asset", "Z", "bosch"] [])) "AssetTable"
        = tableRows ledgerAsset "AssetTable") ∧
    (∃ l1, ReplaceRowInLedger ledgerAsset "AssetTable" ["asset", "X", "bosch"] [] = .ok l1 ∧
      (tableRows l1 "AssetTable").map Row.keys = (tableRows ledgerAsset "AssetTable").map Row.keys ∧
      ∀ r ∈ tableRows l1 "AssetTable",
        if r.keys = ["asset", "X", "bosch"].take (GetNumberOfKeys "AssetTable") then r.payload = []
        else r ∈ tableRows ledgerAsset "AssetTable") :=
  ⟨(replace_never_creates Auction.ledgerOpen [] "AuctionTable" ["2222"] "AssetTable"
      ["asset", "Z", "bosch"] (by decide) (by decide)).1 (by decide),
   (replace_never_creates Auction.ledgerOpen [] "AuctionTable" ["1111"] "AssetTable"
      ["asset", "Z", "bosch"] (by decide) (by decide)).2.1 (by decide),
   (replace_never_creates ledgerAsset [] "AuctionTable" ["1111"] "AssetTable"
      ["asset", "Z", "bosch"] (by decide) (by decide)).2.2.1 (by decide),
   (replace_never_creates ledgerAsset [] "AuctionTable" ["1111"] "AssetTable"
      ["asset", "X", "bosch"] (by decide) (by decide)).2.2.2 (by decide)⟩

namespace Auction

/-! ## C28, C29: registration -/

/-- C28, counterexample: the trader "100" and the item "1000" are registered; a second
`PostUser` for "100" with another name and a second `PostItem` for "1000" with another
description both fail, and the records stay the first ones. -/
theorem registration_overwrite_counterexample :
    PostUser sampleEnv ledgerItem (userArgs "100" "Barry Smith" "TRD") =
      (.error .nil ("UpdateLedger: InsertRow into UserTable Table failed. " ++
        "Row with given key 100 already exists"), ledgerItem) ∧
    PostItem sampleEnv ledgerItem (itemArgs "1000" "Flower Urn") =
      (.error (.json (ARtoJSON ⟨"1000", "ARTINV", "Flower Urn", "Asppen Messer", "Original",
        "Landscape"⟩)) ("UpdateLedger: InsertRow into ItemTable Table failed. " ++
        "Row with given key 1000 already exists"), ledgerItem) ∧
    (GetRow ledgerItem "UserTable" ["100"]).map (fun r => (JSONtoUser r.payload).Name)
      = some "Ashley Hart" ∧
    (GetRow ledgerItem "ItemTable" ["1000"]).map (fun r => (JSONtoAR r.payload).ItemDesc)
      = some "Shadows by Asppen" := by
  refine ⟨by decide, by decide, by decide, by decide⟩

/-- C28, as amended. Each registration refuses an ID that is taken, independently of
the other table. `PostUser` with ten arguments and a numeric ID that is already a key
of `UserTable` returns the error of the refused insertion and writes nothing; and
`PostItem` with six arguments and an ID that is already a key of `ItemTable` returns
the error of the refused insertion and writes nothing. The stored records stay as
they were. -/
theorem registration_existing (env : Env) (l : Ledger) (uargs iargs : List String) :
    (uargs.length = 10 → (∃ n, Atoi (argAt uargs 0) = some n) →
      (∃ r ∈ tableRows l "UserTable", r.keys = [argAt uargs 0]) →
      PostUser env l uargs =
        (.error .nil ("UpdateLedger: InsertRow into UserTable Table failed. " ++
          "Row with given key " ++ argAt uargs 0 ++ " already exists"), l)) ∧
    (iargs.length = 6 →
      (∃ r ∈ tableRows l "ItemTable", r.keys = [argAt iargs 0]) →
      ∃ buff, PostItem env l iargs =
        (.error (.json buff) ("UpdateLedger: InsertRow into ItemTable Table failed. " ++
          "Row with given key " ++ argAt iargs 0 ++ " already exists"), l)) := by
  constructor
  · rintro hu ⟨n, hnum⟩ ⟨ru, hru, hku⟩
    have hup := UpdateLedger_existing l "UserTable" [argAt uargs 0]
      (UsertoJSON ⟨argAt uargs 0, argAt uargs 1, argAt uargs 2, argAt uargs 3, argAt uargs 4,
        argAt uargs 5, argAt uargs 6, argAt uargs 7, argAt uargs 8, argAt uargs 9⟩)
      ru (by simp [GetNumberOfKeys]) hru (by rw [hku]; rfl)
    unfold PostUser CreateUserObject
    simp only [hu, ne_eq, not_true_eq_false, if_false, hnum, hup]
    simp [argAt, String.append_assoc]
  · rintro hi ⟨ri, hri, hki⟩
    have hup := UpdateLedger_existing l "ItemTable" [argAt iargs 0]
      (ARtoJSON ⟨argAt iargs 0, argAt iargs 1, argAt iargs 2, argAt iargs 3, argAt iargs 4,
        argAt iargs 5⟩)
      ri (by simp [GetNumberOfKeys]) hri (by rw [hki]; rfl)
    unfold PostItem CreateItemObject
    simp only [hi, ne_eq, not_true_eq_false, if_false, hup]
    exact ⟨ARtoJSON ⟨argAt iargs 0, argAt iargs 1, argAt iargs 2, argAt iargs 3, argAt iargs 4,
      argAt iargs 5⟩, by simp [argAt, String.append_assoc]⟩

/-- Witness of C28 as amended: the second registration of the trader "100" on the
ledger that holds the two users and no item, and the second registration of the item
"1000" on the ledger that holds it. -/
theorem registration_existing_witness :
    tableRows ledgerUsers "ItemTable" = [] ∧
    PostUser sampleEnv ledgerUsers (userArgs "100" "Barry Smith" "TRD") =
      (.error .nil ("UpdateLedger: InsertRow into UserTable Table failed. " ++
        "Row with given key " ++ argAt (userArgs "100" "Barry Smith" "TRD") 0 ++
        " already exists"), ledgerUsers) ∧
    (∃ buff, PostItem sampleEnv ledgerItem (itemArgs "1000" "Flower Urn") =
      (.error (.json buff) ("UpdateLedger: InsertRow into ItemTable Table failed. " ++
        "Row with given key " ++ argAt (itemArgs "1000" "Flower Urn") 0 ++
        " already exists"), ledgerItem)) :=
  ⟨by decide,
   (registration_existing sampleEnv ledgerUsers (userArgs "100" "Barry Smith" "TRD") []).1
    (by decide) ⟨100, by decide⟩
    ⟨⟨["100"], UsertoJSON ⟨"100", "USER", "Ashley Hart", "TRD", "Morrisville Parkway",
      "9198063535", "ashley@itpeople.com", "SUNTRUST", "00017102345", "0234678"⟩⟩,
      by decide, by decide⟩,
   (registration_existing sampleEnv ledgerItem [] (itemArgs "1000" "Flower Urn")).2
    (by decide)
    ⟨⟨["1000"], ARtoJSON ⟨"1000", "ARTINV", "Shadows by Asppen", "Asppen Messer", "Original",
      "Landscape"⟩⟩, by decide, by decide⟩⟩

/-- C29. `PostUser` with ten arguments whose first one is not the text of an integer
returns the error of the ID check and writes nothing, called directly or through
`Invoke`. -/
theorem PostUser_non_numeric (env : Env) (l : Ledger) (args : List String)
    (hlen : args.length = 10) (hid : Atoi (argAt args 0) = none) :
    PostUser env l args =
      (.error .nil "CreateUserObject() : User ID should be an integer", l) ∧
    ∃ msg, Invoke env l "PostUser" args = (.error .nil msg, l) := by
  have hpost : PostUser env l args =
      (.error .nil "CreateUserObject() : User ID should be an integer", l) := by
    unfold PostUser CreateUserObject
    simp [hlen, hid]
  refine ⟨hpost, ?_⟩
  unfold Invoke
  split
  · have hf : InvokeFunction "PostUser" = some PostUser := by
      unfold InvokeFunction
      rw [if_neg (by decide), if_pos rfl]
    rw [hf]
    exact ⟨_, hpost⟩
  · match args, hlen with
    | a0 :: _, _ => exact ⟨_, rfl⟩

/-- Witness of C29: the user ID "abc". -/
theorem PostUser_non_numeric_witness :
    PostUser sampleEnv ledgerUsers (userArgs "abc" "Ashley Hart" "TRD") =
      (.error .nil "CreateUserObject() : User ID should be an integer", ledgerUsers) ∧
    ∃ msg, Invoke sampleEnv ledgerUsers "PostUser" (userArgs "abc" "Ashley Hart" "TRD")
      = (.error .nil msg, ledgerUsers) :=
  PostUser_non_numeric sampleEnv ledgerUsers (userArgs "abc" "Ashley Hart" "TRD")
    (by decide) (by decide)

end Auction

namespace Auction

/-! ## C30: the highest bid -/

/-- The loop of `GetHighestBid` over rows whose prices parse: either no row reaches
the running maximum and the payload held is returned, or the payload returned is that
of the last row whose price is the greatest, which is at least the running maximum. -/
theorem GetHighestBidLoop_scan (rows : List Row) :
    ∀ (dat : Payload) (highestBid : Int) (held : Reply),
    (∀ r ∈ rows, ∃ n, bidPrice r = some n) →
    (GetHighestBidLoop rows dat highestBid held = .ok held ∧
      ∀ r ∈ rows, ∀ m, bidPrice r = some m → m < highestBid) ∨
    (∃ before r after n, rows = before ++ r :: after ∧
      GetHighestBidLoop rows dat highestBid held = .ok (.json r.payload) ∧
      bidPrice r = some n ∧ highestBid ≤ n ∧
      (∀ x ∈ before, ∀ m, bidPrice x = some m → m ≤ n) ∧
      (∀ x ∈ after, ∀ m, bidPrice x = some m → m < n)) := by
  induction rows with
  | nil =>
    intro dat highestBid held _
    left
    exact ⟨rfl, by simp⟩
  | cons row rest ih =>
    intro dat highestBid held hp
    obtain ⟨p, hprice⟩ := hp row (by simp)
    have hrest : ∀ r ∈ rest, ∃ n, bidPrice r = some n := fun r hr => hp r (by simp [hr])
    unfold bidPrice at hprice
    cases htext : assocGet "BidPrice" row.payload with
    | none => simp [htext] at hprice
    | some text =>
      simp only [htext, Option.some_bind] at hprice
      have hdat : assocGet "BidPrice" (row.payload ++ dat) = some text := by
        have happ : ∀ (xs ys : Payload) (k v : String), assocGet k xs = some v →
            assocGet k (xs ++ ys) = some v := by
          intro xs ys k v
          induction xs with
          | nil => simp [assocGet]
          | cons x xs ihx =>
            obtain ⟨k1, v1⟩ := x
            by_cases hk : k1 = k
            · simp [assocGet, hk]
            · simpa [assocGet, hk] using ihx
        exact happ _ _ _ _ htext
      have hrow : bidPrice row = some p := by simp [bidPrice, htext, hprice]
      unfold GetHighestBidLoop
      simp only [hdat, hprice]
      by_cases hge : p ≥ highestBid
      · simp only [hge, if_true]
        rcases ih (row.payload ++ dat) p (.json row.payload) hrest with ⟨hres, hlow⟩ | hhigh
        · right
          exact ⟨[], row, rest, p, rfl, hres, hrow, hge, by simp, hlow⟩
        · obtain ⟨before, r, after, n, hsplit, hres, hn, hpn, hbefore, hafter⟩ := hhigh
          right
          refine ⟨row :: before, r, after, n, by simp [hsplit], hres, hn, le_trans hge hpn, ?_,
            hafter⟩
          intro x hx m hm
          rcases List.mem_cons.mp hx with rfl | hx
          · rw [hrow] at hm
            cases hm
            exact hpn
          · exact hbefore x hx m hm
      · simp only [hge, if_false]
        have hlt : p < highestBid := lt_of_not_ge hge
        rcases ih (row.payload ++ dat) highestBid held hrest with ⟨hres, hlow⟩ | hhigh
        · left
          refine ⟨hres, ?_⟩
          intro x hx m hm
          rcases List.mem_cons.mp hx with rfl | hx
          · rw [hrow] at hm
            cases hm
            exact hlt
          · exact hlow x hx m hm
        · obtain ⟨before, r, after, n, hsplit, hres, hn, hpn, hbefore, hafter⟩ := hhigh
          right
          refine ⟨row :: before, r, after, n, by simp [hsplit], hres, hn, hpn, ?_, hafter⟩
          intro x hx m hm
          rcases List.mem_cons.mp hx with rfl | hx
          · rw [hrow] at hm
            cases hm
            exact le_of_lt (lt_of_lt_of_le hlt hpn)
          · exact hbefore x hx m hm

/-- C30. When the scan of `BidTable` under the auction ID is not empty and the
`BidPrice` member of every scanned bid is the text of a non-negative integer,
`GetHighestBid` returns without error the payload of one of the scanned bids; its
price is greater than or equal to the price of every bid scanned before it and
greater than the price of every bid scanned after it. -/
theorem GetHighestBid_highest (l : Ledger) (auctionID : String) (rows : List Row)
    (hscan : GetRows l "BidTable" [auctionID] = some rows) (hne : rows ≠ [])
    (hprice : ∀ r ∈ rows, ∃ n, bidPrice r = some n ∧ 0 ≤ n) :
    ∃ before r after n, rows = before ++ r :: after ∧
      GetHighestBid l [auctionID] = .ok (.json r.payload) ∧ bidPrice r = some n ∧
      (∀ x ∈ before, ∀ m, bidPrice x = some m → m ≤ n) ∧
      (∀ x ∈ after, ∀ m, bidPrice x = some m → m < n) := by
  have hget : GetHighestBid l [auctionID] = GetHighestBidLoop rows [] 0 .nil := by
    unfold GetHighestBid GetList
    simp [hscan]
  rw [hget]
  rcases GetHighestBidLoop_scan rows [] 0 .nil
      (fun r hr => (hprice r hr).imp fun _ h => h.1) with ⟨-, hlow⟩ | hhigh
  · exfalso
    match rows, hne with
    | r :: _, _ =>
      obtain ⟨n, hn, h0⟩ := hprice r (by simp)
      exact absurd (hlow r (by simp) n hn) (not_lt.mpr h0)
  · obtain ⟨before, r, after, n, hsplit, hres, hn, -, hbefore, hafter⟩ := hhigh
    exact ⟨before, r, after, n, hsplit, hres, hn, hbefore, hafter⟩

/-- Witness of C30: of the bids priced 300 and 400 on auction "1111", the one priced
400 is returned. -/
theorem GetHighestBid_highest_witness :
    (∃ before r after n,
      [bidRow "1" "100" "300", bidRow "2" "200" "400"] = before ++ r :: after ∧
      GetHighestBid ledgerBids ["1111"] = .ok (.json r.payload) ∧ bidPrice r = some n ∧
      (∀ x ∈ before, ∀ m, bidPrice x = some m → m ≤ n) ∧
      (∀ x ∈ after, ∀ m, bidPrice x = some m → m < n)) ∧
    GetHighestBid ledgerBids ["1111"] = .ok (.json (bidRow "2" "200" "400").payload) :=
  ⟨GetHighestBid_highest ledgerBids "1111" [bidRow "1" "100" "300", bidRow "2" "200" "400"]
    (by decide) (by decide)
    (by
      intro r hr
      rcases List.mem_cons.mp hr with rfl | hr
      · exact ⟨300, by decide, by decide⟩
      · rcases List.mem_cons.mp hr with rfl | hr
        · exact ⟨400, by decide, by decide⟩
        · cases hr),
   by decide⟩

end Auction

namespace Auction

/-! ## Auction variant: what a successful operation has written -/

theorem auctionRecord_eq_find (l : Ledger) (id : String) :
    auctionRecord l id =
      ((tableRows l "AuctionTable").find? (fun r => r.keys = [id])).map Row.payload := by
  unfold auctionRecord
  rw [GetRow_eq_find]

/-- A successful `PostUser` appends the user to `UserTable` and touches no other table
but `UserCatTable`. -/
theorem PostUser_written (env : Env) (l l1 : Ledger) (args : List String) (r : Reply)
    (h : PostUser env l args = (.ok r, l1)) :
    (∃ u, tableRows l1 "UserTable" = tableRows l "UserTable" ++ [⟨[argAt args 0], UsertoJSON u⟩]) ∧
    ∀ t, t ≠ "UserTable" → t ≠ "UserCatTable" → tableRows l1 t = tableRows l t := by
  unfold PostUser at h
  split at h
  · simp at h
  · rename_i record _
    simp only at h
    split at h
    · simp at h
    · simp at h
    · rename_i l2 h2
      split at h
      · simp at h
      · simp at h
      · rename_i l3 h3
        simp only [Prod.mk.injEq, Outcome.ok.injEq] at h
        obtain ⟨-, rfl⟩ := h
        obtain ⟨-, -, -, hrows2, hother2⟩ := UpdateLedger_appends _ _ _ _ _ h2
        obtain ⟨-, -, -, -, hother3⟩ := UpdateLedger_appends _ _ _ _ _ h3
        constructor
        · refine ⟨record, ?_⟩
          rw [hother3 "UserTable" (by decide), hrows2]
          rfl
        · intro t ht1 ht2
          rw [hother3 t ht2, hother2 t ht1]

/-- A successful `PostItem` touches no table but `ItemTable`. -/
theorem PostItem_written (env : Env) (l l1 : Ledger) (args : List String) (r : Reply)
    (h : PostItem env l args = (.ok r, l1)) :
    ∀ t, t ≠ "ItemTable" → tableRows l1 t = tableRows l t := by
  unfold PostItem at h
  split at h
  · simp at h
  · simp only at h
    split at h
    · simp at h
    · simp at h
    · rename_i l2 h2
      simp only [Prod.mk.injEq, Outcome.ok.injEq] at h
      obtain ⟨-, rfl⟩ := h
      obtain ⟨-, -, -, -, hother2⟩ := UpdateLedger_appends _ _ _ _ _ h2
      exact hother2

/-- A successful `PostAuctionRequest` appends the request, as it was given, to
`AuctionTable` under its ID and to `AucInitTable` under ("2016", ID), neither of which
held that key, and touches no other table. -/
theorem PostAuctionRequest_written (env : Env) (l l1 : Ledger) (args : List String) (r : Reply)
    (h : PostAuctionRequest env l args = (.ok r, l1)) :
    ∃ ar : AuctionRequest, ar.AuctionID = argAt args 0 ∧ r = .json (AucReqtoJSON ar) ∧
      (∀ x ∈ tableRows l "AuctionTable", x.keys ≠ [ar.AuctionID]) ∧
      tableRows l1 "AuctionTable"
        = tableRows l "AuctionTable" ++ [⟨[ar.AuctionID], AucReqtoJSON ar⟩] ∧
      tableRows l1 "AucInitTable"
        = tableRows l "AucInitTable" ++ [⟨["2016", ar.AuctionID], AucReqtoJSON ar⟩] ∧
      ∀ t, t ≠ "AuctionTable" → t ≠ "AucInitTable" → tableRows l1 t = tableRows l t := by
  unfold PostAuctionRequest at h
  split at h
  · simp at h
  · rename_i ar har
    have hid : ar.AuctionID = argAt args 0 := by
      unfold CreateAuctionRequest at har
      split at har
      · simp at har
      · simp only [Except.ok.injEq] at har
        rw [← har]
    split at h
    · simp at h
    · simp at h
    · split at h
      · simp at h
      · simp at h
      · simp only at h
        split at h
        · simp at h
        · simp at h
        · rename_i l2 h2
          split at h
          · simp at h
          · simp at h
          · rename_i l3 h3
            simp only [Prod.mk.injEq, Outcome.ok.injEq] at h
            obtain ⟨hr, rfl⟩ := h
            obtain ⟨-, -, hfresh2, hrows2, hother2⟩ := UpdateLedger_appends _ _ _ _ _ h2
            obtain ⟨-, -, -, hrows3, hother3⟩ := UpdateLedger_appends _ _ _ _ _ h3
            refine ⟨ar, hid, hr.symm, ?_, ?_, ?_, ?_⟩
            · rw [hid]
              exact hfresh2
            · rw [hother3 "AuctionTable" (by decide), hrows2, hid]
              rfl
            · rw [hrows3, hother2 "AucInitTable" (by decide), hid]
              rfl
            · intro t ht1 ht2
              rw [hother3 t ht2, hother2 t ht1]

/-- The request `OpenAuctionForBids` writes for a stored request `aucR`, a clock
reading `now` and a duration of `d` minutes. -/
theorem OpenAuctionForBids_written (env : Env) (l l1 : Ledger) (args : List String) (r : Reply)
    (h : OpenAuctionForBids env l args = (.ok r, l1)) :
    ∃ (row : Row) (text : String) (d : Int) (aucR1 : AuctionRequest),
      1 ≤ args.length ∧ GetRow l "AuctionTable" (args.take 1) = some row ∧
      (JSONtoAucReq row.payload).Status ≠ "CLOSED" ∧
      args.get? 2 = some text ∧ Atoi text = some d ∧
      aucR1 = { JSONtoAucReq row.payload with
        OpenDate := formatLong (env.now 0),
        CloseDate := formatLong ((env.now 0).Add (wrapInt (d * Minute))),
        Status := "OPEN" } ∧
      r = .json (AucReqtoJSON aucR1) ∧
      (∃ x ∈ tableRows l "AuctionTable", x.keys = [aucR1.AuctionID]) ∧
      tableRows l1 "AuctionTable" = (tableRows l "AuctionTable").map (fun x =>
        if x.keys = [aucR1.AuctionID] then ⟨[aucR1.AuctionID], AucReqtoJSON aucR1⟩ else x) ∧
      tableRows l1 "AucInitTable" = (tableRows l "AucInitTable").filter
        (fun x => x.keys ≠ ["2016", aucR1.AuctionID]) ∧
      (∀ x ∈ tableRows l "AucOpenTable", x.keys ≠ ["2016", aucR1.AuctionID]) ∧
      tableRows l1 "AucOpenTable"
        = tableRows l "AucOpenTable" ++ [⟨["2016", aucR1.AuctionID], AucReqtoJSON aucR1⟩] ∧
      ∀ t, t ≠ "AuctionTable" → t ≠ "AucInitTable" → t ≠ "AucOpenTable" →
        tableRows l1 t = tableRows l t := by
  unfold OpenAuctionForBids at h
  split at h
  · simp at h
  · simp at h
  · rename_i Avalbytes hq
    obtain ⟨hlen, row, hrow, hpay⟩ := QueryLedger_found _ _ _ _ hq
    simp only at h
    split at h
    · simp at h
    · rename_i hclosed
      split at h
      · simp at h
      · rename_i text htext
        split at h
        · simp at h
        · rename_i d hd
          simp only [UpdateAuctionStatus] at h
          split at h
          · simp at h
          · simp at h
          · rename_i buff l2 h2
            simp only [Prod.mk.injEq] at h2
            obtain ⟨hbuff, h2⟩ := h2
            split at h
            · simp at h
            · simp at h
            · rename_i l3 h3
              split at h
              · simp at h
              · simp at h
              · rename_i l4 h4
                simp only [Prod.mk.injEq, Outcome.ok.injEq] at h
                obtain ⟨hr, rfl⟩ := h
                obtain ⟨-, -, hex2, hrows2, hother2⟩ := ReplaceLedgerEntry_rewrites _ _ _ _ _ h2
                obtain ⟨-, hrows3, hother3⟩ := DeleteFromLedger_removes _ _ _ _ h3
                obtain ⟨-, -, hfresh4, hrows4, hother4⟩ := UpdateLedger_appends _ _ _ _ _ h4
                subst hpay
                refine ⟨row, text, d, _, hlen, hrow, hclosed, htext, hd, rfl, ?_, hex2, ?_, ?_,
                  ?_, ?_, ?_⟩
                · rw [← hr, ← hbuff]
                · rw [hother4 "AuctionTable" (by decide), hother3 "AuctionTable" (by decide),
                    hrows2]
                  rfl
                · rw [hother4 "AucInitTable" (by decide), hrows3,
                    hother2 "AucInitTable" (by decide)]
                · intro x hx
                  have := hfresh4 x (by
                    rw [hother3 "AucOpenTable" (by decide), hother2 "AucOpenTable" (by decide)]
                    exact hx)
                  exact this
                · rw [hrows4, hother3 "AucOpenTable" (by decide),
                    hother2 "AucOpenTable" (by decide), ← hbuff]
                  rfl
                · intro t ht1 ht2 ht3
                  rw [hother4 t ht3, hother3 t ht2, hother2 t ht1]

/-- The check of `BuyItNow` against the highest bid never ends the operation with a
return without error. -/
theorem checkHighestBid_failed (l : Ledger) (args : List String) (o : Outcome)
    (h : checkHighestBid l args = some o) : ∀ r, o ≠ .ok r := by
  intro r hr
  subst hr
  unfold checkHighestBid at h
  split at h
  · simp at h
  · simp at h
  · split at h
    · simp at h
    · split at h
      · simp at h
      · simp only at h
        split at h
        · simp at h
        · split at h <;> simp at h
  · simp at h

/-- What a successful `BuyItNow` has written: the request under `args[0]`, with its
Status "CLOSED", over the rows of `AuctionTable` keyed by its AuctionID, and nothing
else but the removal of ("2016", AuctionID) from `AucOpenTable`. -/
theorem BuyItNow_written (env : Env) (l l1 : Ledger) (args : List String) (r : Reply)
    (h : BuyItNow env l args = (.ok r, l1)) :
    ∃ (row : Row) (aucR : AuctionRequest),
      GetRow l "AuctionTable" [argAt args 0] = some row ∧
      aucR = { JSONtoAucReq row.payload with Status := "CLOSED" } ∧
      r = .json (AucReqtoJSON aucR) ∧
      (∃ x ∈ tableRows l "AuctionTable", x.keys = [aucR.AuctionID]) ∧
      tableRows l1 "AuctionTable" = (tableRows l "AuctionTable").map (fun x =>
        if x.keys = [aucR.AuctionID] then ⟨[aucR.AuctionID], AucReqtoJSON aucR⟩ else x) ∧
      tableRows l1 "AucOpenTable" = (tableRows l "AucOpenTable").filter
        (fun x => x.keys ≠ ["2016", aucR.AuctionID]) ∧
      ∀ t, t ≠ "AuctionTable" → t ≠ "AucOpenTable" → tableRows l1 t = tableRows l t := by
  unfold BuyItNow at h
  split at h
  · simp at h
  · rename_i a0 rest
    split at h
    · rename_i o ho
      simp only [Prod.mk.injEq] at h
      exact absurd h.1 (checkHighestBid_failed _ _ _ ho r)
    · split at h
      · simp at h
      · simp at h
      · rename_i Avalbytes0 hq
        obtain ⟨-, row, hrow, hpay⟩ := QueryLedger_found _ _ _ _ hq
        simp only [UpdateAuctionStatus] at h
        split at h
        · simp at h
        · simp at h
        · rename_i buff l2 h2
          simp only [Prod.mk.injEq] at h2
          obtain ⟨hbuff, h2⟩ := h2
          split at h
          · simp at h
          · simp at h
          · rename_i l3 h3
            split at h
            · simp at h
            · split at h
              · simp at h
              · simp at h
              · simp only [Prod.mk.injEq, Outcome.ok.injEq] at h
                obtain ⟨hr, rfl⟩ := h
                obtain ⟨-, -, hex2, hrows2, hother2⟩ := ReplaceLedgerEntry_rewrites _ _ _ _ _ h2
                obtain ⟨-, hrows3, hother3⟩ := DeleteFromLedger_removes _ _ _ _ h3
                subst hpay
                refine ⟨row, _, hrow, rfl, ?_, hex2, ?_, ?_, ?_⟩
                · rw [← hr, ← hbuff]
                · rw [hother3 "AuctionTable" (by decide), hrows2]
                  rfl
                · rw [hrows3, hother2 "AucOpenTable" (by decide)]
                · intro t ht1 ht2
                  rw [hother3 t ht2, hother2 t ht1]

end Auction

namespace Auction

/-! ## Auction variant: the invariant of the ledger -/

/-- The record of an auction after a request was appended to `AuctionTable` under a
key the table did not hold. -/
theorem auctionRecord_append (l l1 : Ledger) (id : String) (buff : Payload)
    (hrows : tableRows l1 "AuctionTable" = tableRows l "AuctionTable" ++ [⟨[id], buff⟩])
    (hfresh : ∀ x ∈ tableRows l "AuctionTable", x.keys ≠ [id]) (id1 : String) :
    auctionRecord l1 id1 = if id1 = id then some buff else auctionRecord l id1 := by
  rw [auctionRecord_eq_find, auctionRecord_eq_find, hrows,
    find_append_fresh _ _ ⟨[id], buff⟩ hfresh]
  by_cases h : id1 = id
  · subst h
    simp
  · have h1 : ¬ [id] = [id1] := by
      intro h2
      exact h (List.cons.inj h2).1.symm
    simp [h, h1]

/-- The record of an auction after the rows of `AuctionTable` under a key the table
holds were rewritten. -/
theorem auctionRecord_replace (l l1 : Ledger) (id : String) (buff : Payload)
    (hrows : tableRows l1 "AuctionTable" = (tableRows l "AuctionTable").map (fun x =>
      if x.keys = [id] then ⟨[id], buff⟩ else x))
    (hex : ∃ x ∈ tableRows l "AuctionTable", x.keys = [id]) (id1 : String) :
    auctionRecord l1 id1 = if id1 = id then some buff else auctionRecord l id1 := by
  rw [auctionRecord_eq_find, auctionRecord_eq_find, hrows, find_map_replace]
  by_cases h : id1 = id
  · subst h
    obtain ⟨x, hx, hk⟩ := hex
    have hsome : ((tableRows l "AuctionTable").find? (fun r => r.keys = [id1])).isSome = true := by
      rw [List.find?_isSome]
      exact ⟨x, hx, by simp [hk]⟩
    obtain ⟨y, hy⟩ := Option.isSome_iff_exists.mp hsome
    simp [hy]
  · have h1 : ¬ [id1] = [id] := by
      intro h2
      exact h (List.cons.inj h2).1
    simp [h, h1]

theorem auctionRecord_same (l l1 : Ledger)
    (hrows : tableRows l1 "AuctionTable" = tableRows l "AuctionTable") (id : String) :
    auctionRecord l1 id = auctionRecord l id := by
  rw [auctionRecord_eq_find, auctionRecord_eq_find, hrows]

/-- In a ledger that satisfies the invariant, the row `GetRow` finds in `AuctionTable`
is a row of the table, keyed by the AuctionID of its record. -/
theorem GetRow_keyed (l : Ledger) (k : List String) (row : Row) (hl : AuctionInv l)
    (h : GetRow l "AuctionTable" k = some row) :
    row ∈ tableRows l "AuctionTable" ∧ k = [(JSONtoAucReq row.payload).AuctionID] := by
  rw [GetRow_eq_find] at h
  have hmem := List.mem_of_find?_eq_some h
  have hk := List.find?_some h
  simp only [decide_eq_true_eq] at hk
  exact ⟨hmem, by rw [← hk]; exact hl.2.1 row hmem⟩

theorem AuctionInv_emptyLedger : AuctionInv emptyLedger := by
  have h1 : tableRows emptyLedger "UserTable" = [] := by decide
  have h2 : tableRows emptyLedger "AuctionTable" = [] := by decide
  have h3 : tableRows emptyLedger "AucOpenTable" = [] := by decide
  have h4 : tableRows emptyLedger "AucInitTable" = [] := by decide
  refine ⟨?_, ?_, ?_, ?_⟩
  · rw [h1]; simp
  · rw [h2]; simp
  · rw [h3]; simp
  · rw [h4]; simp

/-- The invariant carries over to a ledger with the same auction tables whose user
records name their record type. -/
theorem AuctionInv_of_tables (l l1 : Ledger)
    (hu : ∀ r ∈ tableRows l1 "UserTable", ∃ rt, assocGet "RecType" r.payload = some rt)
    (ha : tableRows l1 "AuctionTable" = tableRows l "AuctionTable")
    (ho : tableRows l1 "AucOpenTable" = tableRows l "AucOpenTable")
    (hi : tableRows l1 "AucInitTable" = tableRows l "AucInitTable")
    (hl : AuctionInv l) : AuctionInv l1 := by
  obtain ⟨-, h2, h3, h4⟩ := hl
  refine ⟨hu, ?_, ?_, ?_⟩
  · rw [ha]
    exact h2
  · rw [ho]
    intro r hr
    obtain ⟨id, hk, hrec, hst⟩ := h3 r hr
    exact ⟨id, hk, by rw [auctionRecord_same l l1 ha]; exact hrec, hst⟩
  · rw [hi]
    intro r hr
    obtain ⟨ar, hp, hk, hrec⟩ := h4 r hr
    refine ⟨ar, hp, hk, ?_⟩
    rw [auctionRecord_same l l1 ha]
    exact hrec

theorem AuctionInv_PostUser (env : Env) (l l1 : Ledger) (args : List String) (r : Reply)
    (h : PostUser env l args = (.ok r, l1)) (hl : AuctionInv l) : AuctionInv l1 := by
  obtain ⟨⟨u, hrows⟩, hother⟩ := PostUser_written env l l1 args r h
  refine AuctionInv_of_tables l l1 ?_ (hother _ (by decide) (by decide))
    (hother _ (by decide) (by decide)) (hother _ (by decide) (by decide)) hl
  intro x hx
  rw [hrows] at hx
  rcases List.mem_append.mp hx with hx | hx
  · exact hl.1 x hx
  · simp only [List.mem_singleton] at hx
    subst hx
    exact ⟨u.RecType, by simp [UsertoJSON, assocGet]⟩

theorem AuctionInv_PostItem (env : Env) (l l1 : Ledger) (args : List String) (r : Reply)
    (h : PostItem env l args = (.ok r, l1)) (hl : AuctionInv l) : AuctionInv l1 := by
  have hother := PostItem_written env l l1 args r h
  refine AuctionInv_of_tables l l1 ?_ (hother _ (by decide)) (hother _ (by decide))
    (hother _ (by decide)) hl
  rw [hother "UserTable" (by decide)]
  exact hl.1

theorem AuctionInv_PostAuctionRequest (env : Env) (l l1 : Ledger) (args : List String)
    (r : Reply) (h : PostAuctionRequest env l args = (.ok r, l1)) (hl : AuctionInv l) :
    AuctionInv l1 := by
  obtain ⟨ar, -, -, hfresh, hrows, hinit, hother⟩ := PostAuctionRequest_written env l l1 args r h
  have hrec := auctionRecord_append l l1 ar.AuctionID (AucReqtoJSON ar) hrows hfresh
  obtain ⟨h1, h2, h3, h4⟩ := hl
  have hnone : auctionRecord l ar.AuctionID = none := by
    rw [auctionRecord_eq_find]
    have : (tableRows l "AuctionTable").find? (fun r => r.keys = [ar.AuctionID]) = none := by
      rw [List.find?_eq_none]
      intro x hx
      simpa using hfresh x hx
    rw [this]
    rfl
  refine ⟨?_, ?_, ?_, ?_⟩
  · rw [hother "UserTable" (by decide) (by decide)]
    exact h1
  · rw [hrows]
    intro x hx
    rcases List.mem_append.mp hx with hx | hx
    · exact h2 x hx
    · simp only [List.mem_singleton] at hx
      subst hx
      simp [JSONtoAucReq_AucReqtoJSON]
  · rw [hother "AucOpenTable" (by decide) (by decide)]
    intro x hx
    obtain ⟨id, hk, hrc, hst⟩ := h3 x hx
    refine ⟨id, hk, ?_, hst⟩
    rw [hrec id]
    by_cases hid : id = ar.AuctionID
    · rw [hid, hnone] at hrc
      cases hrc
    · simp [hid, hrc]
  · rw [hinit]
    intro x hx
    rcases List.mem_append.mp hx with hx | hx
    · obtain ⟨ar1, hp, hk, hrc⟩ := h4 x hx
      refine ⟨ar1, hp, hk, ?_⟩
      rw [hrec ar1.AuctionID]
      by_cases hid : ar1.AuctionID = ar.AuctionID
      · rw [hid, hnone] at hrc
        rcases hrc with hrc | hrc <;> cases hrc
      · simpa [hid] using hrc
    · simp only [List.mem_singleton] at hx
      subst hx
      refine ⟨ar, rfl, rfl, Or.inl ?_⟩
      rw [hrec ar.AuctionID]
      simp

theorem AuctionInv_OpenAuctionForBids (env : Env) (l l1 : Ledger) (args : List String)
    (r : Reply) (h : OpenAuctionForBids env l args = (.ok r, l1)) (hl : AuctionInv l) :
    AuctionInv l1 := by
  obtain ⟨row, text, d, aucR1, -, -, -, -, -, haucR1, -, hex, hrows, hinit, hfresh, hopen,
    hother⟩ := OpenAuctionForBids_written env l l1 args r h
  have hrec := auctionRecord_replace l l1 aucR1.AuctionID (AucReqtoJSON aucR1) hrows hex
  have hstatus : aucR1.Status = "OPEN" := by rw [haucR1]
  obtain ⟨h1, h2, h3, h4⟩ := hl
  refine ⟨?_, ?_, ?_, ?_⟩
  · rw [hother "UserTable" (by decide) (by decide) (by decide)]
    exact h1
  · rw [hrows]
    intro x hx
    obtain ⟨x0, hx0, rfl⟩ := List.mem_map.mp hx
    by_cases hk : x0.keys = [aucR1.AuctionID]
    · simp [hk, JSONtoAucReq_AucReqtoJSON]
    · simp only [hk, if_false]
      exact h2 x0 hx0
  · rw [hopen]
    intro x hx
    rcases List.mem_append.mp hx with hx | hx
    · obtain ⟨id, hk, hrc, hst⟩ := h3 x hx
      refine ⟨id, hk, ?_, hst⟩
      rw [hrec id]
      have hid : id ≠ aucR1.AuctionID := by
        intro hid
        exact hfresh x hx (by rw [hk, hid])
      simp [hid, hrc]
    · simp only [List.mem_singleton] at hx
      subst hx
      refine ⟨aucR1.AuctionID, rfl, ?_, ?_⟩
      · rw [hrec aucR1.AuctionID]
        simp
      · simp [JSONtoAucReq_AucReqtoJSON, hstatus]
  · rw [hinit]
    intro x hx
    obtain ⟨hx0, hkx⟩ := List.mem_filter.mp hx
    simp only [ne_eq, decide_not, Bool.not_eq_true', decide_eq_false_iff_not] at hkx
    obtain ⟨ar1, hp, hk, hrc⟩ := h4 x hx0
    refine ⟨ar1, hp, hk, ?_⟩
    rw [hrec ar1.AuctionID]
    have hid : ar1.AuctionID ≠ aucR1.AuctionID := by
      intro hid
      exact hkx (by rw [hk, hid])
    simpa [hid] using hrc

theorem AuctionInv_BuyItNow (env : Env) (l l1 : Ledger) (args : List String)
    (r : Reply) (h : BuyItNow env l args = (.ok r, l1)) (hl : AuctionInv l) :
    AuctionInv l1 := by
  obtain ⟨row, aucR, hrow, haucR, -, hex, hrows, hopen, hother⟩ :=
    BuyItNow_written env l l1 args r h
  have hrec := auctionRecord_replace l l1 aucR.AuctionID (AucReqtoJSON aucR) hrows hex
  obtain ⟨-, hkey⟩ := GetRow_keyed l _ row hl hrow
  have hidrow : aucR.AuctionID = (JSONtoAucReq row.payload).AuctionID := by rw [haucR]
  have hold : auctionRecord l aucR.AuctionID = some row.payload := by
    unfold auctionRecord
    rw [hidrow, ← hkey, hrow]
    rfl
  obtain ⟨h1, h2, h3, h4⟩ := hl
  refine ⟨?_, ?_, ?_, ?_⟩
  · rw [hother "UserTable" (by decide) (by decide)]
    exact h1
  · rw [hrows]
    intro x hx
    obtain ⟨x0, hx0, rfl⟩ := List.mem_map.mp hx
    by_cases hk : x0.keys = [aucR.AuctionID]
    · simp [hk, JSONtoAucReq_AucReqtoJSON]
    · simp only [hk, if_false]
      exact h2 x0 hx0
  · rw [hopen]
    intro x hx
    obtain ⟨hx0, hkx⟩ := List.mem_filter.mp hx
    simp only [ne_eq, decide_not, Bool.not_eq_true', decide_eq_false_iff_not] at hkx
    obtain ⟨id, hk, hrc, hst⟩ := h3 x hx0
    refine ⟨id, hk, ?_, hst⟩
    rw [hrec id]
    have hid : id ≠ aucR.AuctionID := by
      intro hid
      exact hkx (by rw [hk, hid])
    simp [hid, hrc]
  · rw [hother "AucInitTable" (by decide) (by decide)]
    intro x hx
    obtain ⟨ar1, hp, hk, hrc⟩ := h4 x hx
    refine ⟨ar1, hp, hk, ?_⟩
    rw [hrec ar1.AuctionID]
    by_cases hid : ar1.AuctionID = aucR.AuctionID
    · right
      rw [hid, hold] at hrc
      simp only [hid, if_true, Option.some.injEq]
      rw [haucR]
      rcases hrc with hrc | hrc
      · simp only [Option.some.injEq] at hrc
        rw [hrc, JSONtoAucReq_AucReqtoJSON]
      · simp only [Option.some.injEq] at hrc
        rw [hrc, JSONtoAucReq_AucReqtoJSON]
    · simpa [hid] using hrc

/-- The invariant is kept by every committed invocation. -/
theorem AuctionInv_commit (env : Env) (l : Ledger) (function : String) (args : List String)
    (hl : AuctionInv l) : AuctionInv (commit l (Invoke env l function args)) := by
  unfold commit
  split
  · rename_i r hr
    have hpair : Invoke env l function args = (.ok r, (Invoke env l function args).2) :=
      Prod.ext hr rfl
    generalize (Invoke env l function args).2 = l1 at hpair
    unfold Invoke at hpair
    split at hpair
    · split at hpair
      · rename_i op hop
        unfold InvokeFunction at hop
        split_ifs at hop <;> simp only [Option.some.injEq] at hop <;> subst hop
        · exact AuctionInv_PostItem env l l1 args r hpair hl
        · exact AuctionInv_PostUser env l l1 args r hpair hl
        · exact AuctionInv_PostAuctionRequest env l l1 args r hpair hl
        · exact AuctionInv_OpenAuctionForBids env l l1 args r hpair hl
        · exact AuctionInv_BuyItNow env l l1 args r hpair hl
      · simp only [Prod.mk.injEq] at hpair
        rw [← hpair.2]
        exact hl
    · split at hpair <;> simp at hpair
  · exact hl

theorem AuctionInv_of_Reachable (l : Ledger) (h : Reachable l) : AuctionInv l := by
  induction h with
  | init => exact AuctionInv_emptyLedger
  | step env function args _ ih => exact AuctionInv_commit env _ function args ih

/-- Every ledger that follows a reachable one is reachable. -/
theorem Reachable_of_Later (l l1 : Ledger) (hl : Reachable l) (h : Later l l1) :
    Reachable l1 := by
  induction h with
  | refl => exact hl
  | step env function args _ ih => exact Reachable.step env function args ih

theorem Reachable_ledgerUsers : Reachable ledgerUsers :=
  Reachable.step sampleEnv "PostUser" (userArgs "200" "Sotheby" "AH")
    (Reachable.step sampleEnv "PostUser" (userArgs "100" "Ashley Hart" "TRD") Reachable.init)

theorem Reachable_ledgerItem : Reachable ledgerItem :=
  Reachable.step sampleEnv "PostItem" (itemArgs "1000" "Shadows by Asppen") Reachable_ledgerUsers

theorem Reachable_ledgerRequest : Reachable ledgerRequest :=
  Reachable.step sampleEnv "PostAuctionRequest" (requestArgs "1111" "INIT") Reachable_ledgerItem

theorem Reachable_ledgerOpen : Reachable ledgerOpen :=
  Reachable.step sampleEnv "OpenAuctionForBids" ["1111", "OPENAUC", "3"] Reachable_ledgerRequest

end Auction

namespace Auction

/-! ## C24: the Status of an auction never moves backward -/

/-- An invocation that returns without error is one of the five operations, or names
no operation and leaves the ledger as it was. -/
theorem Invoke_ok_cases (env : Env) (l l1 : Ledger) (function : String) (args : List String)
    (r : Reply) (h : Invoke env l function args = (.ok r, l1)) :
    l1 = l ∨ PostItem env l args = (.ok r, l1) ∨ PostUser env l args = (.ok r, l1) ∨
    PostAuctionRequest env l args = (.ok r, l1) ∨
    OpenAuctionForBids env l args = (.ok r, l1) ∨ BuyItNow env l args = (.ok r, l1) := by
  unfold Invoke at h
  split at h
  · split at h
    · rename_i op hop
      unfold InvokeFunction at hop
      split_ifs at hop <;> simp only [Option.some.injEq] at hop <;> subst hop
      all_goals simp [h]
    · simp only [Prod.mk.injEq] at h
      exact Or.inl h.2.symm
  · split at h <;> simp at h

/-- One committed invocation, on a ledger that satisfies the invariant, keeps the
Status of every auction, or moves one that is not "CLOSED" to "OPEN", or moves it to
"CLOSED". -/
theorem auctionStatus_step (env : Env) (l : Ledger) (function : String) (args : List String)
    (hl : AuctionInv l) (id s : String) (h : auctionStatus l id = some s) :
    auctionStatus (commit l (Invoke env l function args)) id = some s ∨
    (s ≠ "CLOSED" ∧ auctionStatus (commit l (Invoke env l function args)) id = some "OPEN") ∨
    auctionStatus (commit l (Invoke env l function args)) id = some "CLOSED" := by
  unfold commit
  split
  · rename_i r hr
    have hpair : Invoke env l function args = (.ok r, (Invoke env l function args).2) :=
      Prod.ext hr rfl
    generalize (Invoke env l function args).2 = l1 at hpair
    rcases Invoke_ok_cases env l l1 function args r hpair with h0 | h0 | h0 | h0 | h0 | h0
    · left
      rw [h0]
      exact h
    · left
      unfold auctionStatus
      rw [auctionRecord_same l l1 (PostItem_written env l l1 args r h0 _ (by decide))]
      exact h
    · left
      unfold auctionStatus
      rw [auctionRecord_same l l1
        ((PostUser_written env l l1 args r h0).2 _ (by decide) (by decide))]
      exact h
    · left
      obtain ⟨ar, -, -, hfresh, hrows, -, -⟩ := PostAuctionRequest_written env l l1 args r h0
      have hrec := auctionRecord_append l l1 ar.AuctionID (AucReqtoJSON ar) hrows hfresh id
      have hne : id ≠ ar.AuctionID := by
        intro hid
        have hnone : (tableRows l "AuctionTable").find? (fun r => r.keys = [ar.AuctionID])
            = none := by
          rw [List.find?_eq_none]
          intro x hx
          simpa using hfresh x hx
        unfold auctionStatus at h
        rw [auctionRecord_eq_find, hid, hnone] at h
        cases h
      unfold auctionStatus
      rw [hrec]
      simpa [hne, auctionStatus] using h
    · obtain ⟨row, text, d, aucR1, -, hrow, hclosed, -, -, haucR1, -, hex, hrows, -, -, -, -⟩ :=
        OpenAuctionForBids_written env l l1 args r h0
      have hrec := auctionRecord_replace l l1 aucR1.AuctionID (AucReqtoJSON aucR1) hrows hex id
      obtain ⟨-, hkey⟩ := GetRow_keyed l _ row hl hrow
      have hidrow : aucR1.AuctionID = (JSONtoAucReq row.payload).AuctionID := by rw [haucR1]
      by_cases hid : id = aucR1.AuctionID
      · right
        left
        have hold : auctionRecord l id = some row.payload := by
          unfold auctionRecord
          rw [hid, hidrow, ← hkey, hrow]
          rfl
        constructor
        · unfold auctionStatus at h
          rw [hold] at h
          simp only [Option.map_some', Option.some.injEq] at h
          rw [← h]
          exact hclosed
        · unfold auctionStatus
          rw [hrec]
          simp [hid, JSONtoAucReq_AucReqtoJSON, haucR1]
      · left
        unfold auctionStatus
        rw [hrec]
        simpa [hid, auctionStatus] using h
    · obtain ⟨row, aucR, -, haucR, -, hex, hrows, -, -⟩ := BuyItNow_written env l l1 args r h0
      have hrec := auctionRecord_replace l l1 aucR.AuctionID (AucReqtoJSON aucR) hrows hex id
      by_cases hid : id = aucR.AuctionID
      · right
        right
        unfold auctionStatus
        rw [hrec]
        simp [hid, JSONtoAucReq_AucReqtoJSON, haucR]
      · left
        unfold auctionStatus
        rw [hrec]
        simpa [hid, auctionStatus] using h
  · left
    exact h

/-- C24. In every ledger `l1` that follows a reachable ledger `l` by any sequence of
invocations, each with arbitrary arguments and each kept or discarded by the host as it
succeeds or fails: an auction whose Status is "CLOSED" in `l` has the Status "CLOSED"
in `l1`, and an auction whose Status is "OPEN" in `l` has the Status "OPEN" or "CLOSED"
in `l1`. -/
theorem status_never_backward (l l1 : Ledger) (id : String) (hl : Reachable l)
    (hlater : Later l l1) :
    (auctionStatus l id = some "CLOSED" → auctionStatus l1 id = some "CLOSED") ∧
    (auctionStatus l id = some "OPEN" →
      auctionStatus l1 id = some "OPEN" ∨ auctionStatus l1 id = some "CLOSED") := by
  induction hlater with
  | refl => exact ⟨fun h => h, fun h => Or.inl h⟩
  | step env function args hprev ih =>
    rename_i l2
    have hinv : AuctionInv l2 := AuctionInv_of_Reachable l2 (Reachable_of_Later l l2 hl hprev)
    constructor
    · intro h
      rcases auctionStatus_step env l2 function args hinv id "CLOSED" (ih.1 h) with
        h1 | ⟨h1, -⟩ | h1
      · exact h1
      · exact absurd rfl h1
      · exact h1
    · intro h
      rcases ih.2 h with h2 | h2
      · rcases auctionStatus_step env l2 function args hinv id "OPEN" h2 with
          h1 | ⟨-, h1⟩ | h1
        · exact Or.inl h1
        · exact Or.inl h1
        · exact Or.inr h1
      · rcases auctionStatus_step env l2 function args hinv id "CLOSED" h2 with
          h1 | ⟨h1, -⟩ | h1
        · exact Or.inr h1
        · exact absurd rfl h1
        · exact Or.inr h1

/-- Witness of C24: the open auction "1111" is bought, then a second
`OpenAuctionForBids` is refused. -/
theorem status_never_backward_witness :
    ((auctionStatus ledgerOpen "1111" = some "CLOSED" →
      auctionStatus (commit ledgerBought
        (Invoke sampleEnv ledgerBought "OpenAuctionForBids" ["1111", "OPENAUC", "3"])) "1111"
        = some "CLOSED") ∧
    (auctionStatus ledgerOpen "1111" = some "OPEN" →
      auctionStatus (commit ledgerBought
        (Invoke sampleEnv ledgerBought "OpenAuctionForBids" ["1111", "OPENAUC", "3"])) "1111"
        = some "OPEN" ∨
      auctionStatus (commit ledgerBought
        (Invoke sampleEnv ledgerBought "OpenAuctionForBids" ["1111", "OPENAUC", "3"])) "1111"
        = some "CLOSED")) ∧
    auctionStatus ledgerOpen "1111" = some "OPEN" ∧
    auctionStatus (commit ledgerBought
      (Invoke sampleEnv ledgerBought "OpenAuctionForBids" ["1111", "OPENAUC", "3"])) "1111"
      = some "CLOSED" :=
  ⟨status_never_backward ledgerOpen _ "1111" Reachable_ledgerOpen
    (Later.step sampleEnv "OpenAuctionForBids" ["1111", "OPENAUC", "3"]
      (Later.step sampleEnv "BuyItNow" ["1111", "BID", "1", "1000", "100", "1200"] Later.refl)),
   by decide, by decide⟩

end Auction

namespace Auction

/-! ## C25: the bucket tables and the primary table -/

theorem Reachable_ledgerBoughtEarly : Reachable ledgerBoughtEarly :=
  Reachable.step sampleEnv "BuyItNow" ["1111", "BID", "1", "1000", "100", "1200"]
    Reachable_ledgerRequest

theorem Reachable_ledgerPostedOpen : Reachable ledgerPostedOpen :=
  Reachable.step sampleEnv "PostAuctionRequest" (requestArgs "1111" "OPEN") Reachable_ledgerItem

/-- C25, counterexample: two reachable ledgers in which `AucInitTable` holds the row
("2016", "1111") while the Status of auction "1111" in `AuctionTable` is not "INIT".
In the first the request was posted with Status "INIT" and then bought by `BuyItNow`,
which closes it and removes it from `AucOpenTable` only; in the second the request was
posted with the Status "OPEN", which `PostAuctionRequest` stores as it is given. -/
theorem bucket_tables_counterexample :
    Reachable ledgerBoughtEarly ∧
    (tableRows ledgerBoughtEarly "AucInitTable").map Row.keys = [["2016", "1111"]] ∧
    auctionStatus ledgerBoughtEarly "1111" = some "CLOSED" ∧
    Reachable ledgerPostedOpen ∧
    (tableRows ledgerPostedOpen "AucInitTable").map Row.keys = [["2016", "1111"]] ∧
    auctionStatus ledgerPostedOpen "1111" = some "OPEN" :=
  ⟨Reachable_ledgerBoughtEarly, by decide, by decide, Reachable_ledgerPostedOpen, by decide,
    by decide⟩

/-- C25, as amended. In every ledger reachable from a fresh deployment by the invoke
operations: every row of `AucOpenTable` is keyed ("2016", id) for an auction `id`
whose `AuctionTable` record is the payload of the row and has the Status "OPEN"; every
row of `AucInitTable` holds a request as it was posted, keyed ("2016", AuctionID), and
the `AuctionTable` record of that auction is that request, with the Status it was
posted with, or that request with the Status "CLOSED". -/
theorem bucket_tables_agree (l : Ledger) (hl : Reachable l) :
    (∀ r ∈ tableRows l "AucOpenTable", ∃ id, r.keys = ["2016", id] ∧
      auctionRecord l id = some r.payload ∧ auctionStatus l id = some "OPEN") ∧
    (∀ r ∈ tableRows l "AucInitTable", ∃ ar : AuctionRequest,
      r.payload = AucReqtoJSON ar ∧ r.keys = ["2016", ar.AuctionID] ∧
      (auctionRecord l ar.AuctionID = some (AucReqtoJSON ar) ∨
       auctionRecord l ar.AuctionID = some (AucReqtoJSON { ar with Status := "CLOSED" }))) := by
  obtain ⟨-, -, h3, h4⟩ := AuctionInv_of_Reachable l hl
  refine ⟨?_, h4⟩
  intro r hr
  obtain ⟨id, hk, hrec, hst⟩ := h3 r hr
  exact ⟨id, hk, hrec, by simp [auctionStatus, hrec, hst]⟩

/-- Witness of C25 as amended: the ledger in which the request "1111" was bought
before it was opened. -/
theorem bucket_tables_agree_witness :
    (∀ r ∈ tableRows ledgerBoughtEarly "AucOpenTable", ∃ id, r.keys = ["2016", id] ∧
      auctionRecord ledgerBoughtEarly id = some r.payload ∧
      auctionStatus ledgerBoughtEarly id = some "OPEN") ∧
    (∀ r ∈ tableRows ledgerBoughtEarly "AucInitTable", ∃ ar : AuctionRequest,
      r.payload = AucReqtoJSON ar ∧ r.keys = ["2016", ar.AuctionID] ∧
      (auctionRecord ledgerBoughtEarly ar.AuctionID = some (AucReqtoJSON ar) ∨
       auctionRecord ledgerBoughtEarly ar.AuctionID
         = some (AucReqtoJSON { ar with Status := "CLOSED" }))) :=
  bucket_tables_agree ledgerBoughtEarly Reachable_ledgerBoughtEarly

/-! ## C26: a request for an unknown auction house or item -/

/-- On a table with at most two key columns whose records all name their record type,
a `QueryLedger` with two arguments does not panic. -/
theorem QueryLedger_two_not_fault (l : Ledger) (t : String) (a0 a1 : String)
    (hn : GetNumberOfKeys t ≤ 2)
    (hrt : ∀ r ∈ tableRows l t, ∃ rt, assocGet "RecType" r.payload = some rt) :
    QueryLedger l t [a0, a1] ≠ .fault := by
  unfold QueryLedger
  have hlen : ¬ [a0, a1].length < GetNumberOfKeys t := by
    simp only [List.length_cons, List.length_nil]
    omega
  simp only [hlen, if_false]
  cases hrow : GetRow l t ([a0, a1].take (GetNumberOfKeys t)) with
  | none => simp
  | some row =>
    rw [GetRow_eq_find] at hrow
    obtain ⟨rt, hrec⟩ := hrt row (List.mem_of_find?_eq_some hrow)
    simp only
    have hproc : ProcessQueryResult row.payload ≠ .fault := by
      unfold ProcessQueryResult
      rw [hrec]
      simp only
      split_ifs <;> simp
    cases hp : ProcessQueryResult row.payload with
    | fault => exact absurd hp hproc
    | error msg => simp
    | ok u => simp

/-- C26. In every reachable ledger, `PostAuctionRequest` with eight arguments whose
AuctionHouseID (`args[3]`) is not a key of `UserTable`, or whose ItemID (`args[2]`) is
not a key of `ItemTable`, returns an error and writes nothing. -/
theorem PostAuctionRequest_unknown (env : Env) (l : Ledger) (args : List String)
    (hl : Reachable l) (hlen : args.length = 8)
    (hmiss : (∀ r ∈ tableRows l "UserTable", r.keys ≠ [argAt args 3]) ∨
      (∀ r ∈ tableRows l "ItemTable", r.keys ≠ [argAt args 2])) :
    ∃ msg, PostAuctionRequest env l args = (.error .nil msg, l) := by
  have hinv := AuctionInv_of_Reachable l hl
  unfold PostAuctionRequest CreateAuctionRequest
  simp only [hlen, ne_eq, not_true_eq_false, if_false]
  cases hmem : ValidateMember l (argAt args 3) with
  | error msg => exact ⟨msg, rfl⟩
  | fault =>
    exfalso
    unfold ValidateMember at hmem
    have hq := QueryLedger_two_not_fault l "UserTable" (argAt args 3) "USER" (by decide) hinv.1
    split at hmem
    · rename_i hf
      exact hq hf
    · simp at hmem
    · simp at hmem
  | ok p =>
    simp only
    have hitem : ∀ r ∈ tableRows l "ItemTable", r.keys ≠ [argAt args 2] := by
      rcases hmiss with hno | hno
      · exfalso
        unfold ValidateMember at hmem
        rw [QueryLedger_absent l "UserTable" (argAt args 3) ["USER"]
          (by simp [GetNumberOfKeys]) hno] at hmem
        simp at hmem
      · exact hno
    have hq := QueryLedger_absent l "ItemTable" (argAt args 2) ["ARTINV"]
      (by simp [GetNumberOfKeys]) hitem
    unfold ValidateItemSubmission
    rw [hq]
    exact ⟨_, rfl⟩

/-- Witness of C26: requests that name the unregistered auction house "900" and the
unregistered item "7000". -/
theorem PostAuctionRequest_unknown_witness :
    (∃ msg, PostAuctionRequest sampleEnv ledgerItem
      ["1111", "AUCREQ", "1000", "900", "04012016", "INIT", "", ""] = (.error .nil msg, ledgerItem)) ∧
    (∃ msg, PostAuctionRequest sampleEnv ledgerItem
      ["1111", "AUCREQ", "7000", "200", "04012016", "INIT", "", ""] = (.error .nil msg, ledgerItem)) :=
  ⟨PostAuctionRequest_unknown sampleEnv ledgerItem
      ["1111", "AUCREQ", "1000", "900", "04012016", "INIT", "", ""] Reachable_ledgerItem
      (by decide) (Or.inl (by decide)),
   PostAuctionRequest_unknown sampleEnv ledgerItem
      ["1111", "AUCREQ", "7000", "200", "04012016", "INIT", "", ""] Reachable_ledgerItem
      (by decide) (Or.inr (by decide))⟩

/-! ## C27: opening an auction -/

/-- C27, counterexample: the request "1111" is opened at 2017-03-04 10:20:30 for
153722868 minutes. The call succeeds; that many minutes later it is 2309-06-14
10:08:30, but the product of the duration with `time.Minute` exceeds the 64-bit range
and the CloseDate written lies before the OpenDate. -/
theorem OpenAuctionForBids_close_date_counterexample :
    (∃ r, (OpenAuctionForBids sampleEnv ledgerRequest ["1111", "OPENAUC", "153722868"]).1
      = .ok r) ∧
    (auctionRecord (OpenAuctionForBids sampleEnv ledgerRequest
      ["1111", "OPENAUC", "153722868"]).2 "1111").map (fun p => (JSONtoAucReq p).CloseDate)
      = some "1724-11-23 10:33:56" ∧
    formatLong (sampleInstant.Add (153722868 * Minute)) = "2309-06-14 10:08:30" := by
  refine ⟨⟨_, rfl⟩, by decide, by decide⟩

/-- C27, as amended. In a reachable ledger, after a successful `OpenAuctionForBids`
whose first argument is `auctionID` and whose third argument is the text of a duration
`d` of at most 153722867 minutes in absolute value (so that `d` minutes, in
nanoseconds, fit the 64-bit range): the `AuctionTable` record of `auctionID` is the
former one with Status "OPEN", OpenDate the clock reading and CloseDate the reading
`d` minutes later, both in the layout "2006-01-02 15:04:05", and with every other
field as it was; `AucInitTable` has no row ("2016", auctionID); and `AucOpenTable`
holds under ("2016", auctionID) the payload `AuctionTable` holds. -/
theorem OpenAuctionForBids_record (env : Env) (l l1 : Ledger) (args : List String) (r : Reply)
    (auctionID text : String) (d : Int) (hl : Reachable l)
    (h : OpenAuctionForBids env l args = (.ok r, l1))
    (hid : args.get? 0 = some auctionID) (htext : args.get? 2 = some text)
    (hd : Atoi text = some d) (hlow : -153722867 ≤ d) (hhigh : d ≤ 153722867) :
    ∃ old new, auctionRecord l auctionID = some old ∧ auctionRecord l1 auctionID = some new ∧
      JSONtoAucReq new = { JSONtoAucReq old with
        Status := "OPEN", OpenDate := formatLong (env.now 0),
        CloseDate := formatLong ((env.now 0).Add (d * Minute)) } ∧
      (∀ x ∈ tableRows l1 "AucInitTable", x.keys ≠ ["2016", auctionID]) ∧
      (GetRow l1 "AucOpenTable" ["2016", auctionID]).map Row.payload = some new := by
  have hinv := AuctionInv_of_Reachable l hl
  obtain ⟨row, text1, d1, aucR1, -, hrow, -, htext1, hd1, haucR1, -, hex, hrows, hinit, hfresh,
    hopen, -⟩ := OpenAuctionForBids_written env l l1 args r h
  rw [htext] at htext1
  cases htext1
  rw [hd] at hd1
  cases hd1
  have hwrap : wrapInt (d * Minute) = d * Minute := by
    apply wrapInt_of_inRange <;> unfold Minute <;> omega
  rw [hwrap] at haucR1
  have htake : args.take 1 = [auctionID] := by
    match args, hid with
    | a :: rest, hid =>
      simp only [List.get?_cons_zero, Option.some.injEq] at hid
      simp [hid]
  rw [htake] at hrow
  obtain ⟨-, hkey⟩ := GetRow_keyed l _ row hinv hrow
  have hidrow : aucR1.AuctionID = auctionID := by
    rw [haucR1]
    exact (List.cons.inj hkey).1.symm
  rw [hidrow] at hrows hinit hfresh hopen hex
  have hrec := auctionRecord_replace l l1 auctionID (AucReqtoJSON aucR1) hrows hex auctionID
  refine ⟨row.payload, AucReqtoJSON aucR1, ?_, ?_, ?_, ?_, ?_⟩
  · unfold auctionRecord
    rw [hrow]
    rfl
  · simpa using hrec
  · rw [JSONtoAucReq_AucReqtoJSON, haucR1]
  · rw [hinit]
    intro x hx
    have := (List.mem_filter.mp hx).2
    simpa using this
  · rw [GetRow_eq_find, hopen, find_append_fresh _ _ _ hfresh]
    simp

/-- Witness of C27 as amended: the request "1111" opened at 2017-03-04 10:20:30 for
three minutes. -/
theorem OpenAuctionForBids_record_witness :
    ∃ old new, auctionRecord ledgerRequest "1111" = some old ∧
      auctionRecord ledgerOpen "1111" = some new ∧
      JSONtoAucReq new = { JSONtoAucReq old with
        Status := "OPEN", OpenDate := formatLong (sampleEnv.now 0),
        CloseDate := formatLong ((sampleEnv.now 0).Add (3 * Minute)) } ∧
      (∀ x ∈ tableRows ledgerOpen "AucInitTable", x.keys ≠ ["2016", "1111"]) ∧
      (GetRow ledgerOpen "AucOpenTable" ["2016", "1111"]).map Row.payload = some new :=
  OpenAuctionForBids_record sampleEnv ledgerRequest ledgerOpen ["1111", "OPENAUC", "3"]
    (.json (AucReqtoJSON ⟨"1111", "AUCREQ", "1000", "200", "04012016", "OPEN",
      "2017-03-04 10:20:30", "2017-03-04 10:23:30"⟩))
    "1111" "3" 3 Reachable_ledgerRequest (by decide) (by decide) (by decide) (by decide)
    (by decide) (by decide)

end Auction

namespace Auction

/-! ## C31, C37: the highest bid of an empty or negative scan -/

/-- C31. When the scan of `BidTable` under the auction ID finds no row, `GetHighestBid`
returns the nil payload and no error. -/
theorem GetHighestBid_no_bid (l : Ledger) (auctionID : String)
    (hscan : GetRows l "BidTable" [auctionID] = some []) :
    GetHighestBid l [auctionID] = .ok .nil := by
  unfold GetHighestBid GetList
  simp [hscan, GetHighestBidLoop]

/-- Witness of C31: no bid was placed on the open auction "1111". -/
theorem GetHighestBid_no_bid_witness : GetHighestBid ledgerOpen ["1111"] = .ok .nil :=
  GetHighestBid_no_bid ledgerOpen "1111" (by decide)

/-- C37. For every scan of bids whose `BidPrice` members are texts of integers,
`GetHighestBid` returns the nil payload without error exactly when no scanned bid has
a price greater than or equal to 0, and a payload it returns is that of a scanned bid
whose price is not negative. -/
theorem GetHighestBid_never_negative (l : Ledger) (auctionID : String) (rows : List Row)
    (hscan : GetRows l "BidTable" [auctionID] = some rows)
    (hprice : ∀ r ∈ rows, ∃ n, bidPrice r = some n) :
    (GetHighestBid l [auctionID] = .ok .nil ↔ ∀ r ∈ rows, ∀ m, bidPrice r = some m → m < 0) ∧
    (∀ p, GetHighestBid l [auctionID] = .ok (.json p) →
      ∃ r ∈ rows, r.payload = p ∧ ∃ n, bidPrice r = some n ∧ 0 ≤ n) ∧
    ((∀ r ∈ rows, ∀ m, bidPrice r = some m → m < 0) ∨
      ∃ p, GetHighestBid l [auctionID] = .ok (.json p)) := by
  have hget : GetHighestBid l [auctionID] = GetHighestBidLoop rows [] 0 .nil := by
    unfold GetHighestBid GetList
    simp [hscan]
  rw [hget]
  rcases GetHighestBidLoop_scan rows [] 0 .nil hprice with ⟨hres, hlow⟩ | hhigh
  · refine ⟨⟨fun _ => hlow, fun _ => hres⟩, ?_, Or.inl hlow⟩
    intro p hp
    rw [hres] at hp
    cases hp
  · obtain ⟨before, r, after, n, hsplit, hres, hn, h0, -, -⟩ := hhigh
    have hmem : r ∈ rows := by
      rw [hsplit]
      simp
    refine ⟨⟨?_, ?_⟩, ?_, Or.inr ⟨r.payload, hres⟩⟩
    · intro hnil
      rw [hres] at hnil
      cases hnil
    · intro hall
      exact absurd (hall r hmem n hn) (not_lt.mpr h0)
    · intro p hp
      rw [hres] at hp
      simp only [Outcome.ok.injEq, Reply.json.injEq] at hp
      exact ⟨r, hmem, hp, n, hn, h0⟩

/-- Witness of C37: of two bids priced -5 and -7, none is returned. -/
theorem GetHighestBid_never_negative_witness :
    ((GetHighestBid ledgerNegativeBids ["1111"] = .ok .nil ↔
      ∀ r ∈ [bidRow "1" "100" "-5", bidRow "2" "200" "-7"], ∀ m, bidPrice r = some m → m < 0) ∧
    (∀ p, GetHighestBid ledgerNegativeBids ["1111"] = .ok (.json p) →
      ∃ r ∈ [bidRow "1" "100" "-5", bidRow "2" "200" "-7"], r.payload = p ∧
        ∃ n, bidPrice r = some n ∧ 0 ≤ n) ∧
    ((∀ r ∈ [bidRow "1" "100" "-5", bidRow "2" "200" "-7"], ∀ m, bidPrice r = some m → m < 0) ∨
      ∃ p, GetHighestBid ledgerNegativeBids ["1111"] = .ok (.json p))) ∧
    GetHighestBid ledgerNegativeBids ["1111"] = .ok .nil :=
  ⟨GetHighestBid_never_negative ledgerNegativeBids "1111"
    [bidRow "1" "100" "-5", bidRow "2" "200" "-7"] (by decide)
    (by
      intro r hr
      rcases List.mem_cons.mp hr with rfl | hr
      · exact ⟨-5, by decide⟩
      · rcases List.mem_cons.mp hr with rfl | hr
        · exact ⟨-7, by decide⟩
        · cases hr),
   by decide⟩

/-! ## C35: a function name that resolves to nothing -/

/-- C35. For every function name that is none of "PostItem", "PostUser",
"PostAuctionRequest", "OpenAuctionForBids", "BuyItNow": when some argument is one of
the record types, `Invoke` returns the nil payload without error and leaves the ledger
as it was. For every function name: when the argument list is not empty and no
argument is one of the record types, `Invoke` returns an error and leaves the ledger
as it was. -/
theorem Invoke_unknown_function (env : Env) (l : Ledger) (function : String)
    (args : List String) :
    (function ∉ ["PostItem", "PostUser", "PostAuctionRequest", "OpenAuctionForBids", "BuyItNow"] →
      (∃ a ∈ args, a ∈ recType) → Invoke env l function args = (.ok .nil, l)) ∧
    (args ≠ [] → (∀ a ∈ args, a ∉ recType) →
      Invoke env l function args
        = (.error .nil ("Invoke() : Invalid recType : " ++ argAt args 0), l)) := by
  have hchk : ChkReqType args = true ↔ ∃ a ∈ args, a ∈ recType := by
    unfold ChkReqType
    rw [List.any_eq_true]
    constructor
    · rintro ⟨a, ha, hr⟩
      obtain ⟨v, hv, hva⟩ := List.any_eq_true.mp hr
      exact ⟨a, ha, by rw [← of_decide_eq_true hva]; exact hv⟩
    · rintro ⟨a, ha, hr⟩
      exact ⟨a, ha, List.any_eq_true.mpr ⟨a, hr, by simp⟩⟩
  constructor
  · intro hfn hsome
    have hnone : InvokeFunction function = none := by
      simp only [List.mem_cons, List.mem_singleton, List.not_mem_nil, or_false, not_or] at hfn
      obtain ⟨h1, h2, h3, h4, h5⟩ := hfn
      unfold InvokeFunction
      simp [h1, h2, h3, h4, h5]
    unfold Invoke
    simp [hchk.mpr hsome, hnone]
  · intro hne hnone
    have hfalse : ¬ ChkReqType args = true := by
      rw [hchk]
      rintro ⟨a, ha, hr⟩
      exact hnone a ha hr
    unfold Invoke
    simp only [hfalse, if_false]
    match args, hne with
    | a0 :: rest, _ => rfl

/-- Witness of C35: the function name "CloseAuction", and a list of arguments none of
which is a record type. -/
theorem Invoke_unknown_function_witness :
    Invoke sampleEnv ledgerOpen "CloseAuction" ["1111", "AUCREQ"] = (.ok .nil, ledgerOpen) ∧
    Invoke sampleEnv ledgerOpen "BuyItNow" ["1111", "bid"]
      = (.error .nil ("Invoke() : Invalid recType : " ++ argAt ["1111", "bid"] 0), ledgerOpen) :=
  ⟨(Invoke_unknown_function sampleEnv ledgerOpen "CloseAuction" ["1111", "AUCREQ"]).1
      (by decide) ⟨"AUCREQ", by decide, by decide⟩,
   (Invoke_unknown_function sampleEnv ledgerOpen "BuyItNow" ["1111", "bid"]).2
      (by decide) (by decide)⟩

end Auction

/-! ## C36: a weight that is no integer -/

/-- C36. `CalculateVoucherAmount` returns an error exactly when the Weight of the
voucher is not the text of an integer, whatever the LoadingType, VehicleType and
Customer are; and `createVoucher` called with such a weight (`args[15]`) returns an
error and writes nothing. -/
theorem weight_not_integer (v : VoucherObject) (env : Env) (l : Ledger) (args : List String)
    (hw : Atoi (argAt args 15) = none) :
    ((∃ msg, CalculateVoucherAmount v = .error msg) ↔ Atoi v.Weight = none) ∧
    ∃ msg, createVoucher env l args = (.error .nil msg, l) := by
  constructor
  · unfold CalculateVoucherAmount
    cases hv : Atoi v.Weight with
    | none => simp
    | some w =>
      simp only [reduceCtorEq, iff_false, not_exists]
      intro msg
      split_ifs <;> simp
  · unfold createVoucher
    cases hc : CreateVoucherObject (env.now 0) args with
    | error err => exact ⟨err, rfl⟩
    | ok v0 =>
      exfalso
      obtain ⟨-, -, -, hweight, a, ha, -⟩ := CreateVoucherObject_fields _ _ _ hc
      unfold CalculateVoucherAmount at ha
      rw [hweight, hw] at ha
      simp at ha

/-- Witness of C36: a full load on a 16 tonner for "Maruthi Pune" with the weight
"ten", whose amount would not use the weight. -/
theorem weight_not_integer_witness :
    ((∃ msg, CalculateVoucherAmount { blankVoucher with
        LoadingType := "FTL", VehicleType := "16 Tonner", Customer := "Maruthi Pune",
        Weight := "ten" } = .error msg) ↔
      Atoi ({ blankVoucher with
        LoadingType := "FTL", VehicleType := "16 Tonner", Customer := "Maruthi Pune",
        Weight := "ten" } : VoucherObject).Weight = none) ∧
    ∃ msg, createVoucher sampleEnv ledgerA (sampleArgs "A" "0" "ten")
      = (.error .nil msg, ledgerA) :=
  weight_not_integer _ sampleEnv ledgerA (sampleArgs "A" "0" "ten") (by decide)

/-! ## C39: orders are stored under their own ID -/

/-- C39. In every ledger reachable from a fresh deployment by the invoke operations,
every entry of the flat key space is stored under the key its own `dispatchOrderId`
member names; and so is every entry of the working state of a further invocation,
whether it succeeds or fails. -/
theorem stored_under_own_id (l : Ledger) (h : Reachable l) :
    (∀ kp ∈ l.state, mapIndex kp.2 "dispatchOrderId" = kp.1) ∧
    ∀ (env : Env) (function : String) (args : List String),
      ∀ kp ∈ (Invoke env l function args).2.state, mapIndex kp.2 "dispatchOrderId" = kp.1 := by
  have hinv := KeyedInv_of_ReachableBy _ l h
  exact ⟨hinv.1, fun env function args => (KeyedInv_Invoke env l function args hinv).1⟩

/-- Witness of C39: the ledger with order "A" and its voucher. -/
theorem stored_under_own_id_witness :
    ((∀ kp ∈ ledgerVoucher.state, mapIndex kp.2 "dispatchOrderId" = kp.1) ∧
    ∀ (env : Env) (function : String) (args : List String),
      ∀ kp ∈ (Invoke env ledgerVoucher function args).2.state,
        mapIndex kp.2 "dispatchOrderId" = kp.1) ∧
    ledgerVoucher.state.map Prod.fst = ["A"] :=
  ⟨stored_under_own_id ledgerVoucher
    (ReachableBy.step sampleEnv "createVoucher" (sampleArgs "A" "0" "10")
      (ReachableBy_ledgerA _ trivial) trivial),
   by decide⟩

namespace Auction

/-! ## C34: the comparison of a bid time with the closing time -/

end Auction

namespace Auction

/-! ## C32, C33, C40: buying an item at once -/

end Auction

/-! ## The invariant of VoucherTable -/

theorem VoucherInv_of_rows (K : List String → Prop) (l l1 : Ledger)
    (h : tableRows l1 "VoucherTable" = tableRows l "VoucherTable") (hl : VoucherInv K l) :
    VoucherInv K l1 := by
  unfold VoucherInv
  rw [h]
  exact hl

theorem VoucherInv_PutState (K : List String → Prop) (l : Ledger) (k : String) (p : Payload)
    (hl : VoucherInv K l) : VoucherInv K (PutState l k p) :=
  VoucherInv_of_rows K l _ (tableRows_PutState l k p _) hl

theorem VoucherInv_UpdateLedger (K : List String → Prop) (l l1 : Ledger) (name : String)
    (keys : List String) (p : Payload) (hl : VoucherInv K l)
    (h : UpdateLedger l name keys p = .ok l1)
    (hk : name = "VoucherTable" → VoucherKeyed ⟨keys.take 3, p⟩) :
    VoucherInv K l1 := by
  by_cases hn : name = "VoucherTable"
  · subst hn
    have hrows := tableRows_UpdateLedger_same _ _ _ _ _ h
    refine ⟨?_, ?_⟩
    · rw [hrows]
      intro r hr
      rcases List.mem_append.mp hr with h1 | h1
      · exact hl.1 r h1
      · simp only [List.mem_singleton] at h1
        subst h1
        exact hk rfl
    · intro k hkK
      obtain ⟨r, hr, hrk⟩ := hl.2 k hkK
      exact ⟨r, by rw [hrows]; exact List.mem_append_left _ hr, hrk⟩
  · exact VoucherInv_of_rows K l l1
      (tableRows_UpdateLedger_ne _ _ _ _ _ _ h (Ne.symm hn)) hl

theorem VoucherInv_UpdateLedger_other (K : List String → Prop) (l l1 : Ledger) (name : String)
    (keys : List String) (p : Payload) (hl : VoucherInv K l)
    (h : UpdateLedger l name keys p = .ok l1) (hn : name ≠ "VoucherTable") :
    VoucherInv K l1 :=
  VoucherInv_UpdateLedger K l l1 name keys p hl h (fun hname => absurd hname hn)

theorem VoucherInv_ReplaceRowInLedger (K : List String → Prop) (l l1 : Ledger) (name : String)
    (keys : List String) (p : Payload) (hl : VoucherInv K l)
    (h : ReplaceRowInLedger l name keys p = .ok l1)
    (hk : name = "VoucherTable" → VoucherKeyed ⟨keys.take 3, p⟩) :
    VoucherInv K l1 := by
  by_cases hn : name = "VoucherTable"
  · subst hn
    have hrows := tableRows_ReplaceRowInLedger_same _ _ _ _ _ h
    refine ⟨?_, ?_⟩
    · rw [hrows]
      intro r hr
      obtain ⟨r0, hr0, hr1⟩ := List.mem_map.mp hr
      by_cases hkey : r0.keys = List.take (GetNumberOfKeys "VoucherTable") keys
      · simp only [hkey, if_true] at hr1
        subst hr1
        exact hk rfl
      · simp only [hkey, if_false] at hr1
        subst hr1
        exact hl.1 _ hr0
    · intro k hkK
      obtain ⟨r, hr, hrk⟩ := hl.2 k hkK
      rw [hrows]
      by_cases hkey : r.keys = List.take (GetNumberOfKeys "VoucherTable") keys
      · exact ⟨⟨List.take (GetNumberOfKeys "VoucherTable") keys, p⟩,
          List.mem_map.mpr ⟨r, hr, by simp [hkey]⟩, by rw [← hrk, hkey]⟩
      · exact ⟨r, List.mem_map.mpr ⟨r, hr, by simp [hkey]⟩, hrk⟩
  · exact VoucherInv_of_rows K l l1
      (tableRows_ReplaceRowInLedger_ne _ _ _ _ _ _ h (Ne.symm hn)) hl

theorem VoucherInv_historyInsert (K : List String → Prop) (l1 : Ledger) (keys : List String)
    (buffer : Payload) (hl : VoucherInv K l1) :
    VoucherInv K (match UpdateLedger l1 "TransactionHistory" keys buffer with
      | .ok l2 => (Outcome.ok .nil, l2)
      | .error _ => (Outcome.ok .nil, l1)
      | .fault => (Outcome.fault, l1)).2 := by
  split
  · rename_i l2 h2
    exact VoucherInv_UpdateLedger_other K l1 l2 _ _ _ hl h2 (by decide)
  · exact hl
  · exact hl

theorem VoucherInv_createDispatchOrder (K : List String → Prop) (env : Env) (l : Ledger)
    (args : List String) (hl : VoucherInv K l) :
    VoucherInv K (createDispatchOrder env l args).2 := by
  unfold createDispatchOrder
  split
  · exact hl
  · split
    · exact hl
    · simp only
      split
      · exact VoucherInv_PutState K l _ _ hl
      · exact VoucherInv_historyInsert K _ _ _ (VoucherInv_PutState K l _ _ hl)

theorem VoucherInv_updateDispatchOrder (K : List String → Prop) (env : Env) (l : Ledger)
    (args : List String) (hl : VoucherInv K l) :
    VoucherInv K (updateDispatchOrder env l args).2 := by
  unfold updateDispatchOrder
  split
  · exact hl
  · simp only
    split
    · exact hl
    · split
      · exact VoucherInv_PutState K l _ _ hl
      · exact VoucherInv_historyInsert K _ _ _ (VoucherInv_PutState K l _ _ hl)

theorem VoucherInv_invokeAsset (K : List String → Prop) (env : Env) (l : Ledger)
    (args : List String) (hl : VoucherInv K l) : VoucherInv K (invokeAsset env l args).2 := by
  unfold invokeAsset
  split
  · exact hl
  · simp only
    split
    · rename_i l1 h1
      exact VoucherInv_UpdateLedger_other K l l1 _ _ _ hl h1 (by decide)
    · exact hl
    · exact hl

theorem VoucherInv_invokeDocument (K : List String → Prop) (env : Env) (l : Ledger)
    (args : List String) (hl : VoucherInv K l) :
    VoucherInv K (invokeDocument env l args).2 := by
  unfold invokeDocument
  split
  · exact hl
  · simp only
    split
    · rename_i l1 h1
      exact VoucherInv_UpdateLedger_other K l l1 _ _ _ hl h1 (by decide)
    · exact hl
    · exact hl

theorem VoucherInv_voucherTail (K : List String → Prop) (env : Env) (l : Ledger)
    (v : VoucherObject) (buf : Payload) (kTime kKey : Nat) (hl : VoucherInv K l) :
    VoucherInv K (voucherTail env l v buf kTime kKey).2 := by
  unfold voucherTail
  split
  · exact hl
  · simp only
    split
    · exact VoucherInv_PutState K l _ _ hl
    · exact VoucherInv_historyInsert K _ _ _ (VoucherInv_PutState K l _ _ hl)

theorem VoucherInv_createVoucher (K : List String → Prop) (env : Env) (l : Ledger)
    (args : List String) (hl : VoucherInv K l) :
    VoucherInv K (createVoucher env l args).2 := by
  unfold createVoucher
  split
  · exact hl
  · split
    · exact hl
    · simp only
      split
      · exact hl
      · exact hl
      · rename_i l1 h1
        refine VoucherInv_voucherTail K env l1 _ _ 2 3
          (VoucherInv_UpdateLedger K l l1 _ _ _ hl h1 (fun _ => Or.inl ?_))
        rw [JSONtoVO_voToJSON]
        rfl

theorem VoucherInv_updateVoucher (K : List String → Prop) (env : Env) (l : Ledger)
    (args : List String) (hl : VoucherInv K l) :
    VoucherInv K (updateVoucher env l args).2 := by
  unfold updateVoucher
  split
  · exact hl
  · split
    · exact hl
    · simp only
      split
      · exact hl
      · exact hl
      · rename_i l1 h1
        refine VoucherInv_voucherTail K env l1 _ _ 2 3
          (VoucherInv_ReplaceRowInLedger K l l1 _ _ _ hl h1 (fun _ => Or.inl ?_))
        rw [JSONtoVO_voToJSON]
        rfl

theorem VoucherInv_stampVoucherAndOrder (K : List String → Prop) (l l2 : Ledger)
    (invoiceID : String) (v : VoucherObject) (dat : Payload) (hl : VoucherInv K l)
    (hstage : v.Stage ≠ "invoice")
    (h : stampVoucherAndOrder l invoiceID v dat = .ok l2) : VoucherInv K l2 := by
  obtain ⟨l1, h1, h2⟩ := stampVoucherAndOrder_ok l l2 invoiceID v dat h
  subst h2
  refine VoucherInv_PutState K l1 _ _ (VoucherInv_UpdateLedger K l l1 _ _ _ hl h1
    (fun _ => Or.inr ⟨v.Stage, hstage, ?_⟩))
  rw [JSONtoVO_voToJSON]
  rfl

theorem VoucherInv_createInvoiceLoop (K : List String → Prop) (invoiceID : String)
    (ids : List String) :
    ∀ (acc : Int) (l : Ledger), VoucherInv K l →
      VoucherInv K (createInvoiceLoop invoiceID ids acc l).2 := by
  induction ids with
  | nil => intro acc l hl; exact hl
  | cons id rest ih =>
    intro acc l hl
    unfold createInvoiceLoop
    split
    · exact hl
    · split
      · exact hl
      · simp only
        split
        · exact hl
        · rename_i l2 h2
          exact ih _ l2 (VoucherInv_stampVoucherAndOrder K l l2 _ _ _ hl
            (show Itoa STATE_INVOICE_GENERATED ≠ "invoice" by decide) h2)

theorem VoucherInv_validateInvoiceLoop (K : List String → Prop) (invoiceID : String)
    (ids : List String) :
    ∀ (l : Ledger), VoucherInv K l → VoucherInv K (validateInvoiceLoop invoiceID ids l).2 := by
  induction ids with
  | nil => intro l hl; exact hl
  | cons id rest ih =>
    intro l hl
    unfold validateInvoiceLoop
    split
    · exact hl
    · simp only
      split
      · exact hl
      · rename_i l2 h2
        exact ih l2 (VoucherInv_stampVoucherAndOrder K l l2 _ _ _ hl
          (show Itoa STATE_INVOICE_VALIDATED ≠ "invoice" by decide) h2)

theorem VoucherInv_mapAssetLoop (K : List String → Prop) (orderID : String) (dat : Payload)
    (ids : List String) :
    ∀ (l : Ledger), VoucherInv K l → VoucherInv K (mapAssetLoop orderID dat dat ids l).2 := by
  induction ids with
  | nil => intro l hl; exact hl
  | cons id rest ih =>
    intro l hl
    unfold mapAssetLoop
    split
    · exact hl
    · exact hl
    · simp only
      split
      · exact hl
      · exact hl
      · rename_i l1 h1
        exact ih _ (VoucherInv_PutState K l1 _ _
          (VoucherInv_ReplaceRowInLedger K l l1 _ _ _ hl h1
            (fun hname => absurd hname (by decide))))

theorem VoucherInv_mapAsset (K : List String → Prop) (env : Env) (l : Ledger)
    (args : List String) (hl : VoucherInv K l) : VoucherInv K (mapAsset env l args).2 := by
  unfold mapAsset
  split
  · exact hl
  · split
    · exact hl
    · split
      · exact hl
      · simp only
        split
        · rename_i o l1 heq
          rw [← congrArg Prod.snd heq]
          exact VoucherInv_mapAssetLoop K _ _ _ l hl
        · rename_i l1 heq
          rw [← congrArg Prod.snd heq]
          exact VoucherInv_mapAssetLoop K _ _ _ l hl

theorem VoucherInv_createInvoice (K : List String → Prop) (env : Env) (l : Ledger)
    (args : List String) (hl : VoucherInv K l) :
    VoucherInv K (createInvoice env l args).2 := by
  unfold createInvoice
  split
  · rename_i invoiceID voucherIds rest
    have h1 := VoucherInv_createInvoiceLoop K invoiceID (Split voucherIds) 0 l hl
    split
    · rename_i o l1 heq
      rw [heq] at h1
      exact h1
    · rename_i amount l1 heq
      rw [heq] at h1
      simp only
      split
      · exact h1
      · split
        · exact h1
        · exact h1
        · rename_i l2 h2
          exact VoucherInv_UpdateLedger_other K l1 l2 _ _ _ h1 h2 (by decide)
  · exact hl

theorem VoucherInv_validateInvoice (K : List String → Prop) (env : Env) (l : Ledger)
    (args : List String) (hl : VoucherInv K l) :
    VoucherInv K (validateInvoice env l args).2 := by
  unfold validateInvoice
  split
  · exact hl
  · simp only
    split
    · exact hl
    · exact hl
    · split
      · exact hl
      · exact hl
      · rename_i l1 h1
        have hl1 : VoucherInv K l1 :=
          VoucherInv_UpdateLedger_other K l l1 _ _ _ hl h1 (by decide)
        split
        · rename_i o l2 heq
          rw [← congrArg Prod.snd heq]
          exact VoucherInv_validateInvoiceLoop K _ _ l1 hl1
        · rename_i l2 heq
          rw [← congrArg Prod.snd heq]
          exact VoucherInv_validateInvoiceLoop K _ _ l1 hl1

theorem VoucherInv_Invoke (K : List String → Prop) (env : Env) (l : Ledger)
    (function : String) (args : List String)
    (hl : VoucherInv K l) : VoucherInv K (Invoke env l function args).2 := by
  unfold Invoke
  split_ifs with h1 h2 h3 h4 h5 h6 h7 h8 h9
  · exact VoucherInv_createDispatchOrder K env l args hl
  · exact VoucherInv_updateDispatchOrder K env l args hl
  · exact VoucherInv_invokeAsset K env l args hl
  · exact VoucherInv_mapAsset K env l args hl
  · exact VoucherInv_invokeDocument K env l args hl
  · exact VoucherInv_createVoucher K env l args hl
  · exact VoucherInv_updateVoucher K env l args hl
  · exact VoucherInv_createInvoice K env l args hl
  · exact VoucherInv_validateInvoice K env l args hl
  · exact hl

theorem VoucherInv_commit (K : List String → Prop) (env : Env) (l : Ledger)
    (function : String) (args : List String)
    (hl : VoucherInv K l) : VoucherInv K (commit l (Invoke env l function args)) := by
  unfold commit
  split
  · exact VoucherInv_Invoke K env l function args hl
  · exact hl

theorem VoucherInv_of_Reachable (l : Ledger) (h : Reachable l) :
    VoucherInv (fun _ => False) l := by
  induction h with
  | init =>
    have hrows : tableRows emptyLedger "VoucherTable" = [] := by decide
    refine ⟨fun r hr => ?_, fun k hk => absurd hk id⟩
    rw [hrows] at hr
    exact absurd hr (List.not_mem_nil r)
  | step env function args _ _ ih => exact VoucherInv_commit _ env _ function args ih

theorem VoucherInv_of_LaterBy (allowed : String → List String → Prop) (K : List String → Prop)
    (l l1 : Ledger) (hl : VoucherInv K l) (h : LaterBy allowed l l1) : VoucherInv K l1 := by
  induction h with
  | refl => exact hl
  | step env function args _ _ ih => exact VoucherInv_commit K env _ function args ih

/-! ## Repeated invoicing -/

/-- Under the invariant of VoucherTable and the pairing of the voucher `id`, every row
under the prefix ("voucher", id) holds a voucher whose DispatchOrderID is `id`,
whichever of them a scan meets first. -/
theorem DispatchOrderID_of_paired (K : List String → Prop) (id : String) (l : Ledger)
    (r : Row) (hl : VoucherInv K l) (hp : Paired id l) (hr : r ∈ tableRows l "VoucherTable")
    (hpre : ["voucher", id].isPrefixOf r.keys = true) :
    (JSONtoVO r.payload).DispatchOrderID = id := by
  rcases hl.1 r hr with hk | ⟨s, -, hk⟩
  · rw [hk] at hpre
    simp only [List.isPrefixOf, Bool.and_true, Bool.and_eq_true, beq_iff_eq, true_and] at hpre
    rw [← hpre] at hk
    rw [← hp r hr hk]
    exact hpre.symm
  · rw [hk] at hpre
    simp only [List.isPrefixOf, Bool.and_true, Bool.and_eq_true, beq_iff_eq, true_and] at hpre
    exact hpre.symm

theorem Paired_stamp (id : String) (l l2 : Ledger) (invoiceID : String) (w : VoucherObject)
    (dat : Payload) (hp : Paired id l) (hstage : w.Stage ≠ "invoice")
    (h : stampVoucherAndOrder l invoiceID w dat = .ok l2) : Paired id l2 := by
  intro r hr hk
  rw [tableRows_stamp _ _ _ _ _ h] at hr
  rcases List.mem_append.mp hr with h1 | h1
  · exact hp r h1 hk
  · simp only [List.mem_singleton] at h1
    subst h1
    simp only [List.cons.injEq, and_true, true_and] at hk
    exact absurd hk.2 hstage

/-- The voucher `getVoucherFromTable` returns is the one of the first row under the
prefix, in the order of the table. -/
theorem getVoucherFromTable_first (l : Ledger) (key : List String) (v : VoucherObject)
    (h : getVoucherFromTable l key = .ok v) :
    ∃ r rest, (tableRows l "VoucherTable").filter (fun r => key.isPrefixOf r.keys) = r :: rest ∧
      v = JSONtoVO r.payload := by
  unfold getVoucherFromTable GetList GetRows at h
  by_cases hlen : key.length < 1
  · simp [hlen] at h
  · simp only [hlen, if_false] at h
    cases hrows : assocGet "VoucherTable" l.tables with
    | none => simp [hrows] at h
    | some rows =>
      simp only [hrows] at h
      cases hf : rows.filter (fun r => key.isPrefixOf r.keys) with
      | nil => simp [hf] at h
      | cons r rest =>
        simp only [hf, Res.ok.injEq] at h
        exact ⟨r, rest, by simp only [tableRows, hrows, Option.getD_some, hf], h.symm⟩

theorem getVoucherFromTable_of_first (l : Ledger) (id : String) (r : Row) (rest : List Row)
    (h : (tableRows l "VoucherTable").filter (fun r => ["voucher", id].isPrefixOf r.keys)
      = r :: rest) :
    getVoucherFromTable l ["voucher", id] = .ok (JSONtoVO r.payload) := by
  unfold getVoucherFromTable GetList GetRows
  cases hrows : assocGet "VoucherTable" l.tables with
  | none => simp [tableRows, hrows] at h
  | some rows =>
    simp only [tableRows, hrows, Option.getD_some] at h
    simp [h]

/-- A voucher ID that has a row is never the cause of a failed index. -/
theorem getVoucherFromTable_present (l : Ledger) (id : String) (r : Row)
    (hr : r ∈ tableRows l "VoucherTable") (hpre : ["voucher", id].isPrefixOf r.keys = true) :
    ∃ v, getVoucherFromTable l ["voucher", id] = .ok v := by
  cases hf : (tableRows l "VoucherTable").filter (fun r => ["voucher", id].isPrefixOf r.keys) with
  | nil =>
    have hmem : r ∈ (tableRows l "VoucherTable").filter
        (fun r => ["voucher", id].isPrefixOf r.keys) := List.mem_filter.mpr ⟨hr, hpre⟩
    rw [hf] at hmem
    exact absurd hmem (List.not_mem_nil r)
  | cons r0 rest => exact ⟨_, getVoucherFromTable_of_first l id r0 rest hf⟩

theorem Spent_stamp (id : String) (l l2 : Ledger) (invoiceID : String) (w : VoucherObject)
    (dat : Payload) (hl : Spent id l) (hw : w.Stage = Itoa STATE_INVOICE_GENERATED)
    (h : stampVoucherAndOrder l invoiceID w dat = .ok l2) : Spent id l2 := by
  have hrows := tableRows_stamp l l2 invoiceID w dat h
  intro v hv
  obtain ⟨r, rest, hf, hvr⟩ := getVoucherFromTable_first _ _ _ hv
  rw [hrows, List.filter_append] at hf
  cases hold : (tableRows l "VoucherTable").filter
      (fun r => ["voucher", id].isPrefixOf r.keys) with
  | nil =>
    rw [hold, List.nil_append] at hf
    have hmem : r ∈ List.filter (fun r => ["voucher", id].isPrefixOf r.keys)
        [(⟨["voucher", w.DispatchOrderID, w.Stage], voToJSON w⟩ : Row)] := by simp [hf]
    rw [List.mem_filter, List.mem_singleton] at hmem
    refine ⟨r, ?_, ?_⟩
    · rw [hrows]
      exact List.mem_append_right _ (by rw [hmem.1]; exact List.mem_singleton_self _)
    · rw [hvr, hmem.1, JSONtoVO_voToJSON, hw]
  | cons r0 rest0 =>
    rw [hold, List.cons_append] at hf
    simp only [List.cons.injEq] at hf
    have h0 := getVoucherFromTable_of_first l id r0 rest0 hold
    rw [hf.1, ← hvr] at h0
    obtain ⟨r1, hr1, hk1⟩ := hl v h0
    exact ⟨r1, by rw [hrows]; exact List.mem_append_left _ hr1, hk1⟩

/-- Once the loop of `createInvoice` has stamped the voucher loaded for `id`, that ID
is spent. -/
theorem Spent_own (id : String) (l l2 : Ledger) (invoiceID stage : String) (v0 : VoucherObject)
    (dat : Payload) (hload : loadVoucherAndOrder l id stage = .ok (v0, dat))
    (h : stampVoucherAndOrder l invoiceID
      { v0 with Stage := Itoa STATE_INVOICE_GENERATED } dat = .ok l2) : Spent id l2 := by
  obtain ⟨hv0, -⟩ := loadVoucherAndOrder_ok _ _ _ _ _ hload
  have hv2 := getVoucherFromTable_mono _ _ _ _ (VoucherExt_stamp _ _ _ _ _ h) hv0
  intro v hv
  rw [hv2] at hv
  simp only [Res.ok.injEq] at hv
  subst hv
  refine ⟨⟨["voucher", v0.DispatchOrderID, Itoa STATE_INVOICE_GENERATED],
    voToJSON { v0 with Stage := Itoa STATE_INVOICE_GENERATED }⟩, ?_, rfl⟩
  rw [tableRows_stamp _ _ _ _ _ h]
  exact List.mem_append_right _ (List.mem_singleton_self _)

/-- The loop of `createInvoice` does not get past a spent voucher ID: the row it would
insert is already in the table. -/
theorem createInvoiceLoop_spent (invoiceID id : String) (ids : List String) :
    ∀ (acc : Int) (l : Ledger), Spent id l → id ∈ ids →
      ∃ o, (createInvoiceLoop invoiceID ids acc l).1 = .error o := by
  induction ids with
  | nil => intro acc l _ hmem; simp at hmem
  | cons id1 rest ih =>
    intro acc l hl hmem
    unfold createInvoiceLoop
    split
    · exact ⟨_, rfl⟩
    · rename_i v0 dat hload
      split
      · exact ⟨_, rfl⟩
      · simp only
        split
        · exact ⟨_, rfl⟩
        · rename_i l2 h2
          by_cases hid : id1 = id
          · subst hid
            exfalso
            obtain ⟨hv0, -⟩ := loadVoucherAndOrder_ok _ _ _ _ _ hload
            obtain ⟨r, hr, hkeys⟩ := hl v0 hv0
            obtain ⟨l1, h1, -⟩ := stampVoucherAndOrder_ok _ _ _ _ _ h2
            obtain ⟨-, rows, hrows, hfresh, -⟩ := UpdateLedger_ok _ _ _ _ _ h1
            have hr2 : r ∈ rows := by simpa [tableRows, hrows] using hr
            apply hfresh r hr2
            rw [hkeys]
            rfl
          · have hmem2 : id ∈ rest := by
              rcases List.mem_cons.mp hmem with h3 | h3
              · exact absurd h3.symm hid
              · exact h3
            exact ih _ l2 (Spent_stamp id l l2 _ _ _ hl rfl h2) hmem2

/-- The loop of `createInvoice` does not complete over a list that names a voucher ID
twice, whatever the ledger. -/
theorem createInvoiceLoop_repeated (invoiceID id : String) (ids : List String) :
    ∀ (acc : Int) (l : Ledger), 2 ≤ ids.count id →
      ∃ o, (createInvoiceLoop invoiceID ids acc l).1 = .error o := by
  induction ids with
  | nil => intro acc l h; simp at h
  | cons id1 rest ih =>
    intro acc l hcount
    by_cases hid : id1 = id
    · subst hid
      have hmem : id1 ∈ rest := by
        rw [List.count_cons_self] at hcount
        exact List.count_pos_iff.mp (by omega)
      unfold createInvoiceLoop
      split
      · exact ⟨_, rfl⟩
      · rename_i v0 dat hload
        split
        · exact ⟨_, rfl⟩
        · simp only
          split
          · exact ⟨_, rfl⟩
          · rename_i l2 h2
            exact createInvoiceLoop_spent invoiceID id1 rest _ l2
              (Spent_own id1 l l2 _ _ _ _ hload h2) hmem
    · have hcount2 : 2 ≤ rest.count id := by
        rwa [List.count_cons_of_ne (fun h => hid h.symm)] at hcount
      unfold createInvoiceLoop
      split
      · exact ⟨_, rfl⟩
      · split
        · exact ⟨_, rfl⟩
        · simp only
          split
          · exact ⟨_, rfl⟩
          · exact ih _ _ hcount2

/-- Under the invariant of VoucherTable, a paired voucher ID whose stamped key is in the
set is spent. -/
theorem Spent_of_VoucherInv (K : List String → Prop) (id : String) (l : Ledger)
    (hl : VoucherInv K l) (hp : Paired id l)
    (hk : K ["voucher", id, Itoa STATE_INVOICE_GENERATED]) : Spent id l := by
  intro v hv
  obtain ⟨r, hr, hpre, hvr⟩ := getVoucherFromTable_ok _ _ _ hv
  rw [hvr, DispatchOrderID_of_paired K id l r hl hp hr hpre]
  exact hl.2 _ hk

/-- When every listed ID has a row in VoucherTable, the loop of `createInvoice` does
not end in a failed index. -/
theorem createInvoiceLoop_no_fault (invoiceID : String) (ids : List String) :
    ∀ (acc : Int) (l : Ledger),
      (∀ x ∈ ids, ∃ r ∈ tableRows l "VoucherTable", ["voucher", x].isPrefixOf r.keys = true) →
      (createInvoiceLoop invoiceID ids acc l).1 ≠ .error .fault := by
  induction ids with
  | nil => intro acc l _; simp [createInvoiceLoop]
  | cons id rest ih =>
    intro acc l hall
    obtain ⟨r, hr, hpre⟩ := hall id (List.mem_cons_self _ _)
    obtain ⟨v, hv⟩ := getVoucherFromTable_present l id r hr hpre
    unfold createInvoiceLoop
    split
    · rename_i o hload
      unfold loadVoucherAndOrder at hload
      rw [hv] at hload
      simp only at hload
      split at hload
      · simp only [Except.error.injEq] at hload
        subst hload
        simp
      · simp at hload
    · rename_i v0 dat hload
      split
      · simp
      · simp only
        split
        · rename_i o hstamp
          unfold stampVoucherAndOrder at hstamp
          simp only at hstamp
          split at hstamp
          · simp only [Except.error.injEq] at hstamp
            subst hstamp
            simp
          · rename_i hup
            simp [UpdateLedger, GetNumberOfKeys] at hup
            repeat' split at hup
            all_goals simp at hup
          · simp at hstamp
        · rename_i l2 h2
          refine ih _ l2 (fun x hx => ?_)
          obtain ⟨r1, hr1, hp1⟩ := hall x (List.mem_cons_of_mem _ hx)
          exact ⟨r1, by rw [tableRows_stamp _ _ _ _ _ h2]; exact List.mem_append_left _ hr1, hp1⟩

/-- Under the invariant of VoucherTable, a completed loop of `createInvoice` over a list
that names the paired voucher `id` leaves the row keyed ("voucher", id, "11"). -/
theorem createInvoiceLoop_stamped (K : List String → Prop) (invoiceID id : String)
    (ids : List String) :
    ∀ (acc : Int) (l : Ledger) (total : Int) (l1 : Ledger), VoucherInv K l → Paired id l →
      createInvoiceLoop invoiceID ids acc l = (.ok total, l1) → id ∈ ids →
      ∃ r ∈ tableRows l1 "VoucherTable",
        r.keys = ["voucher", id, Itoa STATE_INVOICE_GENERATED] := by
  induction ids with
  | nil => intro acc l total l1 _ _ _ hid; simp at hid
  | cons id1 rest ih =>
    intro acc l total l1 hl hp h hid
    unfold createInvoiceLoop at h
    split at h
    · simp at h
    · rename_i v0 dat hload
      split at h
      · simp at h
      · simp only at h
        split at h
        · simp at h
        · rename_i l2 h2
          have hstage : Itoa STATE_INVOICE_GENERATED ≠ "invoice" := by decide
          rcases List.mem_cons.mp hid with h3 | h3
          · subst h3
            obtain ⟨hv0, -⟩ := loadVoucherAndOrder_ok _ _ _ _ _ hload
            obtain ⟨r, hr, hpre, hvr⟩ := getVoucherFromTable_ok _ _ _ hv0
            have hdo : v0.DispatchOrderID = id := by
              rw [hvr]
              exact DispatchOrderID_of_paired K id l r hl hp hr hpre
            obtain ⟨vs, -, hrows⟩ := createInvoiceLoop_rows _ _ _ _ _ _ h
            refine ⟨⟨["voucher", v0.DispatchOrderID, Itoa STATE_INVOICE_GENERATED],
              voToJSON { v0 with Stage := Itoa STATE_INVOICE_GENERATED }⟩, ?_, by rw [hdo]⟩
            rw [hrows, tableRows_stamp _ _ _ _ _ h2]
            exact List.mem_append_left _ (List.mem_append_right _ (List.mem_singleton_self _))
          · exact ih _ l2 total l1 (VoucherInv_stampVoucherAndOrder K l l2 _ _ _ hl hstage h2)
              (Paired_stamp id l l2 _ _ _ hp hstage h2) h h3

/-- Under the invariant of VoucherTable, a successful `createInvoice` over a list that
names the paired voucher `id` leaves the row keyed ("voucher", id, "11"). -/
theorem createInvoice_stamped (K : List String → Prop) (env : Env) (l : Ledger)
    (args : List String) (r : Reply) (id : String) (hl : VoucherInv K l) (hp : Paired id l)
    (h : (createInvoice env l args).1 = .ok r) (hid : id ∈ Split (argAt args 1)) :
    ∃ row ∈ tableRows (createInvoice env l args).2 "VoucherTable",
      row.keys = ["voucher", id, Itoa STATE_INVOICE_GENERATED] := by
  unfold createInvoice at h ⊢
  split at h
  · rename_i invoiceID voucherIds more
    simp only
    have hid2 : id ∈ Split voucherIds := hid
    split at h
    · rename_i o l1 hloop
      exact absurd h (createInvoiceLoop_error _ _ _ _ _ _ hloop r)
    · rename_i total l1 hloop
      obtain ⟨row, hrow, hkeys⟩ := createInvoiceLoop_stamped K _ id _ _ _ _ _ hl hp hloop hid2
      simp only at h ⊢
      split at h
      · simp at h
      · split at h
        · simp at h
        · simp at h
        · rename_i l2 h2
          simp only [h2]
          exact ⟨row, by rw [tableRows_UpdateLedger_ne _ _ _ _ _ _ h2 (by decide)]; exact hrow,
            hkeys⟩
  · simp at h

theorem Invoke_createInvoice (env : Env) (l : Ledger) (args : List String) :
    Invoke env l "createInvoice" args = createInvoice env l args := by
  unfold Invoke
  simp

theorem commit_ok (l l1 : Ledger) (o : Outcome) (r : Reply) (h : o = .ok r) :
    commit l (o, l1) = l1 := by
  subst h
  rfl

/-- `createInvoice` over a list with a spent or repeated ID: it does not succeed,
InvoiceTable is left as it was, and the outcome is an error return when every listed
ID has a row in VoucherTable. -/
theorem createInvoice_stopped (env : Env) (l : Ledger) (invoiceID voucherIds : String)
    (more : List String)
    (hstop : ∃ o, (createInvoiceLoop invoiceID (Split voucherIds) 0 l).1 = .error o) :
    (∀ r, (createInvoice env l (invoiceID :: voucherIds :: more)).1 ≠ .ok r) ∧
    tableRows (createInvoice env l (invoiceID :: voucherIds :: more)).2 "InvoiceTable"
      = tableRows l "InvoiceTable" ∧
    ((∀ x ∈ Split voucherIds, ∃ row ∈ tableRows l "VoucherTable",
        ["voucher", x].isPrefixOf row.keys = true) →
      ∃ reply msg, (createInvoice env l (invoiceID :: voucherIds :: more)).1
        = .error reply msg) := by
  obtain ⟨o, ho⟩ := hstop
  have hinv := createInvoiceLoop_other invoiceID "InvoiceTable" (by decide)
    (Split voucherIds) 0 l
  have hnf := createInvoiceLoop_no_fault invoiceID (Split voucherIds) 0 l
  unfold createInvoice
  simp only
  split
  · rename_i o1 l1 hloop
    rw [hloop] at hinv hnf
    have hfail := createInvoiceLoop_error _ _ _ _ _ _ hloop
    refine ⟨hfail, by simp only [tableRows, hinv], fun hall => ?_⟩
    have h1 := hnf hall
    cases o1 with
    | ok r => exact absurd rfl (hfail r)
    | error reply msg => exact ⟨reply, msg, rfl⟩
    | fault => exact absurd rfl h1
  · rename_i total l1 hloop
    rw [hloop] at ho
    simp at ho

/-- C38. A voucher is not invoiced twice. `createInvoice` does not succeed and leaves
InvoiceTable as it was when its list names a voucher ID twice, or names a voucher ID
that was in the list of an earlier successful `createInvoice`, for a voucher that has
the pairing VoucherID = DispatchOrderID of `createVoucher` at both calls. The history
is arbitrary: before, between and after the two calls any operations may have run on
other vouchers and orders. When every listed ID has a row in VoucherTable the outcome
is an error return. -/
theorem createInvoice_twice (env : Env) (l : Ledger) (invoiceID voucherIds : String)
    (more : List String) (id : String)
    (hcase : 2 ≤ (Split voucherIds).count id ∨
      (id ∈ Split voucherIds ∧ Paired id l ∧
        ∃ (env0 : Env) (l0 : Ledger) (args0 : List String) (r0 : Reply),
          Reachable l0 ∧ Paired id l0 ∧
          (Invoke env0 l0 "createInvoice" args0).1 = .ok r0 ∧
          id ∈ Split (argAt args0 1) ∧
          LaterBy (fun _ _ => True) (commit l0 (Invoke env0 l0 "createInvoice" args0)) l)) :
    (∀ r, (createInvoice env l (invoiceID :: voucherIds :: more)).1 ≠ .ok r) ∧
    tableRows (createInvoice env l (invoiceID :: voucherIds :: more)).2 "InvoiceTable"
      = tableRows l "InvoiceTable" ∧
    ((∀ x ∈ Split voucherIds, ∃ row ∈ tableRows l "VoucherTable",
        ["voucher", x].isPrefixOf row.keys = true) →
      ∃ reply msg, (createInvoice env l (invoiceID :: voucherIds :: more)).1
        = .error reply msg) := by
  apply createInvoice_stopped
  rcases hcase with hrep | ⟨hid, hp, env0, l0, args0, r0, hreach, hp0, hok, hid0, hlater⟩
  · exact createInvoiceLoop_repeated invoiceID id _ 0 l hrep
  · have h0 := VoucherInv_of_Reachable l0 hreach
    rw [Invoke_createInvoice] at hok hlater
    have hcommit : commit l0 (createInvoice env0 l0 args0) = (createInvoice env0 l0 args0).2 :=
      commit_ok l0 _ _ r0 hok
    rw [hcommit] at hlater
    have h1 : VoucherInv (fun k => k = ["voucher", id, Itoa STATE_INVOICE_GENERATED])
        (createInvoice env0 l0 args0).2 := by
      refine ⟨(VoucherInv_createInvoice _ env0 l0 args0 h0).1, fun k hk => ?_⟩
      rw [hk]
      exact createInvoice_stamped _ env0 l0 args0 r0 id h0 hp0 hok hid0
    have h2 := VoucherInv_of_LaterBy _ _ _ l h1 hlater
    exact createInvoiceLoop_spent invoiceID id _ 0 l (Spent_of_VoucherInv _ id l h2 hp rfl) hid

/-- Witness of C38: in `ledgerVoucher` an invoice over "A,A" is not created; and in
`ledgerRelinked`, where invoice "I" was created over the voucher "A" and the voucher
"B" was then linked to the order "A", a second invoice over "A" is not created. -/
theorem createInvoice_twice_witness :
    ((∀ r, (createInvoice sampleEnv ledgerVoucher ["J", "A,A"]).1 ≠ .ok r) ∧
      tableRows (createInvoice sampleEnv ledgerVoucher ["J", "A,A"]).2 "InvoiceTable"
        = tableRows ledgerVoucher "InvoiceTable" ∧
      ((∀ x ∈ Split "A,A", ∃ row ∈ tableRows ledgerVoucher "VoucherTable",
          ["voucher", x].isPrefixOf row.keys = true) →
        ∃ reply msg, (createInvoice sampleEnv ledgerVoucher ["J", "A,A"]).1
          = .error reply msg)) ∧
    ((∀ r, (createInvoice sampleEnv ledgerRelinked ["J", "A"]).1 ≠ .ok r) ∧
      tableRows (createInvoice sampleEnv ledgerRelinked ["J", "A"]).2 "InvoiceTable"
        = tableRows ledgerRelinked "InvoiceTable" ∧
      ((∀ x ∈ Split "A", ∃ row ∈ tableRows ledgerRelinked "VoucherTable",
          ["voucher", x].isPrefixOf row.keys = true) →
        ∃ reply msg, (createInvoice sampleEnv ledgerRelinked ["J", "A"]).1
          = .error reply msg)) ∧
    (tableRows ledgerRelinked "VoucherTable").map
        (fun r => (r.keys, (JSONtoVO r.payload).VoucherID, (JSONtoVO r.payload).DispatchOrderID))
      = [(["voucher", "A", "invoice"], "A", "A"), (["voucher", "B", "invoice"], "B", "A"),
         (["voucher", "A", "11"], "A", "A")] :=
  ⟨createInvoice_twice sampleEnv ledgerVoucher "J" "A,A" [] "A" (Or.inl (by decide)),
   createInvoice_twice sampleEnv ledgerRelinked "J" "A" [] "A"
    (Or.inr ⟨by decide, by unfold Paired; decide, sampleEnv, ledgerTwoVouchers, ["I", "A"],
      .text "Invoice Created",
      ReachableBy.step sampleEnv "createVoucher" (sampleArgs "B" "0" "10")
        (ReachableBy.step sampleEnv "createDispatchOrder" (sampleArgs "B" "0" "10")
          (ReachableBy.step sampleEnv "createVoucher" (sampleArgs "A" "0" "10")
            (ReachableBy_ledgerA _ trivial) trivial) trivial) trivial,
      by unfold Paired; decide, by decide, by decide,
      LaterBy.step sampleEnv "updateVoucher" relinkArgs LaterBy.refl trivial⟩),
   by decide⟩

end Bel
